import Mathlib

/-!
# Pico FIDO authenticator core: GetAssertion, GetNextAssertion and key handles

A shallow embedding of `src/fido/cbor_get_assertion.c`, of the key-handle
functions of `src/fido/fido.c`, of `cmd_authenticate` (`src/fido/cmd_authenticate.c`)
and of `cmd_validate` (`src/fido/oath.c`).  Byte buffers are lists of naturals, `const bool *`
fields are `Option Bool` (`NULL`, `ptrue`, `pfalse`), C arrays are lists accessed
with `getD` and `set`, and machine integers are naturals reduced modulo `2 ^ w`
where the C arithmetic can wrap.
-/

namespace PicoFido

/-! ## Data model (credential.h) -/

/-- A byte buffer; `CborByteString` and `CborCharString` are `Option Bytes`,
`none` standing for `present == false`. -/
abbrev Bytes := List Nat

/-- The struct `CredOptions` of credential.h. -/
structure CredOptions where
  rk : Option Bool
  up : Option Bool
  uv : Option Bool
  present : Bool
deriving DecidableEq

/-- The struct `CredExtensions` of credential.h. -/
structure CredExtensions where
  hmac_secret : Option Bool
  credProtect : Nat
  minPinLength : Option Bool
  credBlob : Option Bytes
  largeBlobKey : Option Bool
  thirdPartyPayment : Option Bool
  present : Bool
deriving DecidableEq

/-- The struct `Credential` of credential.h. -/
structure Credential where
  rpId : Option Bytes
  userId : Option Bytes
  userName : Option Bytes
  userDisplayName : Option Bytes
  creation : Nat
  extensions : CredExtensions
  use_sign_count : Option Bool
  alg : Int
  curve : Int
  id : Option Bytes
  opts : CredOptions
  present : Bool
deriving DecidableEq

/-- A zero-initialised `CredOptions` (`= { 0 }`). -/
def CredOptions.zero : CredOptions :=
  { rk := none, up := none, uv := none, present := false }

/-- A zero-initialised `CredExtensions` (`= { 0 }`). -/
def CredExtensions.zero : CredExtensions :=
  { hmac_secret := none, credProtect := 0, minPinLength := none, credBlob := none,
    largeBlobKey := none, thirdPartyPayment := none, present := false }

/-- A zero-initialised `Credential` slot (`Credential creds[...] = { 0 }`). -/
def Credential.zero : Credential :=
  { rpId := none, userId := none, userName := none, userDisplayName := none,
    creation := 0, extensions := CredExtensions.zero, use_sign_count := none,
    alg := 0, curve := 0, id := none, opts := CredOptions.zero, present := false }

instance : Inhabited Credential := ⟨Credential.zero⟩

def CRED_PROT_UV_OPTIONAL : Nat := 0x01
def CRED_PROT_UV_OPTIONAL_WITH_LIST : Nat := 0x02
def CRED_PROT_UV_REQUIRED : Nat := 0x03

/-! ## The ordering step of `cbor_get_assertion` (lines 347-355) -/

/-- The body of the inner loop: `if (creds[j].creation > creds[i].creation)` swap
slots `i` and `j` through `tmp`. -/
def sortSwap (i : Nat) (creds : List Credential) (j : Nat) : List Credential :=
  if (creds.getD j Credential.zero).creation > (creds.getD i Credential.zero).creation then
    let tmp := creds.getD j Credential.zero
    (creds.set j (creds.getD i Credential.zero)).set i tmp
  else creds

/-- The inner loop `for (int j = i + 1; j < numberOfCredentials; j++)`. -/
def sortInner (numberOfCredentials : Nat) (creds : List Credential) (i : Nat) :
    List Credential :=
  (List.range' (i + 1) (numberOfCredentials - (i + 1))).foldl (sortSwap i) creds

/-- The ordering step: `for (int i = 0; i < numberOfCredentials; i++)` around the
inner loop, acting in place on the first `numberOfCredentials` slots. -/
def sortCreds (numberOfCredentials : Nat) (creds : List Credential) : List Credential :=
  (List.range numberOfCredentials).foldl (sortInner numberOfCredentials) creds


/-! ## Status codes, flags and header constants

The headers `ctap.h`, `fido.h`, `pico_keys.h` and the tinycbor and mbedtls headers
are not among the sources.  The status names are those of §7 of the specification;
their numeric values are the ones of the CTAP2 standard, and only their being
distinct and non-zero is ever used. -/

def CborNoError : Nat := 0
/-- The tinycbor error that both entry points translate to
`CTAP2_ERR_CBOR_UNEXPECTED_TYPE`; it lies outside the one-byte CTAP range. -/
def CborErrorImproperValue : Nat := 519
def CTAP1_ERR_INVALID_PARAMETER : Nat := 0x02
def CTAP1_ERR_INVALID_LEN : Nat := 0x03
def CTAP2_ERR_CBOR_UNEXPECTED_TYPE : Nat := 0x11
def CTAP2_ERR_INVALID_CBOR : Nat := 0x12
def CTAP2_ERR_MISSING_PARAMETER : Nat := 0x14
def CTAP2_ERR_PROCESSING : Nat := 0x21
def CTAP2_ERR_UNSUPPORTED_ALGORITHM : Nat := 0x26
def CTAP2_ERR_OPERATION_DENIED : Nat := 0x27
def CTAP2_ERR_UNSUPPORTED_OPTION : Nat := 0x2B
def CTAP2_ERR_INVALID_OPTION : Nat := 0x2C
def CTAP2_ERR_NO_CREDENTIALS : Nat := 0x2E
def CTAP2_ERR_NOT_ALLOWED : Nat := 0x30
def CTAP2_ERR_PIN_AUTH_INVALID : Nat := 0x33
def CTAP2_ERR_PIN_NOT_SET : Nat := 0x35
def CTAP1_ERR_OTHER : Nat := 0x7F
def CTAP2_ERR_EXTENSION_FIRST : Nat := 0xE0

def FIDO2_AUT_FLAG_UP : Nat := 0x01
def FIDO2_AUT_FLAG_UV : Nat := 0x04
def FIDO2_AUT_FLAG_ED : Nat := 0x80

def CTAP_PERMISSION_GA : Nat := 0x02
def CTAP_PERMISSION_LBW : Nat := 0x10

def CCID_OK : Int := 0
def CCID_ERR_MEMORY_FATAL : Int := -1001

def CTAP_APPID_SIZE : Nat := 32

/-- Modelled from the spec: the header defining `KEY_PATH_LEN` is missing.  A handle
is "path components followed by a 32-byte tag", and `derive_key` writes the tag at
the literal offset 32, so the path is 32 bytes long. -/
def KEY_PATH_LEN : Nat := 32

/-- Modelled from the spec: the path is made of 32-bit components, so there are
`KEY_PATH_LEN / sizeof(uint32_t)` of them. -/
def KEY_PATH_ENTRIES : Nat := KEY_PATH_LEN / 4

def FIDO2_CURVE_P256 : Int := 1
def FIDO2_CURVE_P384 : Int := 2
def FIDO2_CURVE_P521 : Int := 3
def FIDO2_CURVE_X25519 : Int := 4
def FIDO2_CURVE_X448 : Int := 5
def FIDO2_CURVE_P256K1 : Int := 8

def MBEDTLS_ECP_DP_NONE : Nat := 0
def MBEDTLS_ECP_DP_SECP256R1 : Nat := 3
def MBEDTLS_ECP_DP_SECP384R1 : Nat := 4
def MBEDTLS_ECP_DP_SECP521R1 : Nat := 5
def MBEDTLS_ECP_DP_CURVE25519 : Nat := 9
def MBEDTLS_ECP_DP_SECP256K1 : Nat := 12
def MBEDTLS_ECP_DP_CURVE448 : Nat := 13

def MBEDTLS_MD_SHA256 : Nat := 9
def MBEDTLS_MD_SHA384 : Nat := 10
def MBEDTLS_MD_SHA512 : Nat := 11

/-! ## Byte-level helpers -/

/-- The four bytes of a `uint32_t` as they lie in memory (little endian, as on the
RP2040 and on the emulation hosts). -/
def u32le (v : Nat) : Bytes :=
  [v % 256, v / 256 % 256, v / 65536 % 256, v / 16777216 % 256]

/-- The read `*(uint32_t *) &buf[off]`. -/
def readU32 (buf : Bytes) (off : Nat) : Nat :=
  buf.getD off 0 + 256 * buf.getD (off + 1) 0 + 65536 * buf.getD (off + 2) 0 +
    16777216 * buf.getD (off + 3) 0

/-- The write `memcpy(buf + off, src, src_len)`. -/
def writeAt (buf : Bytes) (off : Nat) (src : Bytes) : Bytes :=
  buf.take off ++ src ++ buf.drop (off + src.length)

/-- The comparison `memcmp(a, b, n)`: zero when the first `n` bytes agree, else the
difference at the first place where they differ. -/
def memcmp : Bytes → Bytes → Nat → Int
  | _, _, 0 => 0
  | a, b, n + 1 =>
    if a.headD 0 = b.headD 0 then memcmp a.tail b.tail n
    else (a.headD 0 : Int) - (b.headD 0 : Int)

/-! ## The device: files, token and device key -/

/-- Modelled from the spec: `pinUvAuthToken_t paut`, the "process-wide authenticated
session secret with an associated permission bitmask, relying-party binding flag/hash,
and user-presence/verification flags" (its declaration is in the missing `fido.h`). -/
structure PinUvAuthToken where
  data : Bytes
  permissions : Nat
  has_rp_id : Bool
  rp_id_hash : Bytes
  user_present : Bool
  user_verified : Bool
deriving DecidableEq

/-- The persistent and process-wide state outside `cbor_get_assertion.c` that the
modelled functions read or write. -/
structure Device where
  paut : PinUvAuthToken
  /-- The value of `file_has_data(ef_pin)`. -/
  ef_pin_has_data : Bool
  /-- The data of `ef_counter`. -/
  ef_counter : Bytes
  /-- The data of the file `EF_CRED + i`, `none` when `file_has_data` is false. -/
  ef_cred : List (Option Bytes)
  has_keydev_dec : Bool
  keydev_dec : Bytes
  /-- The data of `ef_keydev`, `none` when `file_has_data` is false. -/
  ef_keydev : Option Bytes
deriving DecidableEq

/-- Modelled from the spec: `getUserPresentFlagValue` of the missing PIN module. -/
def getUserPresentFlagValue (dev : Device) : Bool := dev.paut.user_present

/-- Modelled from the spec: `getUserVerifiedFlagValue` of the missing PIN module. -/
def getUserVerifiedFlagValue (dev : Device) : Bool := dev.paut.user_verified

/-- Modelled from the spec: `clearUserPresentFlag`, `clearUserVerifiedFlag` and
`clearPinUvAuthTokenPermissionsExceptLbw` in a row: "clear any stale
user-verified/presence flags and token permissions (except large-blob-write
permission)". -/
def clearTokenFlags (dev : Device) : Device :=
  { dev with paut := { dev.paut with
      user_present := false, user_verified := false,
      permissions := dev.paut.permissions &&& CTAP_PERMISSION_LBW } }

/-- The function `get_sign_counter` (fido.c lines 435-438). -/
def get_sign_counter (dev : Device) : Nat :=
  (dev.ef_counter.getD 0 0 ||| (dev.ef_counter.getD 1 0 <<< 8) |||
    (dev.ef_counter.getD 2 0 <<< 16) ||| (dev.ef_counter.getD 3 0 <<< 24)) % 2 ^ 32

/-- The function `load_keydev` (fido.c lines 187-199), writing into the 67-byte
buffer `key`. -/
def load_keydev (dev : Device) (key : Bytes) : Int × Bytes :=
  if dev.has_keydev_dec == false && dev.ef_keydev.isNone then (CCID_ERR_MEMORY_FATAL, key)
  else if dev.has_keydev_dec == true then (CCID_OK, writeAt key 0 (dev.keydev_dec.take 32))
  else (CCID_OK, writeAt key 0 (dev.ef_keydev.getD []))


/-! ## Requests, responses and the external collaborators -/

/-- The struct `PublicKeyCredentialDescriptor` of an allow-list entry. -/
structure PublicKeyCredentialDescriptor where
  type : Option String
  id : Option Bytes
  transports : List Bytes
deriving DecidableEq

/-- The locals of `cbor_get_assertion` that the parsing loop (lines 99-197) fills. -/
structure Request where
  rpId : Option Bytes
  clientDataHash : Option Bytes
  allowList : List PublicKeyCredentialDescriptor
  extensions : CredExtensions
  credBlob : Option Bool
  kty : Int
  alg : Int
  crv : Int
  kax : Option Bytes
  kay : Option Bytes
  salt_enc : Option Bytes
  salt_auth : Option Bytes
  hmacSecretPinUvAuthProtocol : Nat
  options : CredOptions
  pinUvAuthParam : Option Bytes
  pinUvAuthProtocol : Nat
deriving DecidableEq

/-- The content of an `mbedtls_ecdsa_context`: group, private scalar, public point. -/
structure mbedtls_ecdsa_context where
  grp_id : Nat
  d : Nat
  Q : Bytes
deriving DecidableEq

/-- The result of `mbedtls_ecdsa_init`. -/
def mbedtls_ecdsa_init : mbedtls_ecdsa_context := { grp_id := 0, d := 0, Q := [] }

/-- The entries written to the extension output map (lines 444-532). -/
structure ExtOutput where
  l : Nat
  credBlob : Option Bytes
  hmac_secret : Option Bytes
  thirdPartyPayment : Option Bool
deriving DecidableEq

/-- The user entity written under key 0x04 (lines 604-630). -/
structure UserEntity where
  id : Option Bytes
  name : Option Bytes
  displayName : Option Bytes
deriving DecidableEq

/-- The entries written to the response map (lines 588-640). -/
structure Response where
  lfields : Nat
  /-- Key 0x01: the `id` of the credential descriptor. -/
  credential_id : Option Bytes
  /-- Key 0x02. -/
  authData : Bytes
  /-- Key 0x03. -/
  signature : Bytes
  /-- Key 0x04. -/
  user : Option UserEntity
  /-- Key 0x05. -/
  numberOfCredentials : Option Nat
  /-- Key 0x07. -/
  largeBlobKey : Option Bytes
deriving DecidableEq

/-- The external collaborators of §6 (codec, crypto primitives, PIN protocol and
credential modules) and the header constants whose values are not in the sources.
Functions that fill an output buffer and return a status return both. -/
structure Env where
  MAX_CREDENTIAL_COUNT_IN_LIST : Nat
  MAX_RESIDENT_CREDENTIALS : Nat
  IV_SIZE : Nat
  /-- The parsing loop: the decoded request, or the status it jumps to `err` with. -/
  cbor_parse : Bytes → Except Nat Request
  /-- A group of consecutive encoder calls on the extension buffer, given its rank
  and the entries written so far; the result is the `CborError`. -/
  cbor_encode_ext : Nat → ExtOutput → Nat
  /-- The bytes of the closed extension map. -/
  cbor_ext_buffer : ExtOutput → Bytes
  /-- All encoder calls of the response map, lines 589-640. -/
  cbor_encode_response : Response → Nat
  cbor_response_size : Response → Nat
  mbedtls_sha256 : Bytes → Bytes
  mbedtls_md : Nat → Bytes → Int × Bytes
  mbedtls_md_hmac : Nat → Bytes → Bytes → Int × Bytes
  mbedtls_hkdf : Nat → Bytes → Bytes → Bytes → Nat → Int × Bytes
  /-- The `bit_size` of the curve, `none` for a `NULL` result. -/
  mbedtls_ecp_curve_info_from_grp_id : Nat → Option Nat
  mbedtls_ecp_read_key : Nat → Bytes → Int × Nat
  mbedtls_ecp_write_key : mbedtls_ecdsa_context → Nat → Int × Bytes
  mbedtls_ecp_mul : Nat → Nat → Int × Bytes
  mbedtls_mpi_read_binary : Bytes → Int
  mbedtls_ecdsa_write_signature : mbedtls_ecdsa_context → Nat → Bytes → Int × Bytes
  verify : Nat → Bytes → Bytes → Bytes → Int
  ecdh : Nat → Bytes → Bytes → Int × Bytes
  decrypt : Nat → Bytes → Bytes → Int × Bytes
  encrypt : Nat → Bytes → Bytes → Bytes
  credential_load : Bytes → Bytes → Int × Credential
  credential_derive_hmac_key : Bytes → Int × Bytes
  credential_derive_large_blob_key : Bytes → Int × Bytes

/-- Modelled from the spec: `credential_free` of the missing credential module; the
candidate is "released" and its "owned buffers freed". -/
def credential_free (cred : Credential) : Credential :=
  { cred with
    rpId := none, userId := none, userName := none, userDisplayName := none, id := none,
    extensions := { cred.extensions with credBlob := none, present := false },
    opts := { cred.opts with present := false },
    present := false }

/-! ## Key handles and key derivation (fido.c) -/

/-- The function `fido_curve_to_mbedtls` (fido.c lines 101-121). -/
def fido_curve_to_mbedtls (curve : Int) : Nat :=
  if curve = FIDO2_CURVE_P256 then MBEDTLS_ECP_DP_SECP256R1
  else if curve = FIDO2_CURVE_P384 then MBEDTLS_ECP_DP_SECP384R1
  else if curve = FIDO2_CURVE_P521 then MBEDTLS_ECP_DP_SECP521R1
  else if curve = FIDO2_CURVE_P256K1 then MBEDTLS_ECP_DP_SECP256K1
  else if curve = FIDO2_CURVE_X25519 then MBEDTLS_ECP_DP_CURVE25519
  else if curve = FIDO2_CURVE_X448 then MBEDTLS_ECP_DP_CURVE448
  else MBEDTLS_ECP_DP_NONE

/-- The function `mbedtls_curve_to_fido` (fido.c lines 122-142). -/
def mbedtls_curve_to_fido (id : Nat) : Int :=
  if id = MBEDTLS_ECP_DP_SECP256R1 then FIDO2_CURVE_P256
  else if id = MBEDTLS_ECP_DP_SECP384R1 then FIDO2_CURVE_P384
  else if id = MBEDTLS_ECP_DP_SECP521R1 then FIDO2_CURVE_P521
  else if id = MBEDTLS_ECP_DP_SECP256K1 then FIDO2_CURVE_P256K1
  else if id = MBEDTLS_ECP_DP_CURVE25519 then (MBEDTLS_ECP_DP_CURVE25519 : Int)
  else if id = MBEDTLS_ECP_DP_CURVE448 then FIDO2_CURVE_X448
  else 0

/-- The state after a call of `derive_key`: the status, the handle buffer and the
key context (`none` when the caller passed `NULL`). -/
structure DeriveResult where
  ret : Int
  key_handle : Bytes
  key : Option mbedtls_ecdsa_context
deriving DecidableEq

/-- The loop of `derive_key` (lines 251-271) over the path entries still to do:
the status, the buffer `outk` and the handle. `rnd i` is the value `random_gen`
delivers in round `i`. -/
def derive_key_loop (env : Env) (rnd : Nat → Nat) (new_key : Bool) :
    List Nat → Bytes → Bytes → Int × Bytes × Bytes
  | [], outk, key_handle => (0, outk, key_handle)
  | i :: rest, outk, key_handle =>
    let key_handle1 :=
      if new_key == true then
        writeAt key_handle (i * 4) (u32le ((rnd i % 2 ^ 32) ||| 0x80000000))
      else key_handle
    let h := env.mbedtls_hkdf MBEDTLS_MD_SHA512 ((key_handle1.drop (i * 4)).take 4)
      (outk.take 32) ((outk.drop 32).take 32) 67
    if h.1 != 0 then (h.1, List.replicate 67 0, key_handle1)
    else derive_key_loop env rnd new_key rest h.2 key_handle1

/-- The function `derive_key` (fido.c lines 239-301). -/
def derive_key (env : Env) (dev : Device) (rnd : Nat → Nat) (app_id : Bytes) (new_key : Bool)
    (key_handle : Bytes) (curve : Nat) (key : Option mbedtls_ecdsa_context) : DeriveResult :=
  let k := load_keydev dev (List.replicate 67 0)
  if k.1 != CCID_OK then { ret := k.1, key_handle := key_handle, key := key }
  else
    let lp := derive_key_loop env rnd new_key (List.range KEY_PATH_ENTRIES) k.2 key_handle
    if lp.1 != 0 then { ret := lp.1, key_handle := lp.2.2, key := key }
    else
      let outk := lp.2.1
      let key_base := app_id.take CTAP_APPID_SIZE ++ lp.2.2.take KEY_PATH_LEN
      let tag :=
        if new_key == true then env.mbedtls_md_hmac MBEDTLS_MD_SHA256 (outk.take 32) key_base
        else (0, [])
      let key_handle2 := if new_key == true then writeAt lp.2.2 32 tag.2 else lp.2.2
      if new_key == true && tag.1 != 0 then
        { ret := tag.1, key_handle := key_handle2, key := key }
      else
        match key with
        | none => { ret := 0, key_handle := key_handle2, key := none }
        | some ctx =>
          let ctx1 := { ctx with grp_id := curve }
          match env.mbedtls_ecp_curve_info_from_grp_id curve with
          | none => { ret := 1, key_handle := key_handle2, key := some ctx1 }
          | some bit_size =>
            let outk1 :=
              if bit_size % 8 != 0 then outk.set 0 (outk.getD 0 0 >>> (8 - bit_size % 8))
              else outk
            let rk := env.mbedtls_ecp_read_key curve (outk1.take ((bit_size + 7) / 8))
            if rk.1 != 0 then { ret := rk.1, key_handle := key_handle2, key := some ctx1 }
            else
              let ctx2 := { ctx1 with d := rk.2 }
              let m := env.mbedtls_ecp_mul curve rk.2
              { ret := m.1, key_handle := key_handle2, key := some { ctx2 with Q := m.2 } }


/-- The conversion of an `int64_t` argument to the `int` parameter of
`fido_load_key`. -/
def toInt32 (x : Int) : Int := (x + 2 ^ 31) % 2 ^ 32 - 2 ^ 31

/-- The loop of `fido_load_key` (lines 152-154): the top bit of every path entry
from the second on is set. -/
def hardenPath (key_path : Bytes) : Bytes :=
  (List.range' 1 (KEY_PATH_ENTRIES - 1)).foldl
    (fun kp i => writeAt kp (i * 4) (u32le (readU32 kp (i * 4) ||| 0x80000000))) key_path

/-- The function `fido_load_key` (fido.c lines 144-156). -/
def fido_load_key (env : Env) (dev : Device) (curve : Int) (cred_id : Bytes)
    (key : mbedtls_ecdsa_context) : Int × mbedtls_ecdsa_context :=
  let mbedtls_curve := fido_curve_to_mbedtls curve
  if mbedtls_curve = MBEDTLS_ECP_DP_NONE then ((CTAP2_ERR_UNSUPPORTED_ALGORITHM : Int), key)
  else
    let key_path := cred_id.take KEY_PATH_LEN
    let key_path1 := writeAt key_path 0 (u32le (0x80000000 ||| 10022))
    let r := derive_key env dev (fun _ => 0) [] false (hardenPath key_path1) mbedtls_curve
      (some key)
    (r.ret, r.key.getD key)

/-- The first loop of `verify_key` (lines 202-207): does some path entry have its
top bit clear? -/
def pathHasSoftEntry (keyHandle : Bytes) : Bool :=
  (List.range KEY_PATH_ENTRIES).any (fun i => readU32 keyHandle (i * 4) &&& 0x80000000 == 0)

/-- The function `verify_key` (fido.c lines 201-237); `key = none` is the call with
`key == NULL`. -/
def verify_key (env : Env) (dev : Device) (appId keyHandle : Bytes)
    (key : Option mbedtls_ecdsa_context) : Int :=
  if pathHasSoftEntry keyHandle then -1
  else
    let derived :=
      derive_key env dev (fun _ => 0) appId false keyHandle MBEDTLS_ECP_DP_SECP256R1
        (some mbedtls_ecdsa_init)
    if key.isNone && derived.ret != 0 then -3
    else
      let ctx := match key with
        | none => derived.key.getD mbedtls_ecdsa_init
        | some k => k
      let w := env.mbedtls_ecp_write_key ctx 32
      if w.1 != 0 then -2
      else
        let key_base := appId.take CTAP_APPID_SIZE ++ keyHandle.take KEY_PATH_LEN
        let hmac := env.mbedtls_md_hmac MBEDTLS_MD_SHA256 (w.2.take 32) key_base
        memcmp (keyHandle.drop KEY_PATH_LEN) hmac.2 32


/-! ## The pagination session (the globals of cbor_get_assertion.c, lines 36-43) -/

/-- The globals `residentx`, `credsx`, `credentialCounter`, `numberOfCredentialsx`,
`flagsx`, `timerx`, `datax` and `lenx`. -/
structure Session where
  residentx : Bool
  credsx : List Credential
  credentialCounter : Nat
  numberOfCredentialsx : Nat
  flagsx : Nat
  timerx : Nat
  datax : Option Bytes
  lenx : Nat
deriving DecidableEq

/-- The initial values of the globals (lines 36-43). -/
def Session.initial (env : Env) : Session :=
  { residentx := false,
    credsx := List.replicate env.MAX_CREDENTIAL_COUNT_IN_LIST Credential.zero,
    credentialCounter := 1, numberOfCredentialsx := 0, flagsx := 0, timerx := 0,
    datax := none, lenx := 0 }

/-- What a call leaves behind: the returned status, the globals, the device state
and, on success, the response map. -/
structure Outcome where
  ret : Nat
  sess : Session
  dev : Device
  resp : Option Response
deriving DecidableEq

/-! ## `cbor_get_assertion`, the part run when `next == false` (lines 210-401) -/

/-- Lines 211-231: the checks made on a `pinUvAuthParam` that is present; the result
is the status jumped to `err` with, or `0` to go on. `up_ok` is the result of
`check_user_presence()`. -/
def checkPinUvAuthParam (dev : Device) (up_ok : Bool) (p : Request) : Nat :=
  match p.pinUvAuthParam with
  | none => 0
  | some param =>
    if param.length == 0 then
      if up_ok == false then CTAP2_ERR_OPERATION_DENIED
      else if !dev.ef_pin_has_data then CTAP2_ERR_PIN_NOT_SET
      else CTAP2_ERR_PIN_AUTH_INVALID
    else if p.pinUvAuthProtocol == 0 then CTAP2_ERR_MISSING_PARAMETER
    else if p.pinUvAuthProtocol != 1 && p.pinUvAuthProtocol != 2 then
      CTAP1_ERR_INVALID_PARAMETER
    else 0

/-- Lines 232-250: the option checks; on success the locals `up` and `uv`. -/
def checkOptions (p : Request) : Except Nat (Bool × Bool) :=
  if p.options.present then
    if p.options.uv == some true then .error CTAP2_ERR_INVALID_OPTION
    else if p.options.rk != none then .error CTAP2_ERR_UNSUPPORTED_OPTION
    else .ok (p.options.up.getD true, p.options.uv.getD false)
  else .ok (true, false)

/-- Lines 252-272: the checks of the PIN/UV auth token; on success the local
`flags`. -/
def checkPinUvAuthToken (env : Env) (dev : Device) (p : Request) (rp_id_hash : Bytes) :
    Except Nat Nat :=
  match p.pinUvAuthParam with
  | none => .ok 0
  | some param =>
    if env.verify p.pinUvAuthProtocol dev.paut.data (p.clientDataHash.getD []) param != 0 then
      .error CTAP2_ERR_PIN_AUTH_INVALID
    else if getUserVerifiedFlagValue dev == false then .error CTAP2_ERR_PIN_AUTH_INVALID
    else if dev.paut.permissions &&& CTAP_PERMISSION_GA == 0 then
      .error CTAP2_ERR_PIN_AUTH_INVALID
    else if dev.paut.has_rp_id == true && memcmp dev.paut.rp_id_hash rp_id_hash 32 != 0 then
      .error CTAP2_ERR_PIN_AUTH_INVALID
    else .ok (0 ||| FIDO2_AUT_FLAG_UV)

/-- The `uint64_t` value `k + (hmacSecretPinUvAuthProtocol - 1) * IV_SIZE`. -/
def saltLenFor (env : Env) (p : Request) (k : Nat) : Nat :=
  (k + ((p.hmacSecretPinUvAuthProtocol + 2 ^ 64 - 1) % 2 ^ 64) * env.IV_SIZE) % 2 ^ 64

/-- Lines 273-282: the parameter check of the hmac-secret extension. -/
def checkHmacSecret (env : Env) (p : Request) : Nat :=
  if p.extensions.present == true && p.extensions.hmac_secret == some true then
    if p.kax.isNone || p.kay.isNone || p.crv == 0 || p.alg == 0 ||
        p.salt_enc.isNone || p.salt_auth.isNone then
      CTAP2_ERR_MISSING_PARAMETER
    else if (p.salt_enc.getD []).length != saltLenFor env p 32 &&
        (p.salt_enc.getD []).length != saltLenFor env p 64 then
      CTAP1_ERR_INVALID_LEN
    else 0
  else 0

/-- Lines 285-300: the loop over the allow-list; the array `creds` and `creds_len`,
or the status jumped to `err` with. -/
def loadAllowList (env : Env) (rp_id_hash : Bytes) :
    List PublicKeyCredentialDescriptor → List Credential → Nat →
      Except Nat (List Credential × Nat)
  | [], creds, creds_len => .ok (creds, creds_len)
  | e :: rest, creds, creds_len =>
    if e.type.isNone || e.id.isNone then .error CTAP2_ERR_MISSING_PARAMETER
    else if e.type != some "public-key" then loadAllowList env rp_id_hash rest creds creds_len
    else
      let r := env.credential_load (e.id.getD []) rp_id_hash
      if r.1 != 0 then
        loadAllowList env rp_id_hash rest (creds.set creds_len (credential_free r.2)) creds_len
      else loadAllowList env rp_id_hash rest (creds.set creds_len r.2) (creds_len + 1)

/-- One round of the loop over the resident slots (lines 303-320). -/
def scanResidentStep (env : Env) (dev : Device) (rp_id_hash : Bytes)
    (st : List Credential × Nat) (i : Nat) : List Credential × Nat :=
  if st.2 < env.MAX_CREDENTIAL_COUNT_IN_LIST then
    match dev.ef_cred.getD i none with
    | none => st
    | some file =>
      if memcmp file rp_id_hash 32 != 0 then st
      else
        let r := env.credential_load (file.drop 32) rp_id_hash
        if r.1 != 0 then (st.1.set st.2 (credential_free r.2), st.2)
        else (st.1.set st.2 r.2, st.2 + 1)
  else st

/-- Lines 303-320: the scan of the resident slots. -/
def scanResident (env : Env) (dev : Device) (rp_id_hash : Bytes)
    (creds : List Credential) : List Credential × Nat :=
  (List.range env.MAX_RESIDENT_CREDENTIALS).foldl (scanResidentStep env dev rp_id_hash)
    (creds, 0)

/-- One round of the protection filter (lines 324-341) on the array `creds` and the
`uint8_t numberOfCredentials`. -/
def filterStep (flags : Nat) (resident : Bool) (st : List Credential × Nat) (i : Nat) :
    List Credential × Nat :=
  let c := st.1.getD i Credential.zero
  if c.present == true then
    if c.extensions.present == true then
      if c.extensions.credProtect == CRED_PROT_UV_REQUIRED &&
          flags &&& FIDO2_AUT_FLAG_UV == 0 then
        (st.1.set i (credential_free c), st.2)
      else if c.extensions.credProtect == CRED_PROT_UV_OPTIONAL_WITH_LIST &&
          resident == true && flags &&& FIDO2_AUT_FLAG_UV == 0 then
        (st.1.set i (credential_free c), st.2)
      else (st.1.set st.2 c, (st.2 + 1) % 256)
    else (st.1.set st.2 c, (st.2 + 1) % 256)
  else st

/-- Lines 323-342: the protection filter, compacting `creds` in place. -/
def filterCreds (flags : Nat) (resident : Bool) (creds : List Credential) (creds_len : Nat) :
    List Credential × Nat :=
  (List.range creds_len).foldl (filterStep flags resident) (creds, 0)

/-- Lines 357-376: user presence; on success the new `flags` and device state. -/
def userPresence (dev : Device) (up_ok : Bool) (p : Request) (flags : Nat) :
    Except Nat (Nat × Device) :=
  if p.options.up == some true || p.options.present == false || p.options.up == none then
    if p.pinUvAuthParam.isSome then
      if getUserPresentFlagValue dev == false && up_ok == false then
        .error CTAP2_ERR_OPERATION_DENIED
      else .ok (flags ||| FIDO2_AUT_FLAG_UP, clearTokenFlags dev)
    else
      if flags &&& FIDO2_AUT_FLAG_UP == 0 && up_ok == false then
        .error CTAP2_ERR_OPERATION_DENIED
      else .ok (flags ||| FIDO2_AUT_FLAG_UP, clearTokenFlags dev)
  else .ok (flags, dev)

/-- The locals that lines 210-380 hand to the rest of the function. -/
structure Resolved where
  up : Bool
  uv : Bool
  flags : Nat
  resident : Bool
  creds : List Credential
  numberOfCredentials : Nat
  dev : Device
deriving DecidableEq

/-- Lines 210-380 of `cbor_get_assertion`: policy checks, candidate resolution,
protection filter, ordering and user presence. An error carries the status and the
device state at the jump to `err`. -/
def resolveCandidates (env : Env) (dev : Device) (up_ok : Bool) (p : Request)
    (rp_id_hash : Bytes) : Except (Nat × Device) Resolved :=
  let e1 := checkPinUvAuthParam dev up_ok p
  if e1 != 0 then .error (e1, dev)
  else
    match checkOptions p with
    | .error e => .error (e, dev)
    | .ok (up, uv) =>
      match checkPinUvAuthToken env dev p rp_id_hash with
      | .error e => .error (e, dev)
      | .ok flags =>
        let e2 := checkHmacSecret env p
        if e2 != 0 then .error (e2, dev)
        else
          let creds0 := List.replicate env.MAX_CREDENTIAL_COUNT_IN_LIST Credential.zero
          let loaded : Except Nat ((List Credential × Nat) × Bool) :=
            if p.allowList.length > 0 then
              match loadAllowList env rp_id_hash p.allowList creds0 0 with
              | .error e => .error e
              | .ok r => .ok (r, false)
            else .ok (scanResident env dev rp_id_hash creds0, true)
          match loaded with
          | .error e => .error (e, dev)
          | .ok (r, resident) =>
            let f := filterCreds flags resident r.1 r.2
            if f.2 == 0 then .error (CTAP2_ERR_NO_CREDENTIALS, dev)
            else
              let creds := sortCreds f.2 f.1
              match userPresence dev up_ok p flags with
              | .error e => .error (e, dev)
              | .ok (flags1, dev1) =>
                if p.extensions.largeBlobKey == some false then
                  .error (CTAP2_ERR_INVALID_OPTION, dev1)
                else
                  .ok { up := up, uv := uv, flags := flags1, resident := resident,
                        creds := creds, numberOfCredentials := f.2, dev := dev1 }


/-! ## `cbor_get_assertion`, the assertion itself (lines 409-644) -/

/-- Lines 411-417: the signing key of the selected credential; `none` is the jump to
`err` with `CTAP1_ERR_OTHER`. -/
def loadSigningKey (env : Env) (dev : Device) (rp_id_hash : Bytes) (selcred : Credential) :
    Option mbedtls_ecdsa_context :=
  let r := fido_load_key env dev (toInt32 selcred.curve) (selcred.id.getD [])
    mbedtls_ecdsa_init
  if r.1 != 0 then
    let d := derive_key env dev (fun _ => 0) rp_id_hash false (selcred.id.getD [])
      MBEDTLS_ECP_DP_SECP256R1 (some r.2)
    if d.ret != 0 then none else some (d.key.getD r.2)
  else some r.2

/-- The `uint8_t poff = (hmacSecretPinUvAuthProtocol - 1) * IV_SIZE` of line 482. -/
def poff (env : Env) (p : Request) : Nat :=
  (((p.hmacSecretPinUvAuthProtocol + 2 ^ 64 - 1) % 2 ^ 64) * env.IV_SIZE) % 256

/-- Lines 459-519: the hmac-secret sub-protocol; the buffer `hmac_res` or the status
jumped to `err` with. Bytes of `out1` that the code leaves unwritten read as zero. -/
def hmacSecret (env : Env) (p : Request) (flags : Nat) (selcred : Credential) :
    Except Nat Bytes :=
  if env.mbedtls_mpi_read_binary (p.kax.getD []) != 0 then .error CTAP1_ERR_INVALID_PARAMETER
  else if env.mbedtls_mpi_read_binary (p.kay.getD []) != 0 then
    .error CTAP1_ERR_INVALID_PARAMETER
  else
    let sh := env.ecdh p.hmacSecretPinUvAuthProtocol (p.kax.getD []) (p.kay.getD [])
    if sh.1 != 0 then .error CTAP1_ERR_INVALID_PARAMETER
    else if env.verify p.hmacSecretPinUvAuthProtocol sh.2 (p.salt_enc.getD [])
        (p.salt_auth.getD []) != 0 then
      .error CTAP2_ERR_EXTENSION_FIRST
    else
      let dc := env.decrypt p.hmacSecretPinUvAuthProtocol sh.2 (p.salt_enc.getD [])
      if dc.1 != 0 then .error CTAP1_ERR_INVALID_PARAMETER
      else
        let cr := env.credential_derive_hmac_key (selcred.id.getD [])
        if cr.1 != 0 then .error CTAP1_ERR_INVALID_PARAMETER
        else
          let crd :=
            if flags &&& FIDO2_AUT_FLAG_UV != 0 then (cr.2.drop 32).take 32 else cr.2.take 32
          let h1 := (env.mbedtls_md_hmac MBEDTLS_MD_SHA256 crd (dc.2.take 32)).2
          let h2 :=
            if (p.salt_enc.getD []).length == 64 + poff env p then
              (env.mbedtls_md_hmac MBEDTLS_MD_SHA256 crd ((dc.2.drop 32).take 32)).2
            else List.replicate 32 0
          let out1 := h1 ++ h2
          let n := ((p.salt_enc.getD []).length + 2 ^ 32 - poff env p) % 2 ^ 32
          .ok (env.encrypt p.hmacSecretPinUvAuthProtocol sh.2 (out1.take n))

/-- Lines 427-535: the extension output; the bytes of `ext` and the new `flags`, or
the status jumped to `err` with. -/
def buildExtensions (env : Env) (p : Request) (flags : Nat) (selcred : Credential) :
    Except Nat (Bytes × Nat) :=
  if p.extensions.present == true then
    let hmac_secret := if p.options.up == some false then none else p.extensions.hmac_secret
    let l := (if hmac_secret != none then 1 else 0) + (if p.credBlob == some true then 1 else 0)
      + (if p.extensions.thirdPartyPayment != none then 1 else 0)
    let o0 : ExtOutput := { l := l, credBlob := none, hmac_secret := none,
                            thirdPartyPayment := none }
    if env.cbor_encode_ext 0 o0 != 0 then .error (env.cbor_encode_ext 0 o0)
    else
      let o1 : ExtOutput :=
        if p.credBlob == some true then
          { o0 with credBlob := some (selcred.extensions.credBlob.getD []) }
        else o0
      if p.credBlob == some true && env.cbor_encode_ext 1 o1 != 0 then
        .error (env.cbor_encode_ext 1 o1)
      else
        let hm : Except Nat ExtOutput :=
          if hmac_secret != none then
            if env.cbor_encode_ext 2 o1 != 0 then .error (env.cbor_encode_ext 2 o1)
            else
              match hmacSecret env p flags selcred with
              | .error e => .error e
              | .ok hmac_res =>
                let o2 := { o1 with
                  hmac_secret := some (hmac_res.take (p.salt_enc.getD []).length) }
                if env.cbor_encode_ext 3 o2 != 0 then .error (env.cbor_encode_ext 3 o2)
                else .ok o2
          else .ok o1
        match hm with
        | .error e => .error e
        | .ok o2 =>
          let o3 : ExtOutput :=
            if p.extensions.thirdPartyPayment != none then
              { o2 with
                thirdPartyPayment := some (selcred.extensions.thirdPartyPayment == some true) }
            else o2
          if p.extensions.thirdPartyPayment != none && env.cbor_encode_ext 4 o3 != 0 then
            .error (env.cbor_encode_ext 4 o3)
          else if env.cbor_encode_ext 5 o3 != 0 then .error (env.cbor_encode_ext 5 o3)
          else .ok (env.cbor_ext_buffer o3, flags ||| FIDO2_AUT_FLAG_ED)
  else .ok ([], flags)

/-- Lines 539-548: the authenticator data. -/
def authenticatorData (rp_id_hash : Bytes) (flags ctr : Nat) (ext : Bytes) : Bytes :=
  rp_id_hash.take 32 ++
    [flags % 256, (ctr >>> 24) % 256, (ctr >>> 16) % 256, (ctr >>> 8) % 256, ctr &&& 0xff] ++ ext

/-- Lines 555-561: the digest chosen from the group of the signing key. -/
def signingDigest (ekey : mbedtls_ecdsa_context) : Nat :=
  if ekey.grp_id == MBEDTLS_ECP_DP_SECP384R1 then MBEDTLS_MD_SHA384
  else if ekey.grp_id == MBEDTLS_ECP_DP_SECP521R1 then MBEDTLS_MD_SHA512
  else MBEDTLS_MD_SHA256

/-- Lines 578-638: the entries of the response map. -/
def responseMap (p : Request) (next : Bool) (numberOfCredentials : Nat) (selcred : Credential)
    (aut_data sig : Bytes) (largeBlobKey : Bytes) : Response :=
  let withUser := selcred.opts.present == true && selcred.opts.rk == some true
  let withCount := decide (numberOfCredentials > 1) && next == false
  let withBlob := p.extensions.largeBlobKey == some true &&
    selcred.extensions.largeBlobKey == some true
  let names := decide (numberOfCredentials > 1) && p.allowList.length == 0
  { lfields := 3 + (if withUser then 1 else 0) + (if withCount then 1 else 0)
      + (if withBlob then 1 else 0),
    credential_id := selcred.id,
    authData := aut_data,
    signature := sig,
    user :=
      if withUser then
        some { id := selcred.userId,
               name := if names then selcred.userName else none,
               displayName := if names then selcred.userDisplayName else none }
      else none,
    numberOfCredentials := if withCount then some numberOfCredentials else none,
    largeBlobKey := if withBlob then some largeBlobKey else none }

/-- Lines 409-644 of `cbor_get_assertion`: key, extensions, authenticator data,
signature, response and counter. The result is the status at `err`, the device
state and the response. -/
def buildAssertion (env : Env) (dev : Device) (p : Request) (rp_id_hash : Bytes)
    (next : Bool) (flags : Nat) (numberOfCredentials : Nat) (selcred : Credential) :
    Nat × Device × Option Response :=
  match loadSigningKey env dev rp_id_hash selcred with
  | none => (CTAP1_ERR_OTHER, dev, none)
  | some ekey =>
    let wantBlob := p.extensions.largeBlobKey == some true &&
      selcred.extensions.largeBlobKey == some true
    let lb := env.credential_derive_large_blob_key (selcred.id.getD [])
    if wantBlob && lb.1 != 0 then (CTAP2_ERR_PROCESSING, dev, none)
    else
      match buildExtensions env p flags selcred with
      | .error e => (e, dev, none)
      | .ok (ext, flags1) =>
        let ctr := get_sign_counter dev
        let aut_data := authenticatorData rp_id_hash flags1 ctr ext
        let md := signingDigest ekey
        let hash := (env.mbedtls_md md (aut_data ++ p.clientDataHash.getD [])).2
        let sig := (env.mbedtls_ecdsa_write_signature ekey md hash).2
        let resp := responseMap p next numberOfCredentials selcred aut_data sig (lb.2.take 32)
        if env.cbor_encode_response resp != 0 then (env.cbor_encode_response resp, dev, none)
        else
          let ctr1 := (ctr + 1) % 2 ^ 32
          (0, { dev with ef_counter := u32le ctr1 }, some resp)

/-! ## The two entry points -/

/-- The epilogue at `err` (lines 665-672): the returned status. -/
def returnStatus (error : Nat) : Nat :=
  if error != CborNoError then
    if error == CborErrorImproperValue then CTAP2_ERR_CBOR_UNEXPECTED_TYPE else error
  else 0

/-- Lines 387-400: the hand-over of the candidate list to the globals. `millis` is
the value of `board_millis()`. -/
def createSession (r : Resolved) (data : Bytes) (millis : Nat) : Session :=
  { residentx := r.resident, credsx := r.creds, numberOfCredentialsx := r.numberOfCredentials,
    datax := some data, lenx := data.length, flagsx := r.flags, timerx := millis % 2 ^ 32,
    credentialCounter := 1 }

/-- The function `cbor_get_assertion(data, len, next)` (lines 79-673), run on the
globals `s` and the device state `dev`; `up_ok` is what `check_user_presence()`
returns and `millis` what `board_millis()` returns during the call. -/
def cbor_get_assertion (env : Env) (s : Session) (dev : Device) (up_ok : Bool) (millis : Nat)
    (data : Bytes) (next : Bool) : Outcome :=
  match env.cbor_parse data with
  | .error e => { ret := returnStatus e, sess := s, dev := dev, resp := none }
  | .ok p =>
    if p.rpId.isNone || p.clientDataHash.isNone then
      { ret := returnStatus CTAP2_ERR_MISSING_PARAMETER, sess := s, dev := dev, resp := none }
    else
      let rp_id_hash := env.mbedtls_sha256 (p.rpId.getD [])
      if next == false then
        match resolveCandidates env dev up_ok p rp_id_hash with
        | .error (e, dev1) => { ret := returnStatus e, sess := s, dev := dev1, resp := none }
        | .ok r =>
          let s1 :=
            if r.up == false && r.uv == false then s
            else if r.numberOfCredentials > 1 then createSession r data millis
            else s
          let b := buildAssertion env r.dev p rp_id_hash next r.flags r.numberOfCredentials
            (r.creds.getD 0 Credential.zero)
          { ret := returnStatus b.1, sess := s1, dev := b.2.1, resp := b.2.2 }
      else
        let b := buildAssertion env dev p rp_id_hash next s.flagsx s.numberOfCredentialsx
          (s.credsx.getD s.credentialCounter Credential.zero)
        { ret := returnStatus b.1, sess := s, dev := b.2.1, resp := b.2.2 }

/-- The teardown of lines 58-70. -/
def clearSession (s : Session) : Session :=
  { residentx := false, credsx := s.credsx.map credential_free, credentialCounter := 0,
    numberOfCredentialsx := 0, flagsx := 0, timerx := 0, datax := none, lenx := 0 }

/-- The code of `cbor_get_next_assertion` from the label `err` on (lines 56-76). -/
def nextEpilogue (error : Nat) (s : Session) (dev : Device) (resp : Option Response) :
    Outcome :=
  if error != CborNoError || s.credentialCounter == s.numberOfCredentialsx then
    { ret := if error == CborErrorImproperValue then CTAP2_ERR_CBOR_UNEXPECTED_TYPE else error,
      sess := clearSession s, dev := dev, resp := if error != CborNoError then none else resp }
  else { ret := 0, sess := s, dev := dev, resp := resp }

/-- The expiry test of line 50, `timerx + 30 * 1000 < board_millis()`, in `uint32_t`
arithmetic. -/
def expired (timerx millis : Nat) : Bool :=
  (timerx + 30 * 1000) % 2 ^ 32 < millis % 2 ^ 32

/-- The function `cbor_get_next_assertion(data, len)` (lines 45-77); `millis` is the
value `board_millis()` returns in the expiry test and `millis2` the one it returns
when the timer is set again. -/
def cbor_get_next_assertion (env : Env) (s : Session) (dev : Device) (millis millis2 : Nat)
    (_data : Bytes) : Outcome :=
  if s.credentialCounter >= s.numberOfCredentialsx then
    nextEpilogue CTAP2_ERR_NOT_ALLOWED s dev none
  else if expired s.timerx millis then nextEpilogue CTAP2_ERR_NOT_ALLOWED s dev none
  else
    let o := cbor_get_assertion env s dev false millis ((s.datax.getD []).take s.lenx) true
    if o.ret != CborNoError then nextEpilogue o.ret o.sess o.dev none
    else
      nextEpilogue CborNoError
        { o.sess with timerx := millis2 % 2 ^ 32,
                      credentialCounter := (o.sess.credentialCounter + 1) % 256 }
        o.dev o.resp


/-! ## Notions used to state the properties -/

/-- The absent state of the pagination session: nothing is held. -/
def Session.absent (s : Session) : Prop :=
  s.numberOfCredentialsx = 0 ∧ s.credentialCounter = 0 ∧ s.datax = none ∧ s.lenx = 0 ∧
    s.flagsx = 0 ∧ s.timerx = 0 ∧ s.residentx = false ∧
    ∀ c ∈ s.credsx, c.present = false ∧ c.id = none ∧ c.rpId = none ∧ c.userId = none

/-- A series of `cbor_get_next_assertion` calls, one for each pair of clock values
(the one read by the expiry test and the one read when the timer is set again). -/
def getNextRun (env : Env) : Session → Device → List (Nat × Nat) → List Outcome
  | _, _, [] => []
  | s, dev, t :: rest =>
    let o := cbor_get_next_assertion env s dev t.1 t.2 []
    o :: getNextRun env o.sess o.dev rest

/-- Every call of the series passes the expiry test of line 50, the timer being
`timerx` before the first call and set again by each call. -/
def withinWindow : Nat → List (Nat × Nat) → Prop
  | _, [] => True
  | timerx, t :: rest => expired timerx t.1 = false ∧ withinWindow (t.2 % 2 ^ 32) rest

/-- What a caller sees of a call: the status and the credential id of the response. -/
def Outcome.seen (o : Outcome) : Nat × Option (Option Bytes) :=
  (o.ret, o.resp.map (fun r => r.credential_id))

/-- The device key can be loaded: `load_keydev` returns `CCID_OK`. -/
def provisioned (dev : Device) : Prop :=
  dev.has_keydev_dec = true ∨ dev.ef_keydev.isSome = true

/-- Every primitive that an assertion uses reports success, whatever its input. -/
structure PrimitivesSucceed (env : Env) : Prop where
  hkdf : ∀ md salt ikm info n, (env.mbedtls_hkdf md salt ikm info n).1 = 0
  curve_info : ∀ c, (env.mbedtls_ecp_curve_info_from_grp_id c).isSome = true
  read_key : ∀ c b, (env.mbedtls_ecp_read_key c b).1 = 0
  mul : ∀ c d, (env.mbedtls_ecp_mul c d).1 = 0
  mpi : ∀ b, env.mbedtls_mpi_read_binary b = 0
  ecdh : ∀ v x y, (env.ecdh v x y).1 = 0
  verify : ∀ v k d m, env.verify v k d m = 0
  decrypt : ∀ v k d, (env.decrypt v k d).1 = 0
  hmac_key : ∀ b, (env.credential_derive_hmac_key b).1 = 0
  large_blob_key : ∀ b, (env.credential_derive_large_blob_key b).1 = 0
  encode_ext : ∀ k o, env.cbor_encode_ext k o = 0
  encode_response : ∀ r, env.cbor_encode_response r = 0

/-- The path bytes that `derive_key` writes for a new key in the rounds
`a, a + 1, ..., a + m - 1`. -/
def newPath (rnd : Nat → Nat) (a m : Nat) : Bytes :=
  ((List.range' a m).map (fun i => u32le ((rnd i % 2 ^ 32) ||| 0x80000000))).flatten

/-- The chain of `mbedtls_hkdf` calls of `derive_key` over the given salts, `none`
when one of them fails. -/
def hkdfChain (env : Env) : List Bytes → Bytes → Option Bytes
  | [], outk => some outk
  | salt :: rest, outk =>
    let h := env.mbedtls_hkdf MBEDTLS_MD_SHA512 salt (outk.take 32) ((outk.drop 32).take 32) 67
    if h.1 != 0 then none else hkdfChain env rest h.2

/-- The creation timestamp held in slot `k`. -/
def creationAt (creds : List Credential) (k : Nat) : Nat :=
  (creds.getD k Credential.zero).creation

/-- What the inner loop has established once slots `i+1 .. i+m` have been compared
with slot `i`: `cs` is the array on entry, `r` the array now. -/
structure InnerInv (i m : Nat) (cs r : List Credential) : Prop where
  len : r.length = cs.length
  perm : r.Perm cs
  low : ∀ k, k < i → r.getD k Credential.zero = cs.getD k Credential.zero
  high : ∀ k, i + m < k → r.getD k Credential.zero = cs.getD k Credential.zero
  dom : ∀ k, i < k → k ≤ i + m → creationAt r k ≤ creationAt r i
  src : ∀ k, i ≤ k → k ≤ i + m →
    ∃ k2, i ≤ k2 ∧ k2 ≤ i + m ∧ r.getD k Credential.zero = cs.getD k2 Credential.zero

/-- What the outer loop has established after `i` rounds on the first `n` slots. -/
structure OuterInv (n i : Nat) (cs r : List Credential) : Prop where
  len : r.length = cs.length
  perm : r.Perm cs
  high : ∀ k, n ≤ k → r.getD k Credential.zero = cs.getD k Credential.zero
  sorted : ∀ a b, a < b → a < i → b < n → creationAt r b ≤ creationAt r a

/-! ## A small concrete device used in the examples -/

/-- A request for the relying party whose identifier is the bytes `rp`. -/
def exampleRequest (rp : Bytes) : Request :=
  { rpId := some rp, clientDataHash := some [0xC0], allowList := [],
    extensions := CredExtensions.zero, credBlob := none, kty := 2, alg := 0, crv := 0,
    kax := none, kay := none, salt_enc := none, salt_auth := none,
    hmacSecretPinUvAuthProtocol := 1, options := CredOptions.zero, pinUvAuthParam := none,
    pinUvAuthProtocol := 0 }

/-- A credential record whose handle is `id`, created at `creation`. -/
def exampleCredential (id : Bytes) (creation : Nat) : Credential :=
  { Credential.zero with id := some id, creation := creation, curve := 1, present := true }

/-- The little-endian value of a byte string. -/
def ofLE : Bytes → Nat
  | [] => 0
  | x :: xs => x + 256 * ofLE xs

/-- The `n` little-endian bytes of a value. -/
def toLE : Nat → Nat → Bytes
  | 0, _ => []
  | n + 1, v => v % 256 :: toLE n (v / 256)

/-- An environment whose primitives always succeed, with room for 4 candidates and
8 resident slots: the request bytes are the relying-party identifier, the hash pads
its input to 32 bytes, a stored record is a one-byte handle followed by its creation
time, and a private key is the little-endian value of its bytes. -/
def exampleEnv : Env :=
  { MAX_CREDENTIAL_COUNT_IN_LIST := 4,
    MAX_RESIDENT_CREDENTIALS := 8,
    IV_SIZE := 16,
    cbor_parse := fun data =>
      if data.length == 0 then .error CTAP2_ERR_INVALID_CBOR else .ok (exampleRequest data),
    cbor_encode_ext := fun _ _ => 0,
    cbor_ext_buffer := fun _ => [0xA0],
    cbor_encode_response := fun _ => 0,
    cbor_response_size := fun _ => 0,
    mbedtls_sha256 := fun b => (b ++ List.replicate 32 0).take 32,
    mbedtls_md := fun _ b => (0, b.take 32),
    mbedtls_md_hmac := fun _ k m =>
      (0, ((k.zipWith (fun x y => (x + y) % 256) m) ++ List.replicate 32 0).take 32),
    mbedtls_hkdf := fun _ salt ikm _ n =>
      (0, ((ikm.map (fun x => (x + salt.sum) % 256)) ++ List.replicate n 0).take n),
    mbedtls_ecp_curve_info_from_grp_id := fun _ => some 256,
    mbedtls_ecp_read_key := fun _ b => (0, ofLE b),
    mbedtls_ecp_write_key := fun k n => (0, toLE n k.d),
    mbedtls_ecp_mul := fun _ d => (0, [d % 256]),
    mbedtls_mpi_read_binary := fun _ => 0,
    mbedtls_ecdsa_write_signature := fun k _ h => (0, (k.d % 256) :: h.take 1),
    verify := fun _ _ _ _ => 0,
    ecdh := fun _ _ _ => (0, List.replicate 64 0),
    decrypt := fun _ _ b => (0, b),
    encrypt := fun _ _ b => b,
    credential_load := fun id _ => (0, exampleCredential (id.take 1) (id.getD 1 0)),
    credential_derive_hmac_key := fun _ => (0, List.replicate 64 0),
    credential_derive_large_blob_key := fun _ => (0, List.replicate 32 0) }

/-- The stored record of a resident credential of relying party `rp`. -/
def exampleRecord (rp : Bytes) (id creation : Nat) : Option Bytes :=
  some (exampleEnv.mbedtls_sha256 rp ++ [id, creation])

/-- A provisioned device holding three resident credentials of the relying party
`[1]`, created at times 5, 9 and 7, and one of the relying party `[2]`. -/
def exampleDevice : Device :=
  { paut := { data := [], permissions := 0, has_rp_id := false, rp_id_hash := [],
              user_present := false, user_verified := false },
    ef_pin_has_data := false,
    ef_counter := [0, 0, 0, 0],
    ef_cred := [exampleRecord [1] 0xA1 5, exampleRecord [2] 0xB1 3, exampleRecord [1] 0xA2 9,
                exampleRecord [1] 0xA3 7],
    has_keydev_dec := false,
    keydev_dec := [],
    ef_keydev := some (List.replicate 32 7) }

/-- GetAssertion for the relying party `[1]` on the fresh device, at clock `millis`. -/
def exampleFirst (millis : Nat) : Outcome :=
  cbor_get_assertion exampleEnv (Session.initial exampleEnv) exampleDevice true millis [1] false

/-- Three candidates with creation times 1, 1 and 2. -/
def exampleTies : List Credential :=
  [exampleCredential [0xA] 1, exampleCredential [0xB] 1, exampleCredential [0xC] 2]


/-- The first GetNextAssertion of the example session, 20 s after the GetAssertion
made at clock 0. -/
def exampleSecond : Outcome :=
  cbor_get_next_assertion exampleEnv (exampleFirst 0).sess (exampleFirst 0).dev 20000 20000 []

/-- The second GetNextAssertion of the example session, 40 s after the
GetAssertion. -/
def exampleThird : Outcome :=
  cbor_get_next_assertion exampleEnv exampleSecond.sess exampleSecond.dev 40000 40000 []

/-- During the example session, a new GetAssertion for the relying party `[2]`,
which has a single credential. -/
def exampleOther : Outcome :=
  cbor_get_assertion exampleEnv (exampleFirst 0).sess (exampleFirst 0).dev true 100 [2] false

/-- During the example session, a new GetAssertion for the relying party `[3]`,
which has no credential. -/
def exampleNone : Outcome :=
  cbor_get_assertion exampleEnv (exampleFirst 0).sess (exampleFirst 0).dev true 100 [3] false

/-- Does a call with `next == false` reach the hand-over of lines 388-399, that is,
does it pass the checks of lines 199-380 with more than one candidate and with `up`
or `uv` true? -/
def handsOver (env : Env) (dev : Device) (up_ok : Bool) (data : Bytes) : Bool :=
  match env.cbor_parse data with
  | .error _ => false
  | .ok p =>
    if p.rpId.isNone || p.clientDataHash.isNone then false
    else
      match resolveCandidates env dev up_ok p (env.mbedtls_sha256 (p.rpId.getD [])) with
      | .error _ => false
      | .ok r => !(r.up == false && r.uv == false) && decide (r.numberOfCredentials > 1)


/-- The session seen from a series of GetNextAssertion calls: either it is active
with cursor `k` on the `n` candidates `cs` and the request `data`, or all `n`
candidates have been delivered and nothing is held. -/
def SessionAt (cs : List Credential) (data : Bytes) (n k : Nat) (s : Session) : Prop :=
  (k < n ∧ s.credentialCounter = k ∧ s.numberOfCredentialsx = n ∧ s.credsx = cs ∧
      (s.datax.getD []).take s.lenx = data) ∨
    (k = n ∧ s.numberOfCredentialsx = 0)

/-- The result of lines 210-380 for the example request of the relying party `[1]`
on the example device. -/
def exampleResolved : Resolved :=
  match resolveCandidates exampleEnv exampleDevice true (exampleRequest [1])
      (exampleEnv.mbedtls_sha256 [1]) with
  | .ok r => r
  | .error e =>
    { up := false, uv := false, flags := 0, resident := false, creds := [],
      numberOfCredentials := 0, dev := e.2 }

/-- The salts that `derive_key` feeds to `mbedtls_hkdf` for a new key in the rounds
`a, a + 1, ..., a + m - 1`. -/
def newSalts (rnd : Nat → Nat) (a m : Nat) : List Bytes :=
  (List.range' a m).map (fun i => u32le ((rnd i % 2 ^ 32) ||| 0x80000000))

/-- The handle that `derive_key` writes for a new key on the example device, the
random values being 0, 1, 2, ... and the application hash 32 bytes of value 1. -/
def exampleHandle : Bytes :=
  (derive_key exampleEnv exampleDevice (fun i => i) (List.replicate 32 1) true
    (List.replicate 64 0) MBEDTLS_ECP_DP_SECP256R1 none).key_handle

/-! ## The loop over the keys of the request map (lines 99-197) -/

/-- The initial values of the locals that the parsing loop fills (lines 81-97). -/
def Request.initial : Request :=
  { rpId := none, clientDataHash := none, allowList := [],
    extensions := CredExtensions.zero, credBlob := none, kty := 2, alg := 0, crv := 0,
    kax := none, kay := none, salt_enc := none, salt_auth := none,
    hmacSecretPinUvAuthProtocol := 1, options := CredOptions.zero, pinUvAuthParam := none,
    pinUvAuthProtocol := 0 }

/-- One round of the loop of lines 101-196: the key `val_u` that
`CBOR_FIELD_GET_UINT` delivers and what the branch selected by that key does to the
locals when it reads the value (the status it jumps to `err` with, or the new
locals). The codec macros of the branches are external. -/
structure Round where
  val_u : Nat
  branch : Request → Except Nat Request

/-- The chain `if (val_u == 0x01) ... else if (val_u == 0x07) ...` of lines 112-195:
a key outside 1..7 selects no branch. -/
def readField (e : Round) (p : Request) : Except Nat Request :=
  if e.val_u == 0x01 || e.val_u == 0x02 || e.val_u == 0x03 || e.val_u == 0x04 ||
      e.val_u == 0x05 || e.val_u == 0x06 || e.val_u == 0x07 then e.branch p
  else .ok p

/-- The loop of lines 100-197 over the rounds still to come, `val_c` being the
`uint64_t` of line 100. -/
def parseLoop : Nat → List Round → Request → Except Nat Request
  | _, [], p => .ok p
  | val_c, e :: rest, p =>
    if val_c ≤ 2 && val_c != e.val_u then .error CTAP2_ERR_MISSING_PARAMETER
    else if e.val_u < val_c then .error CTAP2_ERR_INVALID_CBOR
    else
      match readField e p with
      | .error err => .error err
      | .ok p1 => parseLoop ((e.val_u + 1) % 2 ^ 64) rest p1

/-! ## The candidate lookup of `cbor_get_assertion` on its own (lines 284-322) -/

/-- Lines 284-322 of `cbor_get_assertion`: the candidate lookup, through the
allow-list when it is not empty and through the resident slots otherwise; the array
`creds`, `creds_len` and the resident marker, or the status jumped to `err` with. -/
def lookupCandidates (env : Env) (dev : Device) (p : Request) (rp_id_hash : Bytes) :
    Except Nat ((List Credential × Nat) × Bool) :=
  if p.allowList.length > 0 then
    match loadAllowList env rp_id_hash p.allowList
        (List.replicate env.MAX_CREDENTIAL_COUNT_IN_LIST Credential.zero) 0 with
    | .error e => .error e
    | .ok r => .ok (r, false)
  else
    .ok (scanResident env dev rp_id_hash
      (List.replicate env.MAX_CREDENTIAL_COUNT_IN_LIST Credential.zero), true)

/-! ## Notions used to state the properties of the policy, filter and builder -/

/-- The codec delivers the rounds `rounds` for the request bytes `data`: parsing
`data` is running the loop over them, from `val_c = 1` and the initial locals. -/
def decodesTo (env : Env) (data : Bytes) (rounds : List Round) : Prop :=
  env.cbor_parse data = parseLoop 1 rounds Request.initial

/-- The outcome of a call that fails with the status `e` before anything is
written: the status is returned and the globals and the device are as before. -/
def rejected (s : Session) (dev : Device) (e : Nat) : Outcome :=
  { ret := e, sess := s, dev := dev, resp := none }

/-- The protection rule of §4.4 of the specification: a credential is dropped when it
has extension metadata and its level is "UV required" with UV not set, or "UV
optional with list" with a resident result set and UV not set. -/
def protectionDrops (uvSet resident : Bool) (c : Credential) : Bool :=
  c.extensions.present &&
    ((c.extensions.credProtect == CRED_PROT_UV_REQUIRED && !uvSet) ||
     (c.extensions.credProtect == CRED_PROT_UV_OPTIONAL_WITH_LIST && resident && !uvSet))

/-- Is the user-verification bit set in `flags`? -/
def uvFlagSet (flags : Nat) : Bool := flags &&& FIDO2_AUT_FLAG_UV != 0

/-- The first 32 bytes of the value stored in a record or in the token are not the
32 bytes of the hash: they differ at some offset. -/
def hashDiffers (stored hash : Bytes) : Prop :=
  ∃ j, j < 32 ∧ stored.getD j 0 ≠ hash.getD j 0

/-- The four big-endian bytes of a 32-bit value. -/
def be32 (v : Nat) : Bytes :=
  [v / 2 ^ 24 % 256, v / 2 ^ 16 % 256, v / 2 ^ 8 % 256, v % 256]

/-- The value of four big-endian bytes. -/
def ofBE32 (b : Bytes) : Nat :=
  b.getD 0 0 * 2 ^ 24 + b.getD 1 0 * 2 ^ 16 + b.getD 2 0 * 2 ^ 8 + b.getD 3 0

/-- The flags byte of authenticator data (offset 32). -/
def flagsOf (authData : Bytes) : Nat := authData.getD 32 0

/-- The signature counter of authenticator data (offsets 33 to 36). -/
def signCountOf (authData : Bytes) : Nat := ofBE32 ((authData.drop 33).take 4)

/-- The extension bytes of authenticator data (from offset 37 on). -/
def extensionsOf (authData : Bytes) : Bytes := authData.drop 37

/-- The flags that lines 210-380 can hand on: the user-presence bit (0x01) and the
user-verification bit (0x04), and no other. -/
def flagsUpUv (f : Nat) : Prop := f = 0 ∨ f = 1 ∨ f = 4 ∨ f = 5

/-- A call of one of the two entry points by the dispatcher: GetAssertion on the
request bytes `data`, or GetNextAssertion; with the values that the user-presence
check and the clock deliver during the call. -/
inductive Call where
  | getAssertion (up_ok : Bool) (millis : Nat) (data : Bytes)
  | getNextAssertion (millis millis2 : Nat) (data : Bytes)

/-- The outcome of a call on the globals `s` and the device state `dev`. -/
def Call.run (env : Env) (s : Session) (dev : Device) : Call → Outcome
  | .getAssertion up_ok millis data => cbor_get_assertion env s dev up_ok millis data false
  | .getNextAssertion millis millis2 data => cbor_get_next_assertion env s dev millis millis2 data

/-- The request bytes that a call parses: its argument, or the copy held by the
session. -/
def Call.bytes (s : Session) : Call → Bytes
  | .getAssertion _ _ data => data
  | .getNextAssertion _ _ _ => (s.datax.getD []).take s.lenx

/-- The states of the session globals that a series of calls of the two entry
points produces from their initial values, the device state being arbitrary at each
call. -/
inductive Reachable (env : Env) : Session → Prop
  | initial : Reachable env (Session.initial env)
  | call (s : Session) (dev : Device) (c : Call) :
      Reachable env s → Reachable env (c.run env s dev).sess

/-- The contracts of the codec and of SHA-256 that the layout of authenticator data
rests on: the parsing loop jumps to `err` with a non-zero status only, the hash has
32 bytes, and a closed CBOR map has at least one byte. -/
structure CodecContracts (env : Env) : Prop where
  parse_error : ∀ data e, env.cbor_parse data = .error e → e ≠ 0
  sha256_length : ∀ b, (env.mbedtls_sha256 b).length = 32
  ext_nonempty : ∀ o, env.cbor_ext_buffer o ≠ []

/-! ## More examples -/

/-- The example environment with a codec that decodes every input to the request
`p`. -/
def requestEnv (p : Request) : Env :=
  { exampleEnv with cbor_parse := fun _ => .ok p }

/-- The value a toy codec reads for the key byte `b`: the byte itself, 255 standing
for the largest `uint64_t`. -/
def exampleKey (b : Nat) : Nat := if b == 255 then 2 ^ 64 - 1 else b

/-- The round of a toy codec for the key byte `b`: key 1 carries the relying party
`[1]`, key 2 the client data hash `[0xC0]`, and every other value is read and
dropped. -/
def exampleRound (b : Nat) : Round :=
  { val_u := exampleKey b,
    branch := fun p =>
      if b == 1 then .ok { p with rpId := some [1] }
      else if b == 2 then .ok { p with clientDataHash := some [0xC0] }
      else .ok p }

/-- The example environment with the toy codec: the request bytes are the keys of
the top-level map in the order in which they arrive. -/
def keyEnv : Env :=
  { exampleEnv with cbor_parse := fun data => parseLoop 1 (data.map exampleRound) Request.initial }

/-- A credential with extension metadata of the given protection level. -/
def exampleProtected (id : Bytes) (creation credProtect : Nat) : Credential :=
  { exampleCredential id creation with
    extensions := { CredExtensions.zero with credProtect := credProtect, present := true } }

/-- Four loaded candidates: one without extension metadata and one of each
protection level. -/
def exampleLoaded : List Credential :=
  [exampleCredential [0xA] 1, exampleProtected [0xB] 2 CRED_PROT_UV_OPTIONAL,
   exampleProtected [0xC] 3 CRED_PROT_UV_OPTIONAL_WITH_LIST,
   exampleProtected [0xD] 4 CRED_PROT_UV_REQUIRED]

/-- The example request for the relying party `[1]` with a PIN/UV auth parameter
for protocol 1. -/
def examplePinRequest (param : Bytes) : Request :=
  { exampleRequest [1] with pinUvAuthParam := some param, pinUvAuthProtocol := 1 }

/-- The example request for the relying party `[1]` with an options map. -/
def exampleOptionsRequest (rk uv : Option Bool) (param : Option Bytes) : Request :=
  { exampleRequest [1] with
    options := { rk := rk, up := none, uv := uv, present := true }, pinUvAuthParam := param }

/-- The example device after a PIN ceremony: the token is verified and carries the
get-assertion permission. -/
def exampleVerifiedDevice : Device :=
  { exampleDevice with
    paut := { data := [], permissions := CTAP_PERMISSION_GA, has_rp_id := false,
              rp_id_hash := [], user_present := false, user_verified := true },
    ef_pin_has_data := true }

/-! ## The legacy U2F command `cmd_authenticate` (cmd_authenticate.c) -/

/-- The status words that `cmd_authenticate` and `cmd_validate` return through the
`SW_...()` calls of the missing `apdu.h`; only their names are used. -/
inductive StatusWord where
  | SW_OK
  | SW_EXEC_ERROR
  | SW_WRONG_DATA
  | SW_DATA_INVALID
  | SW_CONDITIONS_NOT_SATISFIED
  | SW_INCORRECT_PARAMS
deriving DecidableEq

def CTAP_CHAL_SIZE : Nat := 32

/-- Modelled from the spec: a handle is the path followed by a 32-byte integrity
tag, so `KEY_HANDLE_LEN` is `KEY_PATH_LEN + 32` (its header is missing). -/
def KEY_HANDLE_LEN : Nat := KEY_PATH_LEN + 32

/-- The values of the parameter P1 and the flag of the U2F standard (the header
`ctap.h` is missing); only `CTAP_AUTH_FLAG_TUP` being the user-presence bit is
used. -/
def CTAP_AUTH_ENFORCE : Nat := 0x03
def CTAP_AUTH_CHECK_ONLY : Nat := 0x07
def CTAP_AUTH_FLAG_TUP : Nat := 0x01

/-- The fields of the global `apdu` that the two commands read: P1, the length `nc`
of the command data, and the buffer `data`. -/
structure Apdu where
  p1 : Nat
  nc : Nat
  data : Bytes
deriving DecidableEq

/-- What a call of `cmd_authenticate` leaves behind: the status word, the device
state, the bytes it has written at the start of `res_APDU` (the struct
`CTAP_AUTHENTICATE_RESP`) and the `res_APDU_size` it has set. -/
structure AuthResult where
  sw : StatusWord
  dev : Device
  res_APDU : Bytes
  res_APDU_size : Nat
deriving DecidableEq

/-- Modelled from the spec: the field `chal` of the "fixed-layout request
(challenge[32] ‖ appId[32] ‖ keyHandleLen ‖ keyHandle)", whose struct is in the
missing `ctap.h`. -/
def reqChal (apdu : Apdu) : Bytes := apdu.data.take CTAP_CHAL_SIZE

/-- Modelled from the spec: the field `appId` of the fixed-layout request. -/
def reqAppId (apdu : Apdu) : Bytes := (apdu.data.drop CTAP_CHAL_SIZE).take CTAP_APPID_SIZE

/-- Modelled from the spec: the field `keyHandleLen` of the fixed-layout request. -/
def reqKeyHandleLen (apdu : Apdu) : Nat := apdu.data.getD (CTAP_CHAL_SIZE + CTAP_APPID_SIZE) 0

/-- Modelled from the spec: the field `keyHandle` of the fixed-layout request, as far
as the buffer goes. -/
def reqKeyHandle (apdu : Apdu) : Bytes := apdu.data.drop (CTAP_CHAL_SIZE + CTAP_APPID_SIZE + 1)

/-- The bytes `ctr >> 24, ctr >> 16, ctr >> 8, ctr & 0xff` stored in `uint8_t`
fields (cmd_authenticate.c lines 68-71). -/
def ctrBytes (ctr : Nat) : Bytes :=
  [(ctr >>> 24) % 256, (ctr >>> 16) % 256, (ctr >>> 8) % 256, ctr &&& 0xff]

/-- The function `cmd_authenticate` (cmd_authenticate.c lines 26-103).
`credential_verify` is the function of the missing credential module and
`wait_button_pressed` the value that the call of that name returns. -/
def cmd_authenticate (env : Env) (credential_verify : Bytes → Bytes → Int) (dev : Device)
    (wait_button_pressed : Bool) (apdu : Apdu) : AuthResult :=
  if apdu.nc < CTAP_CHAL_SIZE + CTAP_APPID_SIZE + 1 + 1 then
    { sw := .SW_WRONG_DATA, dev := dev, res_APDU := [], res_APDU_size := 0 }
  else if reqKeyHandleLen apdu < KEY_HANDLE_LEN then
    { sw := .SW_INCORRECT_PARAMS, dev := dev, res_APDU := [], res_APDU_size := 0 }
  else if apdu.p1 == CTAP_AUTH_ENFORCE && wait_button_pressed == true then
    { sw := .SW_CONDITIONS_NOT_SATISFIED, dev := dev, res_APDU := [], res_APDU_size := 0 }
  else
    let key := mbedtls_ecdsa_init
    let tmp_kh := (reqKeyHandle apdu).take (reqKeyHandleLen apdu)
    let verified := credential_verify tmp_kh (reqAppId apdu) == 0
    let loaded := fido_load_key env dev FIDO2_CURVE_P256 (reqKeyHandle apdu) key
    let derived := derive_key env dev (fun _ => 0) (reqAppId apdu) false (reqKeyHandle apdu)
      MBEDTLS_ECP_DP_SECP256R1 (some key)
    let key1 := if verified then loaded.2 else derived.key.getD key
    let ret := if verified then loaded.1 else derived.ret
    if !verified && verify_key env dev (reqAppId apdu) (reqKeyHandle apdu) (some key1) != 0 then
      { sw := .SW_INCORRECT_PARAMS, dev := dev, res_APDU := [], res_APDU_size := 0 }
    else if ret != CCID_OK then
      { sw := .SW_EXEC_ERROR, dev := dev, res_APDU := [], res_APDU_size := 0 }
    else if apdu.p1 == CTAP_AUTH_CHECK_ONLY then
      { sw := .SW_CONDITIONS_NOT_SATISFIED, dev := dev, res_APDU := [], res_APDU_size := 0 }
    else
      let flags := 0 ||| (if apdu.p1 == CTAP_AUTH_ENFORCE then CTAP_AUTH_FLAG_TUP else 0x0)
      let ctr := get_sign_counter dev
      let sig_base := reqAppId apdu ++ [flags] ++ ctrBytes ctr ++ reqChal apdu
      let h := env.mbedtls_md MBEDTLS_MD_SHA256 sig_base
      if h.1 != 0 then
        { sw := .SW_EXEC_ERROR, dev := dev, res_APDU := flags :: ctrBytes ctr,
          res_APDU_size := 0 }
      else
        let sg := env.mbedtls_ecdsa_write_signature key1 MBEDTLS_MD_SHA256 (h.2.take 32)
        if sg.1 != 0 then
          { sw := .SW_EXEC_ERROR, dev := dev, res_APDU := flags :: ctrBytes ctr ++ sg.2,
            res_APDU_size := 0 }
        else
          { sw := .SW_OK,
            dev := { dev with ef_counter := u32le ((ctr + 1) % 2 ^ 32) },
            res_APDU := flags :: ctrBytes ctr ++ sg.2,
            res_APDU_size := 1 + 4 + sg.2.length }

/-! ## The OATH command `cmd_validate` (oath.c) -/

def CHALLENGE_LEN : Nat := 8
def TAG_CHALLENGE : Nat := 0x74
def TAG_RESPONSE : Nat := 0x75
def ALG_HMAC_SHA1 : Nat := 0x01
def ALG_HMAC_SHA256 : Nat := 0x02
def ALG_HMAC_SHA512 : Nat := 0x03
def ALG_MASK : Nat := 0x0f
def MBEDTLS_MD_SHA1 : Nat := 5

/-- The function `get_oath_md_info` (oath.c lines 200-211); `none` is `NULL`. -/
def get_oath_md_info (alg : Nat) : Option Nat :=
  if alg &&& ALG_MASK == ALG_HMAC_SHA1 then some MBEDTLS_MD_SHA1
  else if alg &&& ALG_MASK == ALG_HMAC_SHA256 then some MBEDTLS_MD_SHA256
  else if alg &&& ALG_MASK == ALG_HMAC_SHA512 then some MBEDTLS_MD_SHA512
  else none

/-- The digest sizes that `mbedtls_md_get_size` reports for the three algorithms. -/
def mbedtls_md_get_size (md : Nat) : Nat :=
  if md == MBEDTLS_MD_SHA1 then 20
  else if md == MBEDTLS_MD_SHA256 then 32
  else if md == MBEDTLS_MD_SHA512 then 64
  else 0

/-- The state that `cmd_validate` reads and writes: the statics `validated` and
`challenge`, the data of the file `EF_OATH_CODE` (`none` when `file_has_data` is
false) and the bytes of `res_APDU` up to `res_APDU_size`. -/
structure OathState where
  validated : Bool
  challenge : Bytes
  ef_oath_code : Option Bytes
  res_APDU : Bytes
deriving DecidableEq

/-- The function `cmd_validate` (oath.c lines 301-340). `asn1_find_tag data nc tag`
is the value of the tag found by the function of that name of the missing `asn1.h`,
`none` when it returns false. Bytes of `hmac` that a primitive leaves unwritten read
as zero; the assignment `apdu.ne = res_APDU_size` of line 338 is left out. -/
def cmd_validate (env : Env) (asn1_find_tag : Bytes → Nat → Nat → Option Bytes)
    (st : OathState) (apdu : Apdu) : StatusWord × OathState :=
  match asn1_find_tag apdu.data apdu.nc TAG_CHALLENGE with
  | none => (.SW_INCORRECT_PARAMS, st)
  | some chal =>
    match asn1_find_tag apdu.data apdu.nc TAG_RESPONSE with
    | none => (.SW_INCORRECT_PARAMS, st)
    | some resp =>
      match st.ef_oath_code with
      | none => (.SW_DATA_INVALID, { st with validated := true })
      | some key =>
        match get_oath_md_info (key.getD 0 0) with
        | none => (.SW_INCORRECT_PARAMS, st)
        | some md_info =>
          let h1 := env.mbedtls_md_hmac md_info (key.drop 1) (st.challenge.take CHALLENGE_LEN)
          if h1.1 != 0 then (.SW_EXEC_ERROR, st)
          else if memcmp h1.2 resp resp.length != 0 then (.SW_DATA_INVALID, st)
          else
            let h2 := env.mbedtls_md_hmac md_info (key.drop 1) chal
            if h2.1 != 0 then (.SW_EXEC_ERROR, st)
            else
              (.SW_OK,
                { st with
                  validated := true,
                  res_APDU := st.res_APDU ++ [TAG_RESPONSE, mbedtls_md_get_size md_info] ++
                    (h2.2 ++ List.replicate 64 0).take (mbedtls_md_get_size md_info) })

/-! ## Notions used to state the properties of the response, the session and the
legacy commands -/

/-- The length `salt_enc.len - poff` handed to `encrypt` at line 519, a `size_t` of
32 bits on the RP2040. -/
def plaintextLen (env : Env) (p : Request) : Nat :=
  ((p.salt_enc.getD []).length + 2 ^ 32 - poff env p) % 2 ^ 32

/-- The two HMAC outputs of lines 505-518 laid out in `out1`, for the key half `crd`
and the decrypted salt; the second one is computed when `two` holds. -/
def hmacOutput (env : Env) (crd salt_dec : Bytes) (two : Bool) : Bytes :=
  (env.mbedtls_md_hmac MBEDTLS_MD_SHA256 crd (salt_dec.take 32)).2 ++
    (if two then (env.mbedtls_md_hmac MBEDTLS_MD_SHA256 crd ((salt_dec.drop 32).take 32)).2
     else List.replicate 32 0)

/-- The key half that lines 498-503 select from the 64 bytes of `cred_random`. -/
def keyHalf (flags : Nat) (cred_random : Bytes) : Bytes :=
  if flags &&& FIDO2_AUT_FLAG_UV != 0 then (cred_random.drop 32).take 32
  else cred_random.take 32

/-- The status codes of the mbedtls primitives used by the key derivation are zero
or negative, as those of mbedtls are. -/
structure MbedtlsStatus (env : Env) : Prop where
  hkdf : ∀ md salt ikm info n, (env.mbedtls_hkdf md salt ikm info n).1 ≤ 0
  read_key : ∀ c b, (env.mbedtls_ecp_read_key c b).1 ≤ 0
  mul : ∀ c d, (env.mbedtls_ecp_mul c d).1 ≤ 0

/-- The user entity that lines 604-630 write for the selected credential, `n` being
`numberOfCredentials`: absent unless the credential has the `rk` option; the names
only when there is more than one candidate and no allow-list. -/
def userEntityOf (p : Request) (n : Nat) (selcred : Credential) : Option UserEntity :=
  if selcred.opts.present == true && selcred.opts.rk == some true then
    some { id := selcred.userId,
           name := if decide (n > 1) && p.allowList.length == 0 then selcred.userName else none,
           displayName :=
             if decide (n > 1) && p.allowList.length == 0 then selcred.userDisplayName
             else none }
  else none

/-! ## Examples for the response, the session and the legacy commands -/

/-- The environment `env` with other status values for the digest and for the
signing primitive: `md_status` and `sig_status` replace what `mbedtls_md` and
`mbedtls_ecdsa_write_signature` return, their output buffers being the same. -/
def withSigningStatus (env : Env) (md_status : Nat → Bytes → Int)
    (sig_status : mbedtls_ecdsa_context → Nat → Bytes → Int) : Env :=
  { env with
    mbedtls_md := fun md b => (md_status md b, (env.mbedtls_md md b).2),
    mbedtls_ecdsa_write_signature := fun k md h =>
      (sig_status k md h, (env.mbedtls_ecdsa_write_signature k md h).2) }

/-- The example environment with a digest and a signing primitive that report the
failure -1 on every input. -/
def signFailEnv : Env :=
  withSigningStatus exampleEnv (fun _ _ => -1) (fun _ _ _ => -1)

/-- A discoverable credential record: the `rk` option is set and the user entity has
an id and a name. -/
def exampleRkCredential (id : Bytes) (creation : Nat) : Credential :=
  { exampleCredential id creation with
    userId := some [0x55], userName := some [0x6E],
    opts := { rk := some true, up := none, uv := none, present := true } }

/-- The example environment whose stored credentials are discoverable. -/
def rkEnv : Env :=
  { exampleEnv with
    credential_load := fun id _ => (0, exampleRkCredential (id.take 1) (id.getD 1 0)) }

/-- The example environment whose stored credentials carry the curve identifier 7,
which `fido_curve_to_mbedtls` does not map. -/
def curveEnv : Env :=
  { exampleEnv with
    credential_load := fun id _ =>
      (0, { exampleCredential (id.take 1) (id.getD 1 0) with curve := 7 }) }

/-- The example environment with an `mbedtls_ecp_read_key` that fails, so that no
signing key can be derived. -/
def keyFailEnv : Env :=
  { exampleEnv with mbedtls_ecp_read_key := fun _ _ => (-1, 0) }

/-- The example request with the hmac-secret extension, for the given protocol field
and a `salt_enc` of the given length. -/
def exampleHmacRequest (protocol len : Nat) : Request :=
  { exampleRequest [1] with
    extensions := { CredExtensions.zero with hmac_secret := some true, present := true },
    alg := -25, crv := 1, kax := some [1], kay := some [2],
    salt_enc := some (List.replicate len 0), salt_auth := some [3],
    hmacSecretPinUvAuthProtocol := protocol }

/-- A stored access code: the algorithm byte for HMAC-SHA1 followed by the key. -/
def exampleOathState (validated : Bool) : OathState :=
  { validated := validated, challenge := [1, 2, 3, 4, 5, 6, 7, 8],
    ef_oath_code := some [ALG_HMAC_SHA1, 9, 9, 9], res_APDU := [] }

/-- A toy `asn1_find_tag`: the command data are the tag, the length and the value of
the challenge followed by those of the response. -/
def exampleFindTag (data : Bytes) (_nc tag : Nat) : Option Bytes :=
  if data.getD 0 0 == tag then some ((data.drop 2).take (data.getD 1 0))
  else
    let rest := data.drop (2 + data.getD 1 0)
    if rest.getD 0 0 == tag then some ((rest.drop 2).take (rest.getD 1 0)) else none

/-- A U2F authenticate request for the example handle: the challenge, the
application hash, the handle length and the handle. -/
def exampleApdu (p1 : Nat) : Apdu :=
  { p1 := p1, nc := 32 + 32 + 1 + 64,
    data := List.replicate 32 0xC1 ++ List.replicate 32 1 ++ [64] ++ exampleHandle }

/-- An OATH validate command whose data are a challenge tag with the value `[1, 1]`
followed by a response tag with the value `resp`. -/
def exampleValidateApdu (resp : Bytes) : Apdu :=
  { p1 := 0, nc := 6 + resp.length,
    data := [TAG_CHALLENGE, 2, 1, 1, TAG_RESPONSE, resp.length] ++ resp }

/-- The example request with the large-blob-key extension. -/
def exampleBlobRequest : Request :=
  { exampleRequest [1] with
    extensions := { CredExtensions.zero with largeBlobKey := some true, present := true } }

/-- The example environment for the large-blob-key extension: every request decodes
to `exampleBlobRequest`, the stored credentials support the extension, and the
derivation of the large-blob key fails for the handle `[0xA2]` only. -/
def blobFailEnv : Env :=
  { exampleEnv with
    cbor_parse := fun _ => .ok exampleBlobRequest,
    credential_load := fun id _ =>
      (0, { exampleCredential (id.take 1) (id.getD 1 0) with
            extensions := { CredExtensions.zero with largeBlobKey := some true, present := true } }),
    credential_derive_large_blob_key := fun id =>
      if id == [0xA2] then (-1, []) else (0, List.replicate 32 0) }

/-! ## Notions and examples for the extension bytes of authenticator data -/

/-- The test `extensions.hmac_secret != NULL` of line 435, made after lines 432-434
have cleared the pointer for a request whose option `up` is false. -/
def hmacRequested (p : Request) : Bool :=
  (if p.options.up == some false then none else p.extensions.hmac_secret) != none

/-- The number `l` of entries of the extension output map (lines 431-443). -/
def extensionCount (p : Request) : Nat :=
  (if hmacRequested p then 1 else 0) + (if p.credBlob == some true then 1 else 0)
    + (if p.extensions.thirdPartyPayment != none then 1 else 0)

/-- A request for the relying party `[2]` that asks for the credBlob and the
thirdPartyPayment extensions. -/
def exampleExtRequest : Request :=
  { exampleRequest [2] with
    extensions := { CredExtensions.zero with thirdPartyPayment := some true, present := true },
    credBlob := some true }

/-- The example environment for the extensions: every request decodes to
`exampleExtRequest`, the stored credentials hold the credBlob `[7, 7]` and the
thirdPartyPayment mark, and the bytes of the closed extension map show its entries
(a header byte with the number of entries, the credBlob with its length, the
hmac-secret output with its length, one byte for thirdPartyPayment). -/
def extEnv : Env :=
  { exampleEnv with
    cbor_parse := fun _ => .ok exampleExtRequest,
    cbor_ext_buffer := fun o =>
      [0xA0 + o.l] ++ (o.credBlob.map (fun b => (0x40 + b.length) :: b)).getD []
        ++ (o.hmac_secret.map (fun b => (0x40 + b.length) :: b)).getD []
        ++ (o.thirdPartyPayment.map (fun b => [if b then 0xF5 else 0xF4])).getD [],
    credential_load := fun id _ =>
      (0, { exampleCredential (id.take 1) (id.getD 1 0) with
            extensions := { CredExtensions.zero with
              credBlob := some [7, 7], thirdPartyPayment := some true, present := true } }) }

/-- The result of lines 210-380 for the example request of the relying party `[2]` on
the example device, the stored credentials carrying the curve identifier 7. -/
def curveResolved : Resolved :=
  match resolveCandidates curveEnv exampleDevice true (exampleRequest [2])
      (curveEnv.mbedtls_sha256 [2]) with
  | .ok r => r
  | .error e =>
    { up := false, uv := false, flags := 0, resident := false, creds := [],
      numberOfCredentials := 0, dev := e.2 }

/-! ## Facts about the ordering step -/

theorem getD_cons_set_perm (d x : Credential) :
    ∀ (xs : List Credential) (k : Nat), k < xs.length →
      (xs.getD k d :: xs.set k x).Perm (x :: xs) := by
  intro xs
  induction xs with
  | nil => intro k hk; simp at hk
  | cons y ys ih =>
    intro k hk
    cases k with
    | zero => simpa using List.Perm.swap x y ys
    | succ k =>
      have hk2 : k < ys.length := by simpa using hk
      have h1 := ih k hk2
      simp only [List.getD_cons_succ, List.set_cons_succ]
      exact (List.Perm.swap y (ys.getD k d) (ys.set k x)).trans
        (((List.Perm.cons y h1)).trans (List.Perm.swap x y ys))

theorem set_set_getD_perm (d : Credential) :
    ∀ (l : List Credential) (i j : Nat), i < j → j < l.length →
      ((l.set j (l.getD i d)).set i (l.getD j d)).Perm l := by
  intro l
  induction l with
  | nil => intro i j _ hj; simp at hj
  | cons x xs ih =>
    intro i j hij hj
    cases j with
    | zero => omega
    | succ j =>
      have hj2 : j < xs.length := by simpa using hj
      cases i with
      | zero =>
        simpa using getD_cons_set_perm d x xs j hj2
      | succ i =>
        simpa using ih i j (by omega) hj2

theorem sortSwap_length (i j : Nat) (cs : List Credential) :
    (sortSwap i cs j).length = cs.length := by
  unfold sortSwap
  split <;> simp

theorem sortSwap_perm (i j : Nat) (cs : List Credential) (hij : i < j) (hj : j < cs.length) :
    (sortSwap i cs j).Perm cs := by
  unfold sortSwap
  split
  · exact set_set_getD_perm _ cs i j hij hj
  · exact List.Perm.refl _

theorem sortSwap_getD_other (i j k : Nat) (cs : List Credential) (hki : k ≠ i) (hkj : k ≠ j) :
    (sortSwap i cs j).getD k Credential.zero = cs.getD k Credential.zero := by
  unfold sortSwap
  split
  · simp [List.getD_eq_getElem?_getD, List.getElem?_set, Ne.symm hki, Ne.symm hkj]
  · rfl

theorem sortSwap_getD_i (i j : Nat) (cs : List Credential) (hij : i < j) (hj : j < cs.length) :
    (sortSwap i cs j).getD i Credential.zero =
      if creationAt cs j > creationAt cs i then cs.getD j Credential.zero
      else cs.getD i Credential.zero := by
  unfold sortSwap creationAt
  split
  · have hi : i < cs.length := by omega
    simp [List.getD_eq_getElem?_getD, List.getElem?_set, hi]
  · rfl

theorem sortSwap_getD_j (i j : Nat) (cs : List Credential) (hij : i < j) (hj : j < cs.length) :
    (sortSwap i cs j).getD j Credential.zero =
      if creationAt cs j > creationAt cs i then cs.getD i Credential.zero
      else cs.getD j Credential.zero := by
  unfold sortSwap creationAt
  split
  · have hne : ¬ i = j := by omega
    simp [List.getD_eq_getElem?_getD, List.getElem?_set, hne, hj]
  · rfl


theorem sortInner_inv (i : Nat) (cs : List Credential) :
    ∀ m, i + m < cs.length →
      InnerInv i m cs ((List.range' (i + 1) m).foldl (sortSwap i) cs) := by
  intro m
  induction m with
  | zero =>
    intro _
    refine ⟨rfl, List.Perm.refl _, fun _ _ => rfl, fun _ _ => rfl, ?_, ?_⟩
    · intro k h1 h2; omega
    · intro k h1 h2
      exact ⟨i, le_refl _, by omega, by
        have : k = i := by omega
        subst this; rfl⟩
  | succ m ih =>
    intro hm
    have hr := ih (by omega)
    rw [List.range'_1_concat, List.foldl_append]
    simp only [List.foldl_cons, List.foldl_nil]
    generalize (List.range' (i + 1) m).foldl (sortSwap i) cs = r at hr
    have hij : i < i + 1 + m := by omega
    have hj : i + 1 + m < r.length := by rw [hr.len]; omega
    have hI := sortSwap_getD_i i (i + 1 + m) r hij hj
    have hJ := sortSwap_getD_j i (i + 1 + m) r hij hj
    refine ⟨?_, ?_, ?_, ?_, ?_, ?_⟩
    · rw [sortSwap_length, hr.len]
    · exact (sortSwap_perm i _ r hij hj).trans hr.perm
    · intro k hk
      rw [sortSwap_getD_other i _ k r (by omega) (by omega)]
      exact hr.low k hk
    · intro k hk
      rw [sortSwap_getD_other i _ k r (by omega) (by omega)]
      exact hr.high k (by omega)
    · intro k hk1 hk2
      by_cases hkj : k = i + 1 + m
      · subst hkj
        unfold creationAt at *
        rw [hI, hJ]
        split <;> omega
      · have hd := hr.dom k hk1 (by omega)
        unfold creationAt at *
        rw [hI, sortSwap_getD_other i _ k r (by omega) hkj]
        split <;> omega
    · intro k hk1 hk2
      have hsj : ∃ k2, i ≤ k2 ∧ k2 ≤ i + (m + 1) ∧
          r.getD (i + 1 + m) Credential.zero = cs.getD k2 Credential.zero :=
        ⟨i + 1 + m, by omega, by omega, hr.high _ (by omega)⟩
      have hsi : ∃ k2, i ≤ k2 ∧ k2 ≤ i + (m + 1) ∧
          r.getD i Credential.zero = cs.getD k2 Credential.zero := by
        obtain ⟨k2, h1, h2, h3⟩ := hr.src i (le_refl _) (by omega)
        exact ⟨k2, h1, by omega, h3⟩
      by_cases hki : k = i
      · subst hki
        rw [hI]
        split
        · exact hsj
        · exact hsi
      · by_cases hkj : k = i + 1 + m
        · subst hkj
          rw [hJ]
          split
          · exact hsi
          · exact hsj
        · rw [sortSwap_getD_other i _ k r hki hkj]
          obtain ⟨k2, h1, h2, h3⟩ := hr.src k hk1 (by omega)
          exact ⟨k2, h1, by omega, h3⟩

theorem sortCreds_inv (n : Nat) (cs : List Credential) (hn : n ≤ cs.length) :
    ∀ i, i ≤ n → OuterInv n i cs ((List.range i).foldl (sortInner n) cs) := by
  intro i
  induction i with
  | zero =>
    intro _
    exact ⟨rfl, List.Perm.refl _, fun _ _ => rfl, fun a b _ h _ => by omega⟩
  | succ i ih =>
    intro hi
    have hr := ih (by omega)
    rw [List.range_succ, List.foldl_append]
    simp only [List.foldl_cons, List.foldl_nil]
    generalize (List.range i).foldl (sortInner n) cs = r at hr
    have hin := sortInner_inv i r (n - (i + 1)) (by rw [hr.len]; omega)
    unfold sortInner
    generalize (List.range' (i + 1) (n - (i + 1))).foldl (sortSwap i) r = r2 at hin
    refine ⟨?_, ?_, ?_, ?_⟩
    · rw [hin.len, hr.len]
    · exact hin.perm.trans hr.perm
    · intro k hk
      rw [hin.high k (by omega)]
      exact hr.high k hk
    · intro a b hab ha hb
      by_cases hai : a = i
      · subst hai
        exact hin.dom b hab (by omega)
      · have ha2 : a < i := by omega
        unfold creationAt
        rw [hin.low a ha2]
        by_cases hbi : b < i
        · rw [hin.low b hbi]
          exact hr.sorted a b hab ha2 hb
        · obtain ⟨k2, h1, h2, h3⟩ := hin.src b (by omega) (by omega)
          rw [h3]
          exact hr.sorted a k2 (by omega) ha2 (by omega)

/-- The ordering step rearranges the candidate list. -/
theorem sortCreds_perm (creds : List Credential) :
    (sortCreds creds.length creds).Perm creds :=
  (sortCreds_inv creds.length creds (le_refl _) creds.length (le_refl _)).perm

/-- After the ordering step the creation timestamps do not increase with the index. -/
theorem sortCreds_pairwise (creds : List Credential) :
    (sortCreds creds.length creds).Pairwise (fun a b => b.creation ≤ a.creation) := by
  have h := sortCreds_inv creds.length creds (le_refl _) creds.length (le_refl _)
  rw [List.pairwise_iff_getElem]
  intro a b ha hb hab
  have hs := h.sorted a b hab (by rw [← h.len]; exact ha) (by rw [← h.len]; exact hb)
  unfold creationAt at hs
  unfold sortCreds at ha hb ⊢
  rw [List.getD_eq_getElem _ _ ha, List.getD_eq_getElem _ _ hb] at hs
  exact hs

/-- The first `n` slots after the ordering step hold creation timestamps that do not
increase with the index. -/
theorem sortCreds_take_pairwise (n : Nat) (creds : List Credential) (hn : n ≤ creds.length) :
    ((sortCreds n creds).take n).Pairwise (fun a b => b.creation ≤ a.creation) := by
  have h := sortCreds_inv n creds hn n (le_refl _)
  have hlen : (sortCreds n creds).length = creds.length := h.len
  rw [List.pairwise_iff_getElem]
  intro a b ha hb hab
  have ha2 : a < n := by simp only [List.length_take] at ha; omega
  have hb2 : b < n := by simp only [List.length_take] at hb; omega
  have hs := h.sorted a b hab ha2 hb2
  unfold creationAt at hs
  have ha3 : a < (sortCreds n creds).length := by omega
  have hb3 : b < (sortCreds n creds).length := by omega
  unfold sortCreds at ha3 hb3 ⊢
  rw [List.getD_eq_getElem _ _ ha3, List.getD_eq_getElem _ _ hb3] at hs
  simpa using hs

theorem foldl_fixed {α β : Type} (f : α → β → α) (a : α) :
    ∀ l : List β, (∀ x ∈ l, f a x = a) → l.foldl f a = a := by
  intro l
  induction l with
  | nil => intro _; rfl
  | cons x xs ih =>
    intro h
    rw [List.foldl_cons, h x (List.mem_cons_self _ _)]
    exact ih (fun y hy => h y (List.mem_cons_of_mem _ hy))

theorem sortCreds_drop (creds : List Credential) (n : Nat) (hn : n ≤ creds.length) :
    (sortCreds n creds).drop n = creds.drop n := by
  have h := sortCreds_inv n creds hn n (le_refl _)
  have hlen : (sortCreds n creds).length = creds.length := h.len
  apply List.ext_getElem
  · simp [hlen]
  · intro k h1 h2
    have hk1 : n + k < (sortCreds n creds).length := by
      simp only [List.length_drop] at h1; omega
    have hk2 : n + k < creds.length := by omega
    have hh := h.high (n + k) (by omega)
    unfold sortCreds at hk1 hh ⊢
    rw [List.getD_eq_getElem _ _ hk1, List.getD_eq_getElem _ _ hk2] at hh
    simpa using hh

/-- C2. The ordering step of GetAssertion, run on the first `n` slots of the
candidate array, leaves there a rearrangement of the filtered candidates whose
creation timestamps do not increase with the index (most recently created first),
and does not touch the slots behind them. -/
theorem ordering_sorted_permutation (creds : List Credential) (n : Nat)
    (hn : n ≤ creds.length) :
    ((sortCreds n creds).take n).Perm (creds.take n) ∧
      ((sortCreds n creds).take n).Pairwise (fun a b => b.creation ≤ a.creation) ∧
      (sortCreds n creds).drop n = creds.drop n := by
  have h := sortCreds_inv n creds hn n (le_refl _)
  have hlen : (sortCreds n creds).length = creds.length := h.len
  have hdrop := sortCreds_drop creds n hn
  refine ⟨?_, ?_, hdrop⟩
  · have hp : ((sortCreds n creds).take n ++ (sortCreds n creds).drop n).Perm
        (creds.take n ++ creds.drop n) := by
      rw [List.take_append_drop, List.take_append_drop]
      exact h.perm
    rw [hdrop] at hp
    exact (List.perm_append_right_iff _).mp hp
  · exact sortCreds_take_pairwise n creds hn

/-- Witness of C2 on three candidates created at times 1, 1 and 2. -/
theorem ordering_sorted_permutation_witness :
    ((sortCreds 3 exampleTies).take 3).Perm (exampleTies.take 3) ∧
      ((sortCreds 3 exampleTies).take 3).Pairwise (fun a b => b.creation ≤ a.creation) ∧
      (sortCreds 3 exampleTies).drop 3 = exampleTies.drop 3 :=
  ordering_sorted_permutation exampleTies 3 (by decide)

/-- C3, as stated, fails: the candidates `[0xA]` and `[0xB]` have the same creation
timestamp and are scanned in this order, yet the ordering step puts `[0xB]` before
`[0xA]`: the swap that brings the newest candidate `[0xC]` to the front carries
`[0xA]` behind `[0xB]`. -/
theorem ordering_not_stable :
    exampleTies = [exampleCredential [0xA] 1, exampleCredential [0xB] 1,
        exampleCredential [0xC] 2] ∧
      sortCreds 3 exampleTies = [exampleCredential [0xC] 2, exampleCredential [0xB] 1,
        exampleCredential [0xA] 1] ∧
      ¬ List.Sublist [exampleCredential [0xA] 1, exampleCredential [0xB] 1]
        (sortCreds 3 exampleTies) := by
  decide

theorem sortSwap_of_sorted (creds : List Credential) (i j : Nat)
    (h : creationAt creds j ≤ creationAt creds i) : sortSwap i creds j = creds := by
  unfold sortSwap
  unfold creationAt at h
  rw [if_neg (by omega)]

/-- C3, amended. When the first `n` slots of the candidate array are already in
non-increasing order of creation timestamp, the ordering step changes nothing, so
candidates with equal timestamps keep the order in which they were scanned. -/
theorem ordering_keeps_sorted_input (creds : List Credential) (n : Nat)
    (hn : n ≤ creds.length)
    (hs : (creds.take n).Pairwise (fun a b => b.creation ≤ a.creation)) :
    sortCreds n creds = creds := by
  rw [List.pairwise_iff_getElem] at hs
  have hidx : ∀ i j, i < j → j < n → creationAt creds j ≤ creationAt creds i := by
    intro i j hij hj
    have hi2 : i < (creds.take n).length := by simp only [List.length_take]; omega
    have hj2 : j < (creds.take n).length := by simp only [List.length_take]; omega
    have := hs i j hi2 hj2 hij
    unfold creationAt
    rw [List.getD_eq_getElem _ _ (by omega : j < creds.length),
      List.getD_eq_getElem _ _ (by omega : i < creds.length)]
    simpa using this
  unfold sortCreds
  apply foldl_fixed
  intro i _
  unfold sortInner
  apply foldl_fixed
  intro j hj
  rw [List.mem_range'_1] at hj
  exact sortSwap_of_sorted creds i j (hidx i j (by omega) (by omega))

/-- Witness of the amended C3: the candidates created at times 2, 1, 1 stay as they
are. -/
theorem ordering_keeps_sorted_input_witness :
    sortCreds 3 [exampleCredential [0xC] 2, exampleCredential [0xA] 1,
        exampleCredential [0xB] 1] =
      [exampleCredential [0xC] 2, exampleCredential [0xA] 1, exampleCredential [0xB] 1] :=
  ordering_keeps_sorted_input _ 3 (by decide) (by decide)

/-! ## Facts about the pagination session -/

theorem returnStatus_zero : returnStatus 0 = 0 := rfl

theorem returnStatus_eq_zero (e : Nat) : returnStatus e = 0 ↔ e = 0 := by
  unfold returnStatus CborNoError CborErrorImproperValue CTAP2_ERR_CBOR_UNEXPECTED_TYPE
  by_cases h : e = 0
  · simp [h]
  · by_cases h2 : e = 519 <;> simp [h, h2]

/-- A call with `next == true` does not write the globals. -/
theorem cbor_get_assertion_next_sess (env : Env) (s : Session) (dev : Device) (up_ok : Bool)
    (millis : Nat) (data : Bytes) :
    (cbor_get_assertion env s dev up_ok millis data true).sess = s := by
  unfold cbor_get_assertion
  split
  · rfl
  · split <;> simp

theorem clearSession_absent (s : Session) : (clearSession s).absent := by
  refine ⟨rfl, rfl, rfl, rfl, rfl, rfl, rfl, ?_⟩
  intro c hc
  simp only [clearSession, List.mem_map] at hc
  obtain ⟨c0, _, rfl⟩ := hc
  exact ⟨rfl, rfl, rfl, rfl⟩

theorem nextEpilogue_error (e : Nat) (s : Session) (dev : Device) (resp : Option Response)
    (he : e ≠ 0) :
    (nextEpilogue e s dev resp).ret ≠ 0 ∧ (nextEpilogue e s dev resp).sess = clearSession s ∧
      (nextEpilogue e s dev resp).resp = none ∧
      (e ≠ CborErrorImproperValue → (nextEpilogue e s dev resp).ret = e) := by
  unfold nextEpilogue CborNoError CborErrorImproperValue CTAP2_ERR_CBOR_UNEXPECTED_TYPE
  by_cases h2 : e = 519 <;> simp [he, h2]

/-- C4. GetNextAssertion returns NotAllowed whenever no pagination session is
active: in the initial state of the module (`credentialCounter = 1`,
`numberOfCredentialsx = 0`) and in the state left by a teardown (`credentialCounter
= 0`, `numberOfCredentialsx = 0`), for every clock value and every input. -/
theorem next_without_session_not_allowed (env : Env) (s : Session) (dev : Device)
    (millis millis2 : Nat) (data : Bytes)
    (h : (s.credentialCounter = 1 ∧ s.numberOfCredentialsx = 0) ∨
      (s.credentialCounter = 0 ∧ s.numberOfCredentialsx = 0)) :
    (cbor_get_next_assertion env s dev millis millis2 data).ret = CTAP2_ERR_NOT_ALLOWED := by
  have hn : s.numberOfCredentialsx = 0 := by
    rcases h with h | h <;> exact h.2
  unfold cbor_get_next_assertion
  rw [if_pos (by omega)]
  exact (nextEpilogue_error CTAP2_ERR_NOT_ALLOWED s dev none (by decide)).2.2.2 (by decide)

/-- Witness of C4: the initial state of the module and the state after a teardown. -/
theorem next_without_session_not_allowed_witness :
    (cbor_get_next_assertion exampleEnv (Session.initial exampleEnv) exampleDevice 7 7 [1]).ret
        = CTAP2_ERR_NOT_ALLOWED ∧
      (cbor_get_next_assertion exampleEnv (clearSession (exampleFirst 0).sess) exampleDevice
        7 7 [1]).ret = CTAP2_ERR_NOT_ALLOWED :=
  ⟨next_without_session_not_allowed _ _ _ _ _ _ (Or.inl ⟨rfl, rfl⟩),
   next_without_session_not_allowed _ _ _ _ _ _ (Or.inr ⟨rfl, rfl⟩)⟩

/-- C8. Every GetNextAssertion call that returns an error, and the successful call
that delivers the last candidate, leave the session absent (counters zero, no
request buffer, flags and timer zero, every slot released); a successful call that
does not deliver the last candidate leaves the session active with the cursor
advanced by exactly one. -/
theorem next_session_state (env : Env) (s : Session) (dev : Device) (millis millis2 : Nat)
    (data : Bytes) (h8 : s.numberOfCredentialsx < 256) :
    ((cbor_get_next_assertion env s dev millis millis2 data).ret ≠ 0 →
      (cbor_get_next_assertion env s dev millis millis2 data).sess.absent) ∧
    ((cbor_get_next_assertion env s dev millis millis2 data).ret = 0 →
      s.credentialCounter + 1 = s.numberOfCredentialsx →
      (cbor_get_next_assertion env s dev millis millis2 data).sess.absent) ∧
    ((cbor_get_next_assertion env s dev millis millis2 data).ret = 0 →
      s.credentialCounter + 1 ≠ s.numberOfCredentialsx →
      (cbor_get_next_assertion env s dev millis millis2 data).sess =
          { s with timerx := millis2 % 2 ^ 32, credentialCounter := s.credentialCounter + 1 } ∧
        s.credentialCounter + 1 < s.numberOfCredentialsx) := by
  unfold cbor_get_next_assertion
  by_cases h1 : s.credentialCounter ≥ s.numberOfCredentialsx
  · rw [if_pos h1]
    have he := nextEpilogue_error CTAP2_ERR_NOT_ALLOWED s dev none (by decide)
    refine ⟨fun _ => ?_, fun h0 => absurd h0 he.1, fun h0 => absurd h0 he.1⟩
    rw [he.2.1]; exact clearSession_absent s
  · rw [if_neg h1]
    by_cases h2 : expired s.timerx millis = true
    · rw [if_pos h2]
      have he := nextEpilogue_error CTAP2_ERR_NOT_ALLOWED s dev none (by decide)
      refine ⟨fun _ => ?_, fun h0 => absurd h0 he.1, fun h0 => absurd h0 he.1⟩
      rw [he.2.1]; exact clearSession_absent s
    · rw [if_neg h2]
      simp only []
      have hs := cbor_get_assertion_next_sess env s dev false millis
        ((s.datax.getD []).take s.lenx)
      generalize cbor_get_assertion env s dev false millis
        ((s.datax.getD []).take s.lenx) true = o at hs
      by_cases h3 : o.ret = CborNoError
      · rw [if_neg (by simpa using h3)]
        have hc : (s.credentialCounter + 1) % 256 = s.credentialCounter + 1 := by omega
        rw [hs, hc]
        unfold nextEpilogue CborNoError
        by_cases h4 : s.credentialCounter + 1 = s.numberOfCredentialsx
        · simp only [h4, bne_self_eq_false, Bool.false_or, beq_self_eq_true, if_true]
          refine ⟨fun _ => clearSession_absent _, fun _ _ => clearSession_absent _, ?_⟩
          intro _ hne
          exact absurd rfl hne
        · have h5 : (s.credentialCounter + 1 == s.numberOfCredentialsx) = false := by
            simpa using h4
          simp only [bne_self_eq_false, Bool.false_or, h5, Bool.false_eq_true, if_false]
          refine ⟨fun hne => absurd rfl hne, fun _ heq => absurd heq h4, ?_⟩
          intro _ _
          exact ⟨trivial, by omega⟩
      · rw [if_pos (by simpa using h3)]
        have he := nextEpilogue_error o.ret o.sess o.dev none h3
        refine ⟨fun _ => ?_, fun h0 => absurd h0 he.1, fun h0 => absurd h0 he.1⟩
        rw [he.2.1]; exact clearSession_absent _

/-- Witness of C8: the first GetNextAssertion of the example session. -/
theorem next_session_state_witness :
    (exampleFirst 0).sess.numberOfCredentialsx < 256 ∧
    (((cbor_get_next_assertion exampleEnv (exampleFirst 0).sess (exampleFirst 0).dev
        20000 20001 []).ret ≠ 0 →
      (cbor_get_next_assertion exampleEnv (exampleFirst 0).sess (exampleFirst 0).dev
        20000 20001 []).sess.absent) ∧
    ((cbor_get_next_assertion exampleEnv (exampleFirst 0).sess (exampleFirst 0).dev
        20000 20001 []).ret = 0 →
      (exampleFirst 0).sess.credentialCounter + 1 = (exampleFirst 0).sess.numberOfCredentialsx →
      (cbor_get_next_assertion exampleEnv (exampleFirst 0).sess (exampleFirst 0).dev
        20000 20001 []).sess.absent) ∧
    ((cbor_get_next_assertion exampleEnv (exampleFirst 0).sess (exampleFirst 0).dev
        20000 20001 []).ret = 0 →
      (exampleFirst 0).sess.credentialCounter + 1 ≠ (exampleFirst 0).sess.numberOfCredentialsx →
      (cbor_get_next_assertion exampleEnv (exampleFirst 0).sess (exampleFirst 0).dev
        20000 20001 []).sess =
          { (exampleFirst 0).sess with
            timerx := 20001 % 2 ^ 32,
            credentialCounter := (exampleFirst 0).sess.credentialCounter + 1 } ∧
        (exampleFirst 0).sess.credentialCounter + 1 <
          (exampleFirst 0).sess.numberOfCredentialsx)) :=
  ⟨by decide, next_session_state exampleEnv (exampleFirst 0).sess (exampleFirst 0).dev
    20000 20001 [] (by decide)⟩

example : ((exampleFirst 0).ret, (exampleFirst 0).sess.credentialCounter) = (0, 1) := by decide
example : (cbor_get_next_assertion exampleEnv (exampleFirst 0).sess (exampleFirst 0).dev
        20000 20001 []).seen = (0, some (some [0xA3])) := by decide

/-- C5, as stated, fails: the GetAssertion is made at clock 0, a first
GetNextAssertion at 20 000 ms sets the timer again, and the GetNextAssertion made at
40 000 ms, more than 30 000 ms after the GetAssertion, returns the third candidate
instead of NotAllowed. -/
theorem next_after_30s_of_get_assertion :
    (exampleFirst 0).seen = (0, some (some [0xA2])) ∧ (exampleFirst 0).sess.timerx = 0 ∧
      exampleSecond.seen = (0, some (some [0xA3])) ∧ exampleSecond.sess.timerx = 20000 ∧
      exampleThird.seen = (0, some (some [0xA1])) ∧
      exampleThird.ret ≠ CTAP2_ERR_NOT_ALLOWED := by
  decide

/-- C5, amended. A GetNextAssertion call whose clock value lies more than 30 000 ms
after the timer of the session (set by the GetAssertion that created it and set
again by every successful GetNextAssertion), on a clock that has not wrapped since
(`timerx + 30000` and the clock value both below `2 ^ 32`), returns NotAllowed and
leaves the session cleared. -/
theorem next_expired_not_allowed (env : Env) (s : Session) (dev : Device)
    (millis millis2 : Nat) (data : Bytes)
    (hw : s.timerx + 30000 < 2 ^ 32) (hm : millis < 2 ^ 32)
    (hexp : s.timerx + 30000 < millis) :
    (cbor_get_next_assertion env s dev millis millis2 data).ret = CTAP2_ERR_NOT_ALLOWED ∧
      (cbor_get_next_assertion env s dev millis millis2 data).sess = clearSession s ∧
      (cbor_get_next_assertion env s dev millis millis2 data).sess.absent := by
  have he := nextEpilogue_error CTAP2_ERR_NOT_ALLOWED s dev none (by decide)
  have hx : expired s.timerx millis = true := by
    unfold expired
    rw [Nat.mod_eq_of_lt (by omega : s.timerx + 30 * 1000 < 2 ^ 32), Nat.mod_eq_of_lt hm]
    simpa using hexp
  unfold cbor_get_next_assertion
  by_cases h1 : s.credentialCounter ≥ s.numberOfCredentialsx
  · rw [if_pos h1]
    exact ⟨he.2.2.2 (by decide), he.2.1, by rw [he.2.1]; exact clearSession_absent s⟩
  · rw [if_neg h1, if_pos hx]
    exact ⟨he.2.2.2 (by decide), he.2.1, by rw [he.2.1]; exact clearSession_absent s⟩

/-- Witness of the amended C5: the example session, 30 001 ms after its creation. -/
theorem next_expired_not_allowed_witness :
    (exampleFirst 0).sess.timerx + 30000 < 2 ^ 32 ∧ 30001 < 2 ^ 32 ∧
      (exampleFirst 0).sess.timerx + 30000 < 30001 ∧
      (cbor_get_next_assertion exampleEnv (exampleFirst 0).sess (exampleFirst 0).dev
        30001 30001 []).ret = CTAP2_ERR_NOT_ALLOWED :=
  ⟨by decide, by decide, by decide,
    (next_expired_not_allowed exampleEnv (exampleFirst 0).sess (exampleFirst 0).dev
      30001 30001 [] (by decide) (by decide) (by decide)).1⟩

/-- C6, the code at the failing input: a session whose timer was set at
`2 ^ 32 - 30001` is asked for the next assertion when the clock has wrapped to 0,
that is 30 001 ms later. `timerx + 30 * 1000` is `2 ^ 32 - 1`, which is not below 0,
so the expiry test passes and the call returns the next candidate. -/
theorem expiry_test_passes_after_wrap :
    (exampleFirst 4294937295).sess.timerx = 4294937295 ∧
      (0 + 2 ^ 32 - 4294937295) % 2 ^ 32 = 30001 ∧
      expired 4294937295 0 = false ∧
      (cbor_get_next_assertion exampleEnv (exampleFirst 4294937295).sess
        (exampleFirst 4294937295).dev 0 0 []).seen = (0, some (some [0xA3])) := by
  decide

/-- C7, as stated, fails: during the example session a new GetAssertion that
succeeds with the single credential of another relying party, or one that fails
with NoCredentials, leaves the globals as they are, and the GetNextAssertion that
follows returns the second candidate of the earlier session. -/
theorem new_get_assertion_keeps_old_session :
    exampleOther.seen = (0, some (some [0xB1])) ∧
      (cbor_get_next_assertion exampleEnv exampleOther.sess exampleOther.dev 200 200 []).seen
        = (0, some (some [0xA3])) ∧
      exampleNone.seen = (CTAP2_ERR_NO_CREDENTIALS, none) ∧
      (cbor_get_next_assertion exampleEnv exampleNone.sess exampleNone.dev 200 200 []).seen
        = (0, some (some [0xA3])) := by
  decide

/-- C7, amended. A GetAssertion call with `next == false` writes the session globals
only at the hand-over of lines 388-399, which it reaches when it passes all checks
with more than one candidate: then the globals hold the new session (cursor 1, the
request, the clock value). In every other case (it fails before, or resolves to a
single candidate) the globals are exactly as before, so a following
GetNextAssertion acts on the earlier session. -/
theorem get_assertion_session_effect (env : Env) (s : Session) (dev : Device) (up_ok : Bool)
    (millis : Nat) (data : Bytes) :
    (handsOver env dev up_ok data = false →
      (cbor_get_assertion env s dev up_ok millis data false).sess = s) ∧
    (handsOver env dev up_ok data = true →
      (cbor_get_assertion env s dev up_ok millis data false).sess.credentialCounter = 1 ∧
      1 < (cbor_get_assertion env s dev up_ok millis data false).sess.numberOfCredentialsx ∧
      (cbor_get_assertion env s dev up_ok millis data false).sess.datax = some data ∧
      (cbor_get_assertion env s dev up_ok millis data false).sess.timerx = millis % 2 ^ 32) := by
  unfold cbor_get_assertion handsOver
  cases hp : env.cbor_parse data with
  | error e => simp
  | ok p =>
    simp only []
    by_cases hm : (p.rpId.isNone || p.clientDataHash.isNone) = true
    · simp [hm]
    · simp only [hm, Bool.false_eq_true, if_false]
      cases hr : resolveCandidates env dev up_ok p (env.mbedtls_sha256 (p.rpId.getD [])) with
      | error e => simp
      | ok r =>
        simp only [if_true]
        by_cases hn : r.numberOfCredentials > 1 <;>
          cases hup : r.up <;> cases huv : r.uv <;> simp [hn, createSession]

/-- Witness of the amended C7: the new GetAssertion for the relying party `[2]`
leaves the example session in place. -/
theorem get_assertion_session_effect_witness :
    handsOver exampleEnv (exampleFirst 0).dev true [2] = false ∧
      exampleOther.sess = (exampleFirst 0).sess :=
  ⟨by decide,
    (get_assertion_session_effect exampleEnv (exampleFirst 0).sess (exampleFirst 0).dev true
      100 [2]).1 (by decide)⟩

/-! ## Facts about the assertion step when every primitive succeeds -/

theorem load_keydev_ok (dev : Device) (buf : Bytes) (hp : provisioned dev) :
    (load_keydev dev buf).1 = 0 := by
  unfold load_keydev CCID_OK CCID_ERR_MEMORY_FATAL
  rcases hp with h | h
  · simp [h]
  · cases hk : dev.has_keydev_dec <;> simp [h]
    cases hf : dev.ef_keydev with
    | none => simp [hf] at h
    | some f => simp

theorem derive_key_loop_ok (env : Env) (rnd : Nat → Nat) (new_key : Bool)
    (hs : PrimitivesSucceed env) :
    ∀ (l : List Nat) (outk key_handle : Bytes),
      (derive_key_loop env rnd new_key l outk key_handle).1 = 0 := by
  intro l
  induction l with
  | nil => intro _ _; rfl
  | cons i rest ih =>
    intro outk key_handle
    unfold derive_key_loop
    simp only [hs.hkdf, bne_self_eq_false, Bool.false_eq_true, if_false]
    exact ih _ _

theorem derive_key_ok (env : Env) (dev : Device) (rnd : Nat → Nat) (app_id key_handle : Bytes)
    (curve : Nat) (ctx : mbedtls_ecdsa_context) (hs : PrimitivesSucceed env)
    (hp : provisioned dev) :
    (derive_key env dev rnd app_id false key_handle curve (some ctx)).ret = 0 ∧
      (derive_key env dev rnd app_id false key_handle curve (some ctx)).key.isSome = true := by
  unfold derive_key
  dsimp only
  have h1 := load_keydev_ok dev (List.replicate 67 0) hp
  generalize load_keydev dev (List.replicate 67 0) = k at h1 ⊢
  have h2 := derive_key_loop_ok env rnd false hs (List.range KEY_PATH_ENTRIES) k.2 key_handle
  generalize derive_key_loop env rnd false (List.range KEY_PATH_ENTRIES) k.2 key_handle = lp
    at h2 ⊢
  have h3 := hs.curve_info curve
  cases hc : env.mbedtls_ecp_curve_info_from_grp_id curve with
  | none => rw [hc] at h3; simp at h3
  | some bits =>
    simp [h1, h2, CCID_OK, hs.read_key, hs.mul]

theorem loadSigningKey_ok (env : Env) (dev : Device) (rp_id_hash : Bytes)
    (selcred : Credential) (hs : PrimitivesSucceed env) (hp : provisioned dev) :
    (loadSigningKey env dev rp_id_hash selcred).isSome = true := by
  unfold loadSigningKey
  simp only []
  split
  · have h := derive_key_ok env dev (fun _ => 0) rp_id_hash (selcred.id.getD [])
      MBEDTLS_ECP_DP_SECP256R1
      (fido_load_key env dev (toInt32 selcred.curve) (selcred.id.getD []) mbedtls_ecdsa_init).2
      hs hp
    simp [h.1]
  · rfl

theorem hmacSecret_ok (env : Env) (p : Request) (flags : Nat) (selcred : Credential)
    (hs : PrimitivesSucceed env) :
    ∃ b, hmacSecret env p flags selcred = .ok b := by
  unfold hmacSecret
  simp [hs.mpi, hs.ecdh, hs.verify, hs.decrypt, hs.hmac_key]

theorem buildExtensions_ok (env : Env) (p : Request) (flags : Nat) (selcred : Credential)
    (hs : PrimitivesSucceed env) :
    ∃ x, buildExtensions env p flags selcred = .ok x := by
  unfold buildExtensions
  obtain ⟨b, hb⟩ := hmacSecret_ok env p flags selcred hs
  simp only [hs.encode_ext, hb, bne_self_eq_false, Bool.false_eq_true, if_false,
    Bool.and_false]
  split
  · split
    · rename_i e heq
      split at heq <;> first
        | cases heq
        | (split at heq <;> cases heq)
    · exact ⟨_, rfl⟩
  · exact ⟨_, rfl⟩

/-- With primitives that succeed on a provisioned device, the assertion step
succeeds, answers with the id of the selected credential and leaves the device
provisioned. -/
theorem buildAssertion_ok (env : Env) (dev : Device) (p : Request) (rp_id_hash : Bytes)
    (next : Bool) (flags n : Nat) (selcred : Credential) (hs : PrimitivesSucceed env)
    (hp : provisioned dev) :
    (buildAssertion env dev p rp_id_hash next flags n selcred).1 = 0 ∧
      provisioned (buildAssertion env dev p rp_id_hash next flags n selcred).2.1 ∧
      (buildAssertion env dev p rp_id_hash next flags n selcred).2.2.map
        (fun r => r.credential_id) = some selcred.id := by
  unfold buildAssertion
  have hk := loadSigningKey_ok env dev rp_id_hash selcred hs hp
  cases hkey : loadSigningKey env dev rp_id_hash selcred with
  | none => rw [hkey] at hk; simp at hk
  | some ekey =>
    obtain ⟨x, hx⟩ := buildExtensions_ok env p flags selcred hs
    simp only [hs.large_blob_key, hx, hs.encode_response, bne_self_eq_false,
      Bool.and_false, Bool.false_eq_true, if_false]
    refine ⟨trivial, ?_, ?_⟩
    · exact hp
    · simp [responseMap]

theorem filterStep_inv (flags : Nat) (resident : Bool) (st : List Credential × Nat) (i len : Nat)
    (hl : st.1.length = len) (hn : st.2 ≤ min i len) :
    (filterStep flags resident st i).1.length = len ∧
      (filterStep flags resident st i).2 ≤ min (i + 1) len := by
  unfold filterStep
  dsimp only
  by_cases hp : (st.1.getD i Credential.zero).present = true
  · have hi : i < len := by
      by_contra hge
      rw [List.getD_eq_default _ _ (by omega)] at hp
      cases hp
    simp only [hp, beq_self_eq_true, if_true]
    repeat' split
    all_goals exact ⟨by simp [hl], by omega⟩
  · have hp2 : ((st.1.getD i Credential.zero).present == true) = false := by simpa using hp
    simp only [hp2, Bool.false_eq_true, if_false]
    exact ⟨hl, by omega⟩

theorem filterCreds_le (flags : Nat) (resident : Bool) (creds : List Credential)
    (creds_len : Nat) :
    (filterCreds flags resident creds creds_len).2
      ≤ (filterCreds flags resident creds creds_len).1.length := by
  unfold filterCreds
  have : ∀ (m : Nat), ((List.range m).foldl (filterStep flags resident) (creds, 0)).1.length
        = creds.length ∧
      ((List.range m).foldl (filterStep flags resident) (creds, 0)).2 ≤ min m creds.length := by
    intro m
    induction m with
    | zero => exact ⟨rfl, by simp⟩
    | succ m ih =>
      rw [List.range_succ, List.foldl_append]
      exact filterStep_inv flags resident _ m creds.length ih.1 ih.2
  have h := this creds_len
  omega

/-! ## The enumeration of the candidates by GetNextAssertion -/

theorem filterStep_lt (flags : Nat) (resident : Bool) (st : List Credential × Nat) (i : Nat)
    (h : st.2 < 256) : (filterStep flags resident st i).2 < 256 := by
  unfold filterStep
  dsimp only
  repeat' split
  all_goals first
    | exact h
    | exact Nat.mod_lt _ (by decide)

theorem filterCreds_lt (flags : Nat) (resident : Bool) (creds : List Credential)
    (creds_len : Nat) : (filterCreds flags resident creds creds_len).2 < 256 := by
  unfold filterCreds
  have : ∀ (l : List Nat) (st : List Credential × Nat), st.2 < 256 →
      (l.foldl (filterStep flags resident) st).2 < 256 := by
    intro l
    induction l with
    | nil => intro st h; exact h
    | cons i rest ih =>
      intro st h
      exact ih _ (filterStep_lt flags resident st i h)
  exact this (List.range creds_len) (creds, 0) (Nat.zero_lt_succ 255)

theorem userPresence_dev (dev : Device) (up_ok : Bool) (p : Request) (flags flags1 : Nat)
    (dev1 : Device) (h : userPresence dev up_ok p flags = .ok (flags1, dev1)) :
    dev1 = dev ∨ dev1 = clearTokenFlags dev := by
  unfold userPresence at h
  repeat' split at h
  all_goals first
    | (cases h; done)
    | (cases h; exact Or.inl rfl)
    | (cases h; exact Or.inr rfl)

/-- What a successful run of lines 210-380 guarantees about its results. -/
theorem resolveCandidates_ok (env : Env) (dev : Device) (up_ok : Bool) (p : Request)
    (rp_id_hash : Bytes) (r : Resolved)
    (h : resolveCandidates env dev up_ok p rp_id_hash = .ok r) :
    r.numberOfCredentials < 256 ∧ (r.dev = dev ∨ r.dev = clearTokenFlags dev) ∧
      (r.creds.take r.numberOfCredentials).Pairwise (fun a b => b.creation ≤ a.creation) := by
  unfold resolveCandidates at h
  dsimp only at h
  repeat' split at h
  all_goals first
    | (cases h; done)
    | (cases h
       exact ⟨filterCreds_lt _ _ _ _, userPresence_dev _ _ _ _ _ _ (by assumption),
         sortCreds_take_pairwise _ _ (filterCreds_le _ _ _ _)⟩)

theorem provisioned_clearTokenFlags (dev : Device) (h : provisioned dev) :
    provisioned (clearTokenFlags dev) := h

/-- A call with `next == true` on a request that parses: it answers with the
candidate under the cursor. -/
theorem cbor_get_assertion_next_ok (env : Env) (s : Session) (dev : Device) (up_ok : Bool)
    (millis : Nat) (data : Bytes) (p : Request) (hs : PrimitivesSucceed env)
    (hp : provisioned dev) (hparse : env.cbor_parse data = .ok p)
    (hrp : p.rpId.isSome = true) (hcd : p.clientDataHash.isSome = true) :
    (cbor_get_assertion env s dev up_ok millis data true).ret = 0 ∧
      provisioned (cbor_get_assertion env s dev up_ok millis data true).dev ∧
      (cbor_get_assertion env s dev up_ok millis data true).resp.map (fun r => r.credential_id)
        = some (s.credsx.getD s.credentialCounter Credential.zero).id := by
  have hb := buildAssertion_ok env dev p (env.mbedtls_sha256 (p.rpId.getD [])) true s.flagsx
    s.numberOfCredentialsx (s.credsx.getD s.credentialCounter Credential.zero) hs hp
  have hm : (p.rpId.isNone || p.clientDataHash.isNone) = false := by
    cases h1 : p.rpId <;> cases h2 : p.clientDataHash <;> simp_all
  unfold cbor_get_assertion
  simp only [hparse, hm, Bool.false_eq_true, if_false, Bool.true_eq_false]
  exact ⟨by rw [hb.1]; rfl, hb.2.1, hb.2.2⟩

/-- One GetNextAssertion call on an active session within the window: it answers
with the candidate under the cursor and moves the session one step on. -/
theorem next_step (env : Env) (cs : List Credential) (data : Bytes) (p : Request)
    (n k : Nat) (s : Session) (dev : Device) (t : Nat × Nat) (hs : PrimitivesSucceed env)
    (hp : provisioned dev) (hparse : env.cbor_parse data = .ok p)
    (hrp : p.rpId.isSome = true) (hcd : p.clientDataHash.isSome = true) (h8 : n < 256)
    (hk : k < n) (hc : s.credentialCounter = k) (hn : s.numberOfCredentialsx = n)
    (hcs : s.credsx = cs) (hd : (s.datax.getD []).take s.lenx = data)
    (hwin : expired s.timerx t.1 = false) :
    (cbor_get_next_assertion env s dev t.1 t.2 []).seen
        = (0, some (cs.getD k Credential.zero).id) ∧
      provisioned (cbor_get_next_assertion env s dev t.1 t.2 []).dev ∧
      SessionAt cs data n (k + 1) (cbor_get_next_assertion env s dev t.1 t.2 []).sess ∧
      (k + 1 < n → (cbor_get_next_assertion env s dev t.1 t.2 []).sess.timerx = t.2 % 2 ^ 32) := by
  have hin := cbor_get_assertion_next_ok env s dev false t.1 data p hs hp hparse hrp hcd
  have hsess := cbor_get_assertion_next_sess env s dev false t.1 data
  unfold cbor_get_next_assertion
  rw [if_neg (by omega), hwin, hd]
  simp only [Bool.false_eq_true, if_false]
  generalize cbor_get_assertion env s dev false t.1 data true = o at hin hsess
  rw [if_neg (by rw [hin.1]; decide), hsess]
  have hmod : (s.credentialCounter + 1) % 256 = k + 1 := by omega
  rw [hmod]
  unfold nextEpilogue Outcome.seen CborNoError
  by_cases hlast : k + 1 = n
  · have hb : (k + 1 == s.numberOfCredentialsx) = true := by simp [hn, hlast]
    simp only [hb, bne_self_eq_false, Bool.false_or, if_true, Bool.false_eq_true, if_false]
    refine ⟨?_, hin.2.1, Or.inr ⟨hlast, rfl⟩, fun h => by omega⟩
    rw [hin.2.2, hc, hcs]
    rfl
  · have hb : (k + 1 == s.numberOfCredentialsx) = false := by simp [hn, hlast]
    simp only [hb, bne_self_eq_false, Bool.false_or, Bool.false_eq_true, if_false]
    refine ⟨?_, hin.2.1, Or.inl ⟨by omega, rfl, hn, hcs, hd⟩, fun _ => trivial⟩
    rw [hin.2.2, hc, hcs]

/-- A series of GetNextAssertion calls on a session with cursor `k`, each within
the window: the calls answer with the candidates `k, k + 1, ...` in this order, and
after `n - k` calls nothing is held. -/
theorem getNextRun_enumerates (env : Env) (cs : List Credential) (data : Bytes) (p : Request)
    (n : Nat) (hs : PrimitivesSucceed env) (hparse : env.cbor_parse data = .ok p)
    (hrp : p.rpId.isSome = true) (hcd : p.clientDataHash.isSome = true) (h8 : n < 256)
    (last : Nat × Nat) :
    ∀ (times : List (Nat × Nat)) (k : Nat) (s : Session) (dev : Device),
      provisioned dev → SessionAt cs data n k s → times.length = n - k → k ≤ n →
      withinWindow s.timerx times →
      (getNextRun env s dev (times ++ [last])).map Outcome.seen =
        (List.range' k (n - k)).map (fun i => (0, some (cs.getD i Credential.zero).id))
          ++ [(CTAP2_ERR_NOT_ALLOWED, none)] := by
  intro times
  induction times with
  | nil =>
    intro k s dev _ hat hlen hkn _
    have hk : k = n := by simp at hlen; omega
    subst hk
    rcases hat with h | h
    · omega
    · have hx : s.credentialCounter ≥ s.numberOfCredentialsx := by omega
      have he := nextEpilogue_error CTAP2_ERR_NOT_ALLOWED s dev none (by decide)
      simp only [List.nil_append, getNextRun, List.map_cons, List.map_nil, Nat.sub_self,
        List.range'_zero, Outcome.seen]
      unfold cbor_get_next_assertion
      rw [if_pos hx, he.2.2.2 (by decide), he.2.2.1]
      rfl
  | cons t rest ih =>
    intro k s dev hp hat hlen hkn hwin
    have hk : k < n := by simp at hlen; omega
    rcases hat with h | h
    · obtain ⟨_, hc, hn, hcs, hd⟩ := h
      have hst := next_step env cs data p n k s dev t hs hp hparse hrp hcd h8 hk hc hn hcs hd
        hwin.1
      have hw2 : withinWindow (cbor_get_next_assertion env s dev t.1 t.2 []).sess.timerx rest := by
        cases rest with
        | nil => trivial
        | cons t2 rest2 =>
          have : k + 1 < n := by simp at hlen; omega
          rw [hst.2.2.2 this]
          exact hwin.2
      have hrec := ih (k + 1) _ _ hst.2.1 hst.2.2.1 (by simp at hlen ⊢; omega) (by omega) hw2
      have hr : n - k = (n - (k + 1)) + 1 := by omega
      simp only [List.cons_append, getNextRun, List.map_cons, List.append_eq]
      rw [hrec, hst.1, hr, List.range'_succ]
      simp
    · omega

/-- The enumeration when every GetNextAssertion call passes the expiry test of line
50 and every primitive succeeds on every input: a GetAssertion with `next == false`
(user presence not disabled) that resolves to `n ≥ 2` candidates answers with the
candidate at position 0 of the ordered list `r.creds` (creation timestamps not
increasing with the position); the following `n - 1` GetNextAssertion calls answer
with the candidates at positions `1, ..., n - 1` in this order, each once; and the
call after them returns NotAllowed. -/
theorem get_next_enumerates_candidates (env : Env) (s0 : Session) (dev : Device)
    (up_ok : Bool) (millis : Nat) (data : Bytes) (p : Request) (r : Resolved) (n : Nat)
    (times : List (Nat × Nat)) (last : Nat × Nat)
    (hs : PrimitivesSucceed env) (hp : provisioned dev)
    (hparse : env.cbor_parse data = .ok p)
    (hrp : p.rpId.isSome = true) (hcd : p.clientDataHash.isSome = true)
    (hres : resolveCandidates env dev up_ok p (env.mbedtls_sha256 (p.rpId.getD [])) = .ok r)
    (hup : r.up = true) (hn : r.numberOfCredentials = n) (h2 : 2 ≤ n)
    (hlen : times.length = n - 1) (hwin : withinWindow (millis % 2 ^ 32) times) :
    (r.creds.take n).Pairwise (fun a b => b.creation ≤ a.creation) ∧
      (cbor_get_assertion env s0 dev up_ok millis data false).seen
        = (0, some (r.creds.getD 0 Credential.zero).id) ∧
      (getNextRun env (cbor_get_assertion env s0 dev up_ok millis data false).sess
          (cbor_get_assertion env s0 dev up_ok millis data false).dev
          (times ++ [last])).map Outcome.seen
        = (List.range' 1 (n - 1)).map (fun k => (0, some (r.creds.getD k Credential.zero).id))
            ++ [(CTAP2_ERR_NOT_ALLOWED, none)] := by
  have hr := resolveCandidates_ok env dev up_ok p _ r hres
  have hpr : provisioned r.dev := by
    rcases hr.2.1 with h | h <;> rw [h] <;> exact hp
  have hb := buildAssertion_ok env r.dev p (env.mbedtls_sha256 (p.rpId.getD [])) false r.flags
    r.numberOfCredentials (r.creds.getD 0 Credential.zero) hs hpr
  have hm : (p.rpId.isNone || p.clientDataHash.isNone) = false := by
    cases h1 : p.rpId <;> cases h2 : p.clientDataHash <;> simp_all
  have hgt : r.numberOfCredentials > 1 := by omega
  have hga : cbor_get_assertion env s0 dev up_ok millis data false =
      { ret := returnStatus (buildAssertion env r.dev p (env.mbedtls_sha256 (p.rpId.getD []))
          false r.flags r.numberOfCredentials (r.creds.getD 0 Credential.zero)).1,
        sess := createSession r data millis,
        dev := (buildAssertion env r.dev p (env.mbedtls_sha256 (p.rpId.getD []))
          false r.flags r.numberOfCredentials (r.creds.getD 0 Credential.zero)).2.1,
        resp := (buildAssertion env r.dev p (env.mbedtls_sha256 (p.rpId.getD []))
          false r.flags r.numberOfCredentials (r.creds.getD 0 Credential.zero)).2.2 } := by
    unfold cbor_get_assertion
    simp only [hparse, hm, Bool.false_eq_true, if_false, if_true, hres, hup, hgt,
      Bool.true_eq_false, Bool.false_and, beq_self_eq_true]
    simp
  rw [hga]
  refine ⟨by rw [← hn]; exact hr.2.2, ?_, ?_⟩
  · unfold Outcome.seen
    simp only [hb.1, hb.2.2]
    rfl
  · have hat : SessionAt r.creds data n 1 (createSession r data millis) :=
      Or.inl ⟨by omega, rfl, hn, rfl, by simp [createSession]⟩
    exact getNextRun_enumerates env r.creds data p n hs hparse hrp hcd (by omega) last times 1
      _ _ hb.2.1 hat hlen (by omega) hwin

theorem exampleEnv_succeeds : PrimitivesSucceed exampleEnv :=
  { hkdf := fun _ _ _ _ _ => rfl,
    curve_info := fun _ => rfl,
    read_key := fun _ _ => rfl,
    mul := fun _ _ => rfl,
    mpi := fun _ => rfl,
    ecdh := fun _ _ _ => rfl,
    verify := fun _ _ _ _ => rfl,
    decrypt := fun _ _ _ => rfl,
    hmac_key := fun _ => rfl,
    large_blob_key := fun _ => rfl,
    encode_ext := fun _ _ => rfl,
    encode_response := fun _ => rfl }

/-- The enumeration on the example device, away from the wrap of the clock: the three
resident credentials of the relying party `[1]`, created at times 5, 9 and 7, are
delivered newest first, and the third GetNextAssertion returns NotAllowed. -/
theorem get_next_enumerates_candidates_witness :
    (exampleResolved.creds.take 3).map (fun c => (c.id, c.creation))
        = [(some [0xA2], 9), (some [0xA3], 7), (some [0xA1], 5)] ∧
      (exampleResolved.creds.take 3).Pairwise (fun a b => b.creation ≤ a.creation) ∧
      (exampleFirst 0).seen = (0, some (exampleResolved.creds.getD 0 Credential.zero).id) ∧
      (getNextRun exampleEnv (exampleFirst 0).sess (exampleFirst 0).dev
          ([(20000, 20000), (45000, 45000)] ++ [(46000, 46000)])).map Outcome.seen
        = (List.range' 1 (3 - 1)).map
            (fun k => (0, some (exampleResolved.creds.getD k Credential.zero).id))
            ++ [(CTAP2_ERR_NOT_ALLOWED, none)] :=
  ⟨by decide,
    get_next_enumerates_candidates exampleEnv (Session.initial exampleEnv) exampleDevice true 0
      [1] (exampleRequest [1]) exampleResolved 3 [(20000, 20000), (45000, 45000)] (46000, 46000)
      exampleEnv_succeeds (Or.inr rfl) rfl rfl rfl rfl (by decide) (by decide)
      (by decide) rfl ⟨by decide, by decide, trivial⟩⟩

/-! ## The enumeration near the wrap of the millisecond clock -/

/-- Away from the wrap of the 32-bit clock, a call made at most 30 000 ms after the
timer was set passes the expiry test of line 50. -/
theorem expired_false_of_elapsed (timerx millis : Nat) (hw : timerx + 30 * 1000 < 2 ^ 32)
    (hle : timerx ≤ millis) (hel : millis - timerx ≤ 30 * 1000) :
    expired timerx millis = false := by
  unfold expired
  have h1 : (timerx + 30 * 1000) % 2 ^ 32 = timerx + 30 * 1000 := Nat.mod_eq_of_lt hw
  have h2 : millis % 2 ^ 32 = millis := Nat.mod_eq_of_lt (by omega)
  rw [h1, h2]
  simp only [decide_eq_false_iff_not, not_lt]
  omega

/-- C1, the code at the failing input: the GetAssertion for the relying party `[1]`
is made at the clock value 4294966296 (1000 ms before the 32-bit clock wraps); it
resolves three candidates, answers with the one at position 0 and sets the timer. The
first GetNextAssertion comes 100 ms later, at 4294966396, well within the window of
30 000 ms: the test of line 50 computes `timerx + 30000` in `uint32_t`, which wraps to
29000, finds it below the clock value, and the call is answered with NotAllowed and
tears the session down, so the candidates at positions 1 and 2 are never delivered.
The same two calls made at the clock values 0 and 100 deliver the candidate at
position 1. -/
theorem enumeration_stops_before_clock_wrap :
    (exampleFirst 4294966296).seen = (0, some (some [0xA2])) ∧
      (exampleFirst 4294966296).sess.numberOfCredentialsx = 3 ∧
      (exampleFirst 4294966296).sess.credentialCounter = 1 ∧
      (exampleFirst 4294966296).sess.timerx = 4294966296 ∧
      4294966396 - (exampleFirst 4294966296).sess.timerx = 100 ∧
      (4294966296 + 30 * 1000) % 2 ^ 32 = 29000 ∧
      expired (exampleFirst 4294966296).sess.timerx 4294966396 = true ∧
      (cbor_get_next_assertion exampleEnv (exampleFirst 4294966296).sess
        (exampleFirst 4294966296).dev 4294966396 4294966396 []).seen
        = (CTAP2_ERR_NOT_ALLOWED, none) ∧
      (cbor_get_next_assertion exampleEnv (exampleFirst 4294966296).sess
        (exampleFirst 4294966296).dev 4294966396 4294966396 []).sess.numberOfCredentialsx
        = 0 ∧
      (cbor_get_next_assertion exampleEnv (exampleFirst 0).sess (exampleFirst 0).dev
        100 100 []).seen = (0, some (some [0xA3])) := by
  decide

/-! ## Key handles: the round trip of `derive_key` and `verify_key` -/

theorem u32le_length (v : Nat) : (u32le v).length = 4 := rfl

theorem writeAt_append (X Z src : Bytes) :
    writeAt (X ++ Z) X.length src = X ++ src ++ Z.drop src.length := by
  unfold writeAt
  simp [List.drop_append]

theorem writeAt_append_at (X Z src : Bytes) (n : Nat) (hn : X.length = n) :
    writeAt (X ++ Z) n src = X ++ src ++ Z.drop src.length := by
  rw [← hn]
  exact writeAt_append X Z src

theorem newPath_eq (rnd : Nat → Nat) (a m : Nat) :
    newPath rnd a m = (newSalts rnd a m).flatten := rfl

theorem newSalts_succ (rnd : Nat → Nat) (a m : Nat) :
    newSalts rnd a (m + 1) =
      u32le ((rnd a % 2 ^ 32) ||| 0x80000000) :: newSalts rnd (a + 1) m := by
  unfold newSalts
  rw [List.range'_succ, List.map_cons]

theorem newSalts_length4 (rnd : Nat → Nat) (a m : Nat) :
    ∀ s ∈ newSalts rnd a m, s.length = 4 := by
  intro s hs
  unfold newSalts at hs
  rw [List.mem_map] at hs
  obtain ⟨i, _, rfl⟩ := hs
  rfl

theorem flatten_length4 : ∀ (S : List Bytes), (∀ s ∈ S, s.length = 4) →
    S.flatten.length = 4 * S.length := by
  intro S
  induction S with
  | nil => intro _; rfl
  | cons s rest ih =>
    intro h
    rw [List.flatten_cons, List.length_append, h s (List.mem_cons_self _ _),
      ih (fun x hx => h x (List.mem_cons_of_mem _ hx)), List.length_cons]
    omega

/-- The loop of `derive_key` for a new key: when it succeeds, the handle holds the
new path and `outk` is the result of the chain of derivations over that path. -/
theorem derive_key_loop_new (env : Env) (rnd : Nat → Nat) :
    ∀ (m a : Nat) (X Z outk : Bytes), X.length = a * 4 → 4 * m ≤ Z.length →
      (derive_key_loop env rnd true (List.range' a m) outk (X ++ Z)).1 = 0 →
      hkdfChain env (newSalts rnd a m) outk
          = some (derive_key_loop env rnd true (List.range' a m) outk (X ++ Z)).2.1 ∧
        (derive_key_loop env rnd true (List.range' a m) outk (X ++ Z)).2.2
          = X ++ newPath rnd a m ++ Z.drop (4 * m) := by
  intro m
  induction m with
  | zero =>
    intro a X Z outk _ _ _
    simp [derive_key_loop, hkdfChain, newSalts, newPath]
  | succ m ih =>
    intro a X Z outk hX hZ h0
    rw [List.range'_succ] at h0 ⊢
    unfold derive_key_loop at h0 ⊢
    simp only [beq_self_eq_true, if_true] at h0 ⊢
    have hw : writeAt (X ++ Z) (a * 4) (u32le ((rnd a % 2 ^ 32) ||| 0x80000000))
        = (X ++ u32le ((rnd a % 2 ^ 32) ||| 0x80000000)) ++ Z.drop 4 := by
      rw [← hX, writeAt_append]; rfl
    have hsalt : (((X ++ u32le ((rnd a % 2 ^ 32) ||| 0x80000000)) ++ Z.drop 4).drop
        (a * 4)).take 4 = u32le ((rnd a % 2 ^ 32) ||| 0x80000000) := by
      rw [← hX, List.append_assoc, List.drop_left, List.take_left']
      rfl
    rw [hw, hsalt] at h0 ⊢
    rw [newSalts_succ, hkdfChain]
    by_cases hh : (env.mbedtls_hkdf MBEDTLS_MD_SHA512 (u32le ((rnd a % 2 ^ 32) ||| 0x80000000))
        (outk.take 32) ((outk.drop 32).take 32) 67).1 = 0
    · simp only [hh, bne_self_eq_false, Bool.false_eq_true, if_false] at h0 ⊢
      have hX2 : (X ++ u32le ((rnd a % 2 ^ 32) ||| 0x80000000)).length = (a + 1) * 4 := by
        rw [List.length_append, hX, u32le_length]; omega
      have hZ2 : 4 * m ≤ (Z.drop 4).length := by
        have := List.length_drop 4 Z
        omega
      have hrec := ih (a + 1) _ (Z.drop 4) _ hX2 hZ2 h0
      refine ⟨hrec.1, ?_⟩
      have h4 : 4 + 4 * m = 4 * (m + 1) := by omega
      rw [hrec.2, newPath_eq, newPath_eq, newSalts_succ, List.flatten_cons, List.drop_drop, h4]
      simp only [List.append_assoc]
    · exfalso
      simp only [bne_iff_ne, ne_eq, hh, not_false_eq_true, if_true] at h0

/-- The loop of `derive_key` for an existing key, on a handle that holds the path
`S`: the handle is left as it is and `outk` is the result of the chain over `S`. -/
theorem derive_key_loop_old (env : Env) (rnd : Nat → Nat) :
    ∀ (S : List Bytes) (a : Nat) (X Y outk o : Bytes), X.length = a * 4 →
      (∀ s ∈ S, s.length = 4) → hkdfChain env S outk = some o →
      derive_key_loop env rnd false (List.range' a S.length) outk (X ++ S.flatten ++ Y)
        = (0, o, X ++ S.flatten ++ Y) := by
  intro S
  induction S with
  | nil =>
    intro a X Y outk o _ _ h
    simp only [hkdfChain, Option.some.injEq] at h
    simp [derive_key_loop, h]
  | cons s rest ih =>
    intro a X Y outk o hX hS h
    have hs4 : s.length = 4 := hS s (List.mem_cons_self _ _)
    rw [List.length_cons, List.range'_succ]
    unfold derive_key_loop
    simp only [show (false == true) = false from rfl, Bool.false_eq_true, if_false]
    have hsalt : ((X ++ (s :: rest).flatten ++ Y).drop (a * 4)).take 4 = s := by
      rw [← hX, List.flatten_cons, List.append_assoc, List.append_assoc, List.drop_left]
      exact List.take_left' hs4
    rw [hsalt]
    unfold hkdfChain at h
    by_cases hh : (env.mbedtls_hkdf MBEDTLS_MD_SHA512 s (outk.take 32)
        ((outk.drop 32).take 32) 67).1 = 0
    · simp only [hh, bne_self_eq_false, Bool.false_eq_true, if_false] at h ⊢
      have hX2 : (X ++ s).length = (a + 1) * 4 := by
        rw [List.length_append, hX, hs4]; omega
      have hrec := ih (a + 1) (X ++ s) Y _ o hX2
        (fun x hx => hS x (List.mem_cons_of_mem _ hx)) h
      have he : X ++ (s :: rest).flatten ++ Y = X ++ s ++ rest.flatten ++ Y := by
        simp [List.append_assoc]
      rw [he]
      exact hrec
    · simp [hh] at h

theorem newSalts_length (rnd : Nat → Nat) (a m : Nat) : (newSalts rnd a m).length = m := by
  simp [newSalts]

theorem newPath_length (rnd : Nat → Nat) (a m : Nat) : (newPath rnd a m).length = 4 * m := by
  rw [newPath_eq, flatten_length4 _ (newSalts_length4 rnd a m), newSalts_length]

theorem newSalts_append (rnd : Nat → Nat) (a m n : Nat) :
    newSalts rnd a (n + m) = newSalts rnd a m ++ newSalts rnd (a + m) n := by
  unfold newSalts
  rw [← List.range'_append_1, List.map_append]

theorem topBit_set (v : Nat) : (v ||| 0x80000000) &&& 0x80000000 ≠ 0 := by
  intro h
  have h2 := congrArg (fun x => x.testBit 31) h
  have h3 : Nat.testBit 2147483648 31 = true := by decide
  simp [Nat.testBit_and, Nat.testBit_or, h3] at h2

theorem readU32_append (X Y : Bytes) (w : Nat) (hw : w < 2 ^ 32) :
    readU32 (X ++ u32le w ++ Y) X.length = w := by
  unfold readU32 u32le
  rw [List.append_assoc]
  rw [List.getD_append_right _ _ _ _ (Nat.le_refl _),
    List.getD_append_right _ _ _ _ (Nat.le_add_right _ 1),
    List.getD_append_right _ _ _ _ (Nat.le_add_right _ 2),
    List.getD_append_right _ _ _ _ (Nat.le_add_right _ 3)]
  simp only [Nat.sub_self, Nat.add_sub_cancel_left, List.cons_append, List.getD_cons_zero,
    List.getD_cons_succ]
  omega

/-- Every entry of a new path has its top bit set. -/
theorem newPath_hardened (rnd : Nat → Nat) (Y : Bytes) :
    pathHasSoftEntry (newPath rnd 0 8 ++ Y) = false := by
  unfold pathHasSoftEntry
  rw [List.any_eq_false]
  intro i hi
  have hi8 : i < 8 := by
    rw [List.mem_range] at hi
    exact hi
  have hsplit : newPath rnd 0 8 ++ Y =
      (newSalts rnd 0 i).flatten ++ u32le ((rnd i % 2 ^ 32) ||| 0x80000000) ++
        ((newSalts rnd (i + 1) (7 - i)).flatten ++ Y) := by
    have h8 : 8 = (8 - i) + i := by omega
    have h7 : 8 - i = (7 - i) + 1 := by omega
    rw [newPath_eq]
    conv => lhs; rw [h8, newSalts_append, Nat.zero_add, h7, newSalts_succ]
    simp only [List.flatten_append, List.flatten_cons, List.append_assoc]
  have hlen : ((newSalts rnd 0 i).flatten).length = i * 4 := by
    rw [flatten_length4 _ (newSalts_length4 rnd 0 i), newSalts_length]
    omega
  have hw : (rnd i % 2 ^ 32) ||| 0x80000000 < 2 ^ 32 :=
    Nat.or_lt_two_pow (Nat.mod_lt _ (by decide)) (by decide)
  have hr := readU32_append (newSalts rnd 0 i).flatten
    ((newSalts rnd (i + 1) (7 - i)).flatten ++ Y) _ hw
  rw [hlen] at hr
  rw [hsplit, hr]
  simpa using topBit_set (rnd i % 2 ^ 32)

theorem memcmp_append_self : ∀ (T R : Bytes), memcmp (T ++ R) T T.length = 0 := by
  intro T
  induction T with
  | nil => intro R; rfl
  | cons x xs ih =>
    intro R
    simp only [List.cons_append, List.length_cons, memcmp, List.headD_cons, List.tail_cons,
      if_true]
    exact ih R

theorem range_entries : List.range KEY_PATH_ENTRIES = List.range' 0 8 := by decide

/-- When `derive_key` returns 0, the device key was loaded and the loop succeeded;
the handle it leaves is the one the loop left, with the tag written at offset 32
for a new key. -/
theorem derive_key_ret_zero (env : Env) (dev : Device) (rnd : Nat → Nat) (app_id : Bytes)
    (new_key : Bool) (key_handle : Bytes) (curve : Nat) (key : Option mbedtls_ecdsa_context)
    (h0 : (derive_key env dev rnd app_id new_key key_handle curve key).ret = 0) :
    (load_keydev dev (List.replicate 67 0)).1 = 0 ∧
      (derive_key_loop env rnd new_key (List.range' 0 8)
        (load_keydev dev (List.replicate 67 0)).2 key_handle).1 = 0 ∧
      (derive_key env dev rnd app_id new_key key_handle curve key).key_handle =
        (if new_key == true then
          writeAt (derive_key_loop env rnd new_key (List.range' 0 8)
              (load_keydev dev (List.replicate 67 0)).2 key_handle).2.2 32
            (env.mbedtls_md_hmac MBEDTLS_MD_SHA256
              ((derive_key_loop env rnd new_key (List.range' 0 8)
                (load_keydev dev (List.replicate 67 0)).2 key_handle).2.1.take 32)
              (app_id.take CTAP_APPID_SIZE ++
                (derive_key_loop env rnd new_key (List.range' 0 8)
                  (load_keydev dev (List.replicate 67 0)).2 key_handle).2.2.take
                    KEY_PATH_LEN)).2
        else (derive_key_loop env rnd new_key (List.range' 0 8)
          (load_keydev dev (List.replicate 67 0)).2 key_handle).2.2) := by
  unfold derive_key at h0 ⊢
  dsimp only at h0 ⊢
  rw [range_entries] at h0 ⊢
  generalize load_keydev dev (List.replicate 67 0) = k at h0 ⊢
  generalize derive_key_loop env rnd new_key (List.range' 0 8) k.2 key_handle = lp at h0 ⊢
  by_cases hk : k.1 = 0
  · by_cases hl : lp.1 = 0
    · refine ⟨hk, hl, ?_⟩
      simp only [hk, hl, CCID_OK, bne_self_eq_false, Bool.false_eq_true, if_false]
      repeat' split
      all_goals rfl
    · simp [hk, hl, CCID_OK] at h0
  · simp [hk, CCID_OK] at h0

theorem hkdfChain_output (env : Env) :
    ∀ (S : List Bytes) (outk o : Bytes), S ≠ [] → hkdfChain env S outk = some o →
      ∃ s i f, o = (env.mbedtls_hkdf MBEDTLS_MD_SHA512 s i f 67).2 := by
  intro S
  induction S with
  | nil => intro _ _ h _; exact absurd rfl h
  | cons s rest ih =>
    intro outk o _ h
    unfold hkdfChain at h
    dsimp only at h
    split at h
    · cases h
    · cases rest with
      | nil =>
        simp only [hkdfChain, Option.some.injEq] at h
        exact ⟨_, _, _, h.symm⟩
      | cons s2 rest2 => exact ih _ o (by simp) h

/-- The result of `derive_key` for an existing key on the curve P-256, on a handle
that holds the path `S`, in terms of the chain of derivations over `S`. -/
theorem derive_key_old_eq (env : Env) (dev : Device) (rnd : Nat → Nat) (app_id : Bytes)
    (S : List Bytes) (Y outk : Bytes) (ctx : mbedtls_ecdsa_context)
    (hS : ∀ s ∈ S, s.length = 4) (hS8 : S.length = 8)
    (hk : (load_keydev dev (List.replicate 67 0)).1 = 0)
    (hchain : hkdfChain env S (load_keydev dev (List.replicate 67 0)).2 = some outk)
    (hinfo : env.mbedtls_ecp_curve_info_from_grp_id MBEDTLS_ECP_DP_SECP256R1 = some 256) :
    derive_key env dev rnd app_id false (S.flatten ++ Y) MBEDTLS_ECP_DP_SECP256R1 (some ctx) =
      (if (env.mbedtls_ecp_read_key MBEDTLS_ECP_DP_SECP256R1 (outk.take 32)).1 != 0 then
        { ret := (env.mbedtls_ecp_read_key MBEDTLS_ECP_DP_SECP256R1 (outk.take 32)).1,
          key_handle := S.flatten ++ Y,
          key := some { ctx with grp_id := MBEDTLS_ECP_DP_SECP256R1 } }
      else
        { ret := (env.mbedtls_ecp_mul MBEDTLS_ECP_DP_SECP256R1
            (env.mbedtls_ecp_read_key MBEDTLS_ECP_DP_SECP256R1 (outk.take 32)).2).1,
          key_handle := S.flatten ++ Y,
          key := some
            { grp_id := MBEDTLS_ECP_DP_SECP256R1,
              d := (env.mbedtls_ecp_read_key MBEDTLS_ECP_DP_SECP256R1 (outk.take 32)).2,
              Q := (env.mbedtls_ecp_mul MBEDTLS_ECP_DP_SECP256R1
                (env.mbedtls_ecp_read_key MBEDTLS_ECP_DP_SECP256R1 (outk.take 32)).2).2 } }) := by
  have hloop := derive_key_loop_old env rnd S 0 [] Y
    (load_keydev dev (List.replicate 67 0)).2 outk rfl hS hchain
  rw [hS8, List.nil_append] at hloop
  unfold derive_key
  dsimp only
  rw [range_entries]
  generalize load_keydev dev (List.replicate 67 0) = k at hk hloop ⊢
  rw [hloop]
  simp [hk, CCID_OK, hinfo]

/-- C9. The handle that `derive_key` writes for a new key (random path entries with
the top bit forced, then the tag HMAC-SHA256(derived secret, appId ‖ path)) has the
top bit of every path entry set and is accepted by `verify_key` with the same
application hash, both with the P-256 key derived from that handle and with
`key == NULL`. The primitives are taken at their contracts: HMAC-SHA256 writes 32
bytes, HKDF fills its 67-byte output with bytes, P-256 has 256 bits, and a P-256
key read from 32 bytes is written back as the same 32 bytes. -/
theorem handle_round_trip (env : Env) (dev : Device) (rnd rnd2 : Nat → Nat)
    (app_id key_handle : Bytes) (curve : Nat) (key : Option mbedtls_ecdsa_context)
    (hlen : 64 ≤ key_handle.length)
    (hhmac : ∀ k m, (env.mbedtls_md_hmac MBEDTLS_MD_SHA256 k m).2.length = 32)
    (hhkdf : ∀ s i f, (env.mbedtls_hkdf MBEDTLS_MD_SHA512 s i f 67).2.length = 67)
    (hbytes : ∀ s i f, ∀ x ∈ (env.mbedtls_hkdf MBEDTLS_MD_SHA512 s i f 67).2, x < 256)
    (hinfo : env.mbedtls_ecp_curve_info_from_grp_id MBEDTLS_ECP_DP_SECP256R1 = some 256)
    (hrw : ∀ (b Q : Bytes), b.length = 32 → (∀ x ∈ b, x < 256) →
      (env.mbedtls_ecp_read_key MBEDTLS_ECP_DP_SECP256R1 b).1 = 0 →
      env.mbedtls_ecp_write_key
        { grp_id := MBEDTLS_ECP_DP_SECP256R1,
          d := (env.mbedtls_ecp_read_key MBEDTLS_ECP_DP_SECP256R1 b).2, Q := Q } 32 = (0, b))
    (hnew : (derive_key env dev rnd app_id true key_handle curve key).ret = 0)
    (hold : (derive_key env dev rnd2 app_id false
      (derive_key env dev rnd app_id true key_handle curve key).key_handle
      MBEDTLS_ECP_DP_SECP256R1 (some mbedtls_ecdsa_init)).ret = 0) :
    pathHasSoftEntry (derive_key env dev rnd app_id true key_handle curve key).key_handle
        = false ∧
      verify_key env dev app_id
        (derive_key env dev rnd app_id true key_handle curve key).key_handle
        (derive_key env dev rnd2 app_id false
          (derive_key env dev rnd app_id true key_handle curve key).key_handle
          MBEDTLS_ECP_DP_SECP256R1 (some mbedtls_ecdsa_init)).key = 0 ∧
      verify_key env dev app_id
        (derive_key env dev rnd app_id true key_handle curve key).key_handle none = 0 := by
  obtain ⟨hk, hl, hH⟩ := derive_key_ret_zero env dev rnd app_id true key_handle curve key hnew
  have hloop := derive_key_loop_new env rnd 8 0 [] key_handle
    (load_keydev dev (List.replicate 67 0)).2 rfl (by omega) hl
  rw [List.nil_append] at hloop
  generalize (derive_key env dev rnd app_id true key_handle curve key).key_handle = H
    at hH hold ⊢
  generalize derive_key_loop env rnd true (List.range' 0 8)
    (load_keydev dev (List.replicate 67 0)).2 key_handle = lp at hl hH hloop
  obtain ⟨hchain, hpath0⟩ := hloop
  have hpath : lp.2.2 = newPath rnd 0 8 ++ key_handle.drop 32 := by rw [hpath0]; rfl
  -- the shape of the handle
  have hP : (newPath rnd 0 8).length = 32 := newPath_length rnd 0 8
  have htake : lp.2.2.take KEY_PATH_LEN = newPath rnd 0 8 := by
    rw [hpath]
    exact List.take_left' hP
  have hHs : H = (newSalts rnd 0 8).flatten ++
      ((env.mbedtls_md_hmac MBEDTLS_MD_SHA256 (lp.2.1.take 32)
        (app_id.take CTAP_APPID_SIZE ++ newPath rnd 0 8)).2 ++ key_handle.drop 64) := by
    rw [hH, htake]
    simp only [beq_self_eq_true, if_true]
    rw [hpath, writeAt_append_at _ _ _ 32 hP, hhmac, List.drop_drop, newPath_eq]
    simp only [List.append_assoc]
  -- the derived secret
  obtain ⟨s0, i0, f0, ho⟩ := hkdfChain_output env (newSalts rnd 0 8) _ _
    (by rw [newSalts_succ]; simp) hchain
  have hb32 : (lp.2.1.take 32).length = 32 := by
    rw [List.length_take, ho, hhkdf]; rfl
  have hb256 : ∀ x ∈ lp.2.1.take 32, x < 256 := by
    intro x hx
    have := List.mem_of_mem_take hx
    rw [ho] at this
    exact hbytes _ _ _ x this
  -- the key derived from the handle
  have hd := fun (r : Nat → Nat) => derive_key_old_eq env dev r app_id (newSalts rnd 0 8)
    ((env.mbedtls_md_hmac MBEDTLS_MD_SHA256 (lp.2.1.take 32)
      (app_id.take CTAP_APPID_SIZE ++ newPath rnd 0 8)).2 ++ key_handle.drop 64) lp.2.1
    mbedtls_ecdsa_init (newSalts_length4 rnd 0 8) (newSalts_length rnd 0 8) hk hchain hinfo
  rw [← hHs] at hd
  rw [hd rnd2] at hold ⊢
  have hrk : (env.mbedtls_ecp_read_key MBEDTLS_ECP_DP_SECP256R1 (lp.2.1.take 32)).1 = 0 := by
    by_contra hne
    simp [hne] at hold
  simp only [hrk, bne_self_eq_false, Bool.false_eq_true, if_false] at hold ⊢
  have hw := hrw (lp.2.1.take 32)
    (env.mbedtls_ecp_mul MBEDTLS_ECP_DP_SECP256R1
      (env.mbedtls_ecp_read_key MBEDTLS_ECP_DP_SECP256R1 (lp.2.1.take 32)).2).2 hb32 hb256 hrk
  have hsoft : pathHasSoftEntry H = false := by
    rw [hHs, ← newPath_eq]
    exact newPath_hardened rnd _
  have hHtake : H.take KEY_PATH_LEN = newPath rnd 0 8 := by
    rw [hHs, ← newPath_eq]
    exact List.take_left' hP
  have hHdrop : H.drop KEY_PATH_LEN =
      (env.mbedtls_md_hmac MBEDTLS_MD_SHA256 (lp.2.1.take 32)
        (app_id.take CTAP_APPID_SIZE ++ newPath rnd 0 8)).2 ++ key_handle.drop 64 := by
    rw [hHs, ← newPath_eq]
    exact List.drop_left' hP
  have hcmp := memcmp_append_self
    (env.mbedtls_md_hmac MBEDTLS_MD_SHA256 (lp.2.1.take 32)
      (app_id.take CTAP_APPID_SIZE ++ newPath rnd 0 8)).2 (key_handle.drop 64)
  rw [hhmac] at hcmp
  refine ⟨hsoft, ?_, ?_⟩
  · unfold verify_key
    simp only [hsoft, Bool.false_eq_true, if_false, Option.isNone_some, Bool.false_and, hw,
      bne_self_eq_false, hHtake, hHdrop, List.take_take, Nat.min_self]
    exact hcmp
  · unfold verify_key
    rw [hd (fun _ => 0)]
    simp only [hsoft, Bool.false_eq_true, if_false, hrk, bne_self_eq_false, hold,
      Option.isNone_none, Bool.true_and, Option.getD_some, hw, hHtake, hHdrop, List.take_take,
      Nat.min_self]
    exact hcmp

theorem toLE_ofLE : ∀ (b : Bytes), (∀ x ∈ b, x < 256) → toLE b.length (ofLE b) = b := by
  intro b
  induction b with
  | nil => intro _; rfl
  | cons x xs ih =>
    intro h
    have hx : x < 256 := h x (List.mem_cons_self _ _)
    have h1 : (x + 256 * ofLE xs) % 256 = x := by omega
    have h2 : (x + 256 * ofLE xs) / 256 = ofLE xs := by omega
    simp only [List.length_cons, ofLE, toLE, h1, h2]
    rw [ih (fun y hy => h y (List.mem_cons_of_mem _ hy))]

/-- Witness of C9: the handle written on the example device is accepted. -/
theorem handle_round_trip_witness :
    64 ≤ (List.replicate 64 0).length ∧
      pathHasSoftEntry exampleHandle = false ∧
      verify_key exampleEnv exampleDevice (List.replicate 32 1) exampleHandle
        (derive_key exampleEnv exampleDevice (fun _ => 0) (List.replicate 32 1) false
          exampleHandle MBEDTLS_ECP_DP_SECP256R1 (some mbedtls_ecdsa_init)).key = 0 ∧
      verify_key exampleEnv exampleDevice (List.replicate 32 1) exampleHandle none = 0 :=
  ⟨by decide,
    handle_round_trip exampleEnv exampleDevice (fun i => i) (fun _ => 0) (List.replicate 32 1)
      (List.replicate 64 0) MBEDTLS_ECP_DP_SECP256R1 none (by decide)
      (fun k m => by simp [exampleEnv])
      (fun s i f => by simp [exampleEnv])
      (fun s i f x hx => by
        have hx2 := List.mem_of_mem_take hx
        rw [List.mem_append] at hx2
        rcases hx2 with h | h
        · rw [List.mem_map] at h
          obtain ⟨y, _, rfl⟩ := h
          exact Nat.mod_lt _ (by decide)
        · rw [List.mem_replicate] at h
          omega)
      rfl
      (fun b Q hb hx _ => by
        have := toLE_ofLE b hx
        rw [hb] at this
        simp [exampleEnv, this])
      (by decide) (by decide)⟩

/-! ## Key handles: what `verify_key` rejects without the primitives -/

/-- A handle in which some path entry has its top bit clear is rejected with `-1`,
whatever the primitives, the device key and the key passed by the caller are: the
test precedes every use of key material. -/
theorem verify_key_soft_entry (env : Env) (dev : Device) (appId keyHandle : Bytes)
    (key : Option mbedtls_ecdsa_context) (h : pathHasSoftEntry keyHandle = true) :
    verify_key env dev appId keyHandle key = -1 := by
  unfold verify_key
  rw [if_pos h]

/-- Clearing the top bit of the first path entry of the example handle makes
`verify_key` return `-1`. -/
theorem verify_key_soft_entry_example :
    exampleHandle.getD 3 0 = 128 ∧
      verify_key exampleEnv exampleDevice (List.replicate 32 1) (exampleHandle.set 3 0) none
        = -1 := by
  decide

theorem memcmp_eq_zero_iff : ∀ (n : Nat) (a b : Bytes),
    memcmp a b n = 0 ↔ ∀ j, j < n → a.getD j 0 = b.getD j 0 := by
  intro n
  induction n with
  | zero => intro a b; simp [memcmp]
  | succ n ih =>
    intro a b
    have ha : ∀ j, a.tail.getD j 0 = a.getD (j + 1) 0 := by
      intro j; cases a <;> simp
    have hb : ∀ j, b.tail.getD j 0 = b.getD (j + 1) 0 := by
      intro j; cases b <;> simp
    have ha0 : a.headD 0 = a.getD 0 0 := by cases a <;> simp
    have hb0 : b.headD 0 = b.getD 0 0 := by cases b <;> simp
    unfold memcmp
    by_cases h0 : a.headD 0 = b.headD 0
    · rw [if_pos h0, ih]
      constructor
      · intro h j hj
        cases j with
        | zero => rw [← ha0, ← hb0]; exact h0
        | succ j => rw [← ha, ← hb]; exact h j (by omega)
      · intro h j hj
        rw [ha, hb]
        exact h (j + 1) (by omega)
    · rw [if_neg h0]
      constructor
      · intro h
        exfalso
        omega
      · intro h
        exfalso
        apply h0
        rw [ha0, hb0]
        exact h 0 (by omega)

/-- The loop of `derive_key` for an existing key reads only the path in front of
the handle and leaves the handle as it is. -/
theorem derive_key_loop_path (env : Env) (rnd : Nat → Nat) (P Y : Bytes) :
    ∀ (l : List Nat) (outk : Bytes), (∀ i ∈ l, i * 4 + 4 ≤ P.length) →
      derive_key_loop env rnd false l outk (P ++ Y) =
        ((derive_key_loop env rnd false l outk P).1,
          (derive_key_loop env rnd false l outk P).2.1, P ++ Y) := by
  intro l
  induction l with
  | nil => intro outk _; rfl
  | cons i rest ih =>
    intro outk h
    have hi : i * 4 + 4 ≤ P.length := h i (List.mem_cons_self _ _)
    have hsalt : ((P ++ Y).drop (i * 4)).take 4 = (P.drop (i * 4)).take 4 := by
      rw [List.drop_append_of_le_length (by omega),
        List.take_append_of_le_length (by rw [List.length_drop]; omega)]
    unfold derive_key_loop
    simp only [show (false == true) = false from rfl, Bool.false_eq_true, if_false, hsalt]
    split
    · rfl
    · exact ih _ (fun j hj => h j (List.mem_cons_of_mem _ hj))

theorem readU32_path (P Y : Bytes) (off : Nat) (h : off + 4 ≤ P.length) :
    readU32 (P ++ Y) off = readU32 P off := by
  unfold readU32
  rw [List.getD_append _ _ _ _ (by omega), List.getD_append _ _ _ _ (by omega),
    List.getD_append _ _ _ _ (by omega), List.getD_append _ _ _ _ (by omega)]

theorem pathHasSoftEntry_path (P Y : Bytes) (hP : P.length = 32) :
    pathHasSoftEntry (P ++ Y) = pathHasSoftEntry P := by
  unfold pathHasSoftEntry
  rw [Bool.eq_iff_iff]
  simp only [List.any_eq_true]
  constructor
  · rintro ⟨i, hi, h⟩
    have hi8 : i < 8 := List.mem_range.mp hi
    rw [readU32_path P Y (i * 4) (by omega)] at h
    exact ⟨i, hi, h⟩
  · rintro ⟨i, hi, h⟩
    have hi8 : i < 8 := List.mem_range.mp hi
    refine ⟨i, hi, ?_⟩
    rw [readU32_path P Y (i * 4) (by omega)]
    exact h

/-- For an existing key, the status and the key that `derive_key` delivers depend on
the handle only through its path. -/
theorem derive_key_path (env : Env) (dev : Device) (rnd : Nat → Nat) (app_id P Y : Bytes)
    (curve : Nat) (key : Option mbedtls_ecdsa_context) (hP : P.length = 32) :
    (derive_key env dev rnd app_id false (P ++ Y) curve key).ret
        = (derive_key env dev rnd app_id false P curve key).ret ∧
      (derive_key env dev rnd app_id false (P ++ Y) curve key).key
        = (derive_key env dev rnd app_id false P curve key).key := by
  have hl : ∀ i ∈ List.range' 0 8, i * 4 + 4 ≤ P.length := by
    intro i hi
    rw [List.mem_range'_1] at hi
    omega
  unfold derive_key
  dsimp only
  rw [range_entries]
  generalize load_keydev dev (List.replicate 67 0) = k
  rw [derive_key_loop_path env rnd P Y _ k.2 hl]
  generalize derive_key_loop env rnd false (List.range' 0 8) k.2 P = lp
  simp only [show (false == true) = false from rfl, Bool.false_eq_true, if_false,
    Bool.false_and]
  constructor <;> repeat' split
  all_goals rfl

/-- A handle that differs from an accepted handle in its 32-byte tag only is
rejected by `verify_key`, with the same application hash and the same key
argument. -/
theorem verify_key_tag_mutation (env : Env) (dev : Device) (appId P T T2 R R2 : Bytes)
    (key : Option mbedtls_ecdsa_context) (hP : P.length = 32) (hT : T.length = 32)
    (hT2 : T2.length = 32) (hne : T ≠ T2)
    (hgen : verify_key env dev appId (P ++ (T ++ R)) key = 0) :
    verify_key env dev appId (P ++ (T2 ++ R2)) key ≠ 0 := by
  have ht : ∀ Y : Bytes, (P ++ Y).take KEY_PATH_LEN = P := fun Y => List.take_left' hP
  have hd : ∀ Y : Bytes, (P ++ Y).drop KEY_PATH_LEN = Y := fun Y => List.drop_left' hP
  have hr1 := derive_key_path env dev (fun _ => 0) appId P (T ++ R) MBEDTLS_ECP_DP_SECP256R1
    (some mbedtls_ecdsa_init) hP
  have hr2 := derive_key_path env dev (fun _ => 0) appId P (T2 ++ R2) MBEDTLS_ECP_DP_SECP256R1
    (some mbedtls_ecdsa_init) hP
  unfold verify_key at hgen ⊢
  simp only [pathHasSoftEntry_path _ _ hP, hr1.1, hr1.2, ht, hd] at hgen
  simp only [pathHasSoftEntry_path _ _ hP, hr2.1, hr2.2, ht, hd]
  intro hmut
  split at hgen
  · cases hgen
  · split at hgen
    · cases hgen
    · split at hgen
      · cases hgen
      · rename_i h1 h2 h3
        rw [if_neg h1, if_neg h2, if_neg h3] at hmut
        rw [memcmp_eq_zero_iff] at hgen hmut
        apply hne
        apply List.ext_getElem (by rw [hT, hT2])
        intro j hj1 hj2
        have e1 := hgen j (by omega)
        have e2 := hmut j (by omega)
        rw [List.getD_append _ _ _ _ hj1, List.getD_eq_getElem _ _ hj1] at e1
        rw [List.getD_append _ _ _ _ hj2, List.getD_eq_getElem _ _ hj2] at e2
        rw [e1, e2]

/-! ## Key derivation is a function of the master secret, the path and the curve -/

theorem derive_key_loop_rnd (env : Env) (rnd1 rnd2 : Nat → Nat) :
    ∀ (l : List Nat) (outk key_handle : Bytes),
      derive_key_loop env rnd1 false l outk key_handle
        = derive_key_loop env rnd2 false l outk key_handle := by
  intro l
  induction l with
  | nil => intro _ _; rfl
  | cons i rest ih =>
    intro outk key_handle
    simp only [derive_key_loop, show (false == true) = false from rfl, Bool.false_eq_true,
      if_false]
    split
    · rfl
    · exact ih _ _

/-- C11. Key derivation for an existing handle (`new_key = false`) is a function of
the device master secret (what `load_keydev` delivers), of the 32 path bytes and of
the curve: two calls that agree on these return the same status and, when they
succeed, the same key context (private scalar and public point), whatever the
application hash, the bytes of the handle after the path, the random source, the
rest of the device state and the previous content of the key context; and each call
leaves its handle as it was. -/
theorem derive_key_deterministic (env : Env) (dev1 dev2 : Device) (rnd1 rnd2 : Nat → Nat)
    (app_id1 app_id2 P Y1 Y2 : Bytes) (curve : Nat) (ctx1 ctx2 : mbedtls_ecdsa_context)
    (hP : P.length = KEY_PATH_LEN)
    (hk : load_keydev dev1 (List.replicate 67 0) = load_keydev dev2 (List.replicate 67 0)) :
    (derive_key env dev1 rnd1 app_id1 false (P ++ Y1) curve (some ctx1)).ret
        = (derive_key env dev2 rnd2 app_id2 false (P ++ Y2) curve (some ctx2)).ret ∧
      ((derive_key env dev1 rnd1 app_id1 false (P ++ Y1) curve (some ctx1)).ret = 0 →
        (derive_key env dev1 rnd1 app_id1 false (P ++ Y1) curve (some ctx1)).key
          = (derive_key env dev2 rnd2 app_id2 false (P ++ Y2) curve (some ctx2)).key) ∧
      (derive_key env dev1 rnd1 app_id1 false (P ++ Y1) curve (some ctx1)).key_handle
        = P ++ Y1 ∧
      (derive_key env dev2 rnd2 app_id2 false (P ++ Y2) curve (some ctx2)).key_handle
        = P ++ Y2 := by
  have hl : ∀ i ∈ List.range' 0 8, i * 4 + 4 ≤ P.length := by
    intro i hi
    rw [List.mem_range'_1] at hi
    rw [hP]
    unfold KEY_PATH_LEN
    omega
  unfold derive_key
  dsimp only
  rw [range_entries, hk]
  generalize load_keydev dev2 (List.replicate 67 0) = k
  rw [derive_key_loop_path env rnd1 P Y1 _ k.2 hl, derive_key_loop_path env rnd2 P Y2 _ k.2 hl,
    derive_key_loop_rnd env rnd1 rnd2]
  generalize derive_key_loop env rnd2 false (List.range' 0 8) k.2 P = lp
  clear hk hl
  simp only [show (false == true) = false from rfl, Bool.false_eq_true, if_false,
    Bool.false_and]
  refine ⟨?_, ?_, ?_, ?_⟩
  · repeat' split
    all_goals rfl
  · repeat' split
    all_goals first
      | rfl
      | (intro h; simp_all [CCID_OK])
  · repeat' split
    all_goals rfl
  · repeat' split
    all_goals rfl

/-- Witness of C11: the example handle on the example device and on the same device
after 41 signatures, with different application hashes, handle tails and previous
key contexts; both derivations succeed. -/
theorem derive_key_deterministic_witness :
    (exampleHandle.take 32).length = KEY_PATH_LEN ∧
      (derive_key exampleEnv exampleDevice (fun i => i) [1] false
          (exampleHandle.take 32 ++ [1, 2, 3]) MBEDTLS_ECP_DP_SECP256R1
          (some mbedtls_ecdsa_init)).ret = 0 ∧
      (derive_key exampleEnv exampleDevice (fun i => i) [1] false
          (exampleHandle.take 32 ++ [1, 2, 3]) MBEDTLS_ECP_DP_SECP256R1
          (some mbedtls_ecdsa_init)).key
        = (derive_key exampleEnv { exampleDevice with ef_counter := [41, 0, 0, 0] }
            (fun _ => 7) [2, 2] false (exampleHandle.take 32 ++ [9]) MBEDTLS_ECP_DP_SECP256R1
            (some { grp_id := 5, d := 77, Q := [4] })).key :=
  ⟨by decide, by decide,
    (derive_key_deterministic exampleEnv exampleDevice
      { exampleDevice with ef_counter := [41, 0, 0, 0] } (fun i => i) (fun _ => 7) [1] [2, 2]
      (exampleHandle.take 32) [1, 2, 3] [9] MBEDTLS_ECP_DP_SECP256R1 mbedtls_ecdsa_init
      { grp_id := 5, d := 77, Q := [4] } (by decide) rfl).2.1 (by decide)⟩

/-! ## The protection filter -/

theorem getD_set_ne (l : List Credential) (n k : Nat) (a d : Credential) (h : n ≠ k) :
    (l.set n a).getD k d = l.getD k d := by
  rw [List.getD_eq_getElem?_getD, List.getD_eq_getElem?_getD, List.getElem?_set, if_neg h]

theorem take_set_same (l : List Credential) (n : Nat) (a : Credential) :
    (l.set n a).take n = l.take n := by
  rw [List.set_take, List.set_eq_of_length_le]
  simp

theorem take_set_le (l : List Credential) (n m : Nat) (a : Credential) (h : m ≤ n) :
    (l.set n a).take m = l.take m := by
  rcases Nat.lt_or_ge m n with h1 | h1
  · exact List.take_set_of_lt a l h1
  · have : m = n := by omega
    subst this
    exact take_set_same l m a

theorem take_succ_set (l : List Credential) (n : Nat) (a : Credential) (h : n < l.length) :
    (l.set n a).take (n + 1) = l.take n ++ [a] := by
  rw [List.take_succ, take_set_same, List.getElem?_set]
  simp [h]

theorem take_succ_getD (l : List Credential) (n : Nat) (h : n < l.length) :
    l.take (n + 1) = l.take n ++ [l.getD n Credential.zero] := by
  rw [List.take_succ, List.getD_eq_getElem l Credential.zero h, List.getElem?_eq_getElem h]
  rfl

/-- The round of the filter in terms of the protection rule: a present credential
that the rule does not drop is copied to slot `numberOfCredentials`, a present one
that the rule drops is released in place, and an empty slot is passed over. -/
theorem filterStep_eq (flags : Nat) (resident : Bool) (st : List Credential × Nat) (i : Nat) :
    filterStep flags resident st i =
      if (st.1.getD i Credential.zero).present = true then
        if protectionDrops (uvFlagSet flags) resident (st.1.getD i Credential.zero) = true then
          (st.1.set i (credential_free (st.1.getD i Credential.zero)), st.2)
        else (st.1.set st.2 (st.1.getD i Credential.zero), (st.2 + 1) % 256)
      else st := by
  unfold filterStep protectionDrops uvFlagSet
  dsimp only
  generalize st.1.getD i Credential.zero = c
  cases hp : c.present <;> cases he : c.extensions.present <;>
    cases h1 : (c.extensions.credProtect == CRED_PROT_UV_REQUIRED) <;>
    cases h2 : (c.extensions.credProtect == CRED_PROT_UV_OPTIONAL_WITH_LIST) <;>
    cases h3 : (flags &&& FIDO2_AUT_FLAG_UV == 0) <;> cases resident <;>
    simp_all [bne]

/-- The candidates that the filter keeps among the first `m` slots. -/
theorem filterCreds_fold (flags : Nat) (resident : Bool) (creds : List Credential) :
    ∀ (m : Nat), m ≤ creds.length → m < 256 →
      ((List.range m).foldl (filterStep flags resident) (creds, 0)).1.length = creds.length ∧
      ((List.range m).foldl (filterStep flags resident) (creds, 0)).2 ≤ m ∧
      ((List.range m).foldl (filterStep flags resident) (creds, 0)).1.take
          ((List.range m).foldl (filterStep flags resident) (creds, 0)).2
        = (creds.take m).filter
            (fun c => c.present && !protectionDrops (uvFlagSet flags) resident c) ∧
      ∀ k, m ≤ k →
        ((List.range m).foldl (filterStep flags resident) (creds, 0)).1.getD k Credential.zero
          = creds.getD k Credential.zero := by
  intro m
  induction m with
  | zero => intro _ _; simp
  | succ m ih =>
    intro hm h256
    obtain ⟨hlen, hle, htake, hrest⟩ := ih (by omega) (by omega)
    rw [List.range_succ, List.foldl_append]
    simp only [List.foldl_cons, List.foldl_nil]
    generalize (List.range m).foldl (filterStep flags resident) (creds, 0) = st at *
    rw [filterStep_eq, hrest m (le_refl m), take_succ_getD creds m (by omega), List.filter_append]
    generalize creds.getD m Credential.zero = c
    cases hp : c.present
    · have hf : List.filter
          (fun c => c.present && !protectionDrops (uvFlagSet flags) resident c) [c] = [] := by
        simp [List.filter, hp]
      rw [hf, List.append_nil]
      simp only [Bool.false_eq_true, if_false]
      exact ⟨hlen, by omega, htake, fun k hk => hrest k (by omega)⟩
    · cases hd : protectionDrops (uvFlagSet flags) resident c
      · have h1 : (st.2 + 1) % 256 = st.2 + 1 := Nat.mod_eq_of_lt (by omega)
        have hf : List.filter
            (fun c => c.present && !protectionDrops (uvFlagSet flags) resident c) [c] = [c] := by
          simp [List.filter, hp, hd]
        rw [hf]
        simp only [if_true, Bool.false_eq_true, if_false, h1, List.length_set]
        refine ⟨hlen, by omega, ?_, ?_⟩
        · rw [take_succ_set _ _ _ (by omega), htake]
        · intro k hk
          rw [getD_set_ne _ _ _ _ _ (by omega)]
          exact hrest k (by omega)
      · have hf : List.filter
            (fun c => c.present && !protectionDrops (uvFlagSet flags) resident c) [c] = [] := by
          simp [List.filter, hp, hd]
        rw [hf, List.append_nil]
        simp only [if_true, List.length_set]
        refine ⟨hlen, by omega, ?_, ?_⟩
        · rw [take_set_le _ _ _ _ hle, htake]
        · intro k hk
          rw [getD_set_ne _ _ _ _ _ (by omega)]
          exact hrest k (by omega)

/-- When the rule drops every present credential among the first `m` slots, the
filter counts no candidate. -/
theorem filterCreds_fold_none (flags : Nat) (resident : Bool) (creds : List Credential)
    (n : Nat)
    (hall : ∀ c ∈ creds.take n, c.present = true →
      protectionDrops (uvFlagSet flags) resident c = true) :
    ∀ (m : Nat), m ≤ n →
      ((List.range m).foldl (filterStep flags resident) (creds, 0)).2 = 0 ∧
      ∀ k, m ≤ k →
        ((List.range m).foldl (filterStep flags resident) (creds, 0)).1.getD k Credential.zero
          = creds.getD k Credential.zero := by
  intro m
  induction m with
  | zero => intro _; simp
  | succ m ih =>
    intro hm
    obtain ⟨hz, hrest⟩ := ih (by omega)
    rw [List.range_succ, List.foldl_append]
    simp only [List.foldl_cons, List.foldl_nil]
    generalize (List.range m).foldl (filterStep flags resident) (creds, 0) = st at *
    rw [filterStep_eq, hrest m (le_refl m)]
    by_cases hp : (creds.getD m Credential.zero).present = true
    · have hlt : m < creds.length := by
        by_contra hge
        rw [List.getD_eq_default _ _ (by omega)] at hp
        cases hp
      have hmem : creds.getD m Credential.zero ∈ creds.take n := by
        rw [List.getD_eq_getElem creds Credential.zero hlt]
        rw [List.mem_take_iff_getElem]
        exact ⟨m, by omega, rfl⟩
      rw [if_pos hp, if_pos (hall _ hmem hp)]
      refine ⟨hz, ?_⟩
      intro k hk
      rw [getD_set_ne _ _ _ _ _ (by omega)]
      exact hrest k (by omega)
    · rw [if_neg hp]
      exact ⟨hz, fun k hk => hrest k (by omega)⟩

/-- C15. The protection filter (lines 323-342), run on `n` loaded credentials (the
first `n` slots of the array, each marked present, `n` below the range of the
`uint8_t` counter): the candidates it leaves in the first `numberOfCredentials`
slots are exactly the loaded credentials that the protection rule does not drop, in
their original order; their number is `numberOfCredentials`; a credential without
extension metadata always survives; and with the UV bit set nothing is dropped. -/
theorem protection_filter_survivors (flags : Nat) (resident : Bool) (creds : List Credential)
    (n : Nat) (hn : n ≤ creds.length) (h256 : n < 256)
    (hloaded : ∀ c ∈ creds.take n, c.present = true) :
    (filterCreds flags resident creds n).1.take (filterCreds flags resident creds n).2
        = (creds.take n).filter (fun c => !protectionDrops (uvFlagSet flags) resident c) ∧
      (filterCreds flags resident creds n).2
        = ((creds.take n).filter
            (fun c => !protectionDrops (uvFlagSet flags) resident c)).length ∧
      ((filterCreds flags resident creds n).1.take
          (filterCreds flags resident creds n).2).Sublist (creds.take n) ∧
      (∀ c ∈ creds.take n, c.extensions.present = false →
        c ∈ (filterCreds flags resident creds n).1.take (filterCreds flags resident creds n).2) ∧
      (uvFlagSet flags = true →
        (filterCreds flags resident creds n).1.take (filterCreds flags resident creds n).2
          = creds.take n) := by
  obtain ⟨hlen, hle, htake, _⟩ := filterCreds_fold flags resident creds n hn h256
  have hcongr : (creds.take n).filter
        (fun c => c.present && !protectionDrops (uvFlagSet flags) resident c)
      = (creds.take n).filter (fun c => !protectionDrops (uvFlagSet flags) resident c) := by
    apply List.filter_congr
    intro c hc
    rw [hloaded c hc, Bool.true_and]
  rw [hcongr] at htake
  have hT : (filterCreds flags resident creds n).1.take (filterCreds flags resident creds n).2
      = (creds.take n).filter (fun c => !protectionDrops (uvFlagSet flags) resident c) := htake
  refine ⟨hT, ?_, ?_, ?_, ?_⟩
  · have h := congrArg List.length hT
    rw [List.length_take] at h
    have h2 : (filterCreds flags resident creds n).2 ≤ n := hle
    have h3 : (filterCreds flags resident creds n).1.length = creds.length := hlen
    omega
  · rw [hT]
    exact List.filter_sublist _
  · intro c hc he
    rw [hT, List.mem_filter]
    refine ⟨hc, ?_⟩
    simp [protectionDrops, he]
  · intro huv
    rw [hT, List.filter_eq_self]
    intro c _
    simp [protectionDrops, huv]

/-- Witness of C15: the four example candidates as a resident result set without
UV; the one without extension metadata and the one of level "UV optional" survive. -/
theorem protection_filter_survivors_witness :
    (4 ≤ exampleLoaded.length ∧ 4 < 256 ∧ ∀ c ∈ exampleLoaded.take 4, c.present = true) ∧
      (filterCreds 0 true exampleLoaded 4).1.take (filterCreds 0 true exampleLoaded 4).2
        = [exampleCredential [0xA] 1, exampleProtected [0xB] 2 CRED_PROT_UV_OPTIONAL] :=
  ⟨by decide,
    (protection_filter_survivors 0 true exampleLoaded 4 (by decide) (by decide)
      (by decide)).1.trans (by decide)⟩

/-! ## The policy checks and the candidate lookup -/

/-- A request that parses and carries `rpId` and `clientDataHash`, run with
`next == false`: the call is the run of lines 210-380 followed by the assertion
step. -/
theorem cbor_get_assertion_first (env : Env) (s : Session) (dev : Device) (up_ok : Bool)
    (millis : Nat) (data : Bytes) (p : Request) (hparse : env.cbor_parse data = .ok p)
    (hrp : p.rpId.isSome = true) (hcd : p.clientDataHash.isSome = true) :
    cbor_get_assertion env s dev up_ok millis data false =
      match resolveCandidates env dev up_ok p (env.mbedtls_sha256 (p.rpId.getD [])) with
      | .error (e, dev1) => { ret := returnStatus e, sess := s, dev := dev1, resp := none }
      | .ok r =>
        { ret := returnStatus (buildAssertion env r.dev p (env.mbedtls_sha256 (p.rpId.getD []))
            false r.flags r.numberOfCredentials (r.creds.getD 0 Credential.zero)).1,
          sess :=
            if r.up == false && r.uv == false then s
            else if r.numberOfCredentials > 1 then createSession r data millis
            else s,
          dev := (buildAssertion env r.dev p (env.mbedtls_sha256 (p.rpId.getD []))
            false r.flags r.numberOfCredentials (r.creds.getD 0 Credential.zero)).2.1,
          resp := (buildAssertion env r.dev p (env.mbedtls_sha256 (p.rpId.getD []))
            false r.flags r.numberOfCredentials (r.creds.getD 0 Credential.zero)).2.2 } := by
  have hm : (p.rpId.isNone || p.clientDataHash.isNone) = false := by
    cases h1 : p.rpId <;> cases h2 : p.clientDataHash <;> simp_all
  unfold cbor_get_assertion
  simp only [hparse, hm, Bool.false_eq_true, if_false, if_true]
  rfl

/-- A request that parses and carries `rpId` and `clientDataHash` and that lines
210-380 reject with the status `e`: the call returns `e` and leaves the globals as
they were. -/
theorem cbor_get_assertion_rejected (env : Env) (s : Session) (dev dev1 : Device)
    (up_ok : Bool) (millis : Nat) (data : Bytes) (p : Request) (e : Nat)
    (hparse : env.cbor_parse data = .ok p)
    (hrp : p.rpId.isSome = true) (hcd : p.clientDataHash.isSome = true)
    (hres : resolveCandidates env dev up_ok p (env.mbedtls_sha256 (p.rpId.getD []))
      = .error (e, dev1)) :
    cbor_get_assertion env s dev up_ok millis data false = rejected s dev1 (returnStatus e) := by
  rw [cbor_get_assertion_first env s dev up_ok millis data p hparse hrp hcd, hres]
  rfl

/-- Lines 210-380 once the checks of lines 211-282 have passed: the lookup, the
filter, the ordering and the user-presence step. -/
theorem resolveCandidates_after_checks (env : Env) (dev : Device) (up_ok : Bool) (p : Request)
    (rp_id_hash : Bytes) (up uv : Bool) (flags : Nat)
    (hparam : checkPinUvAuthParam dev up_ok p = 0)
    (hopt : checkOptions p = .ok (up, uv))
    (htok : checkPinUvAuthToken env dev p rp_id_hash = .ok flags)
    (hhmac : checkHmacSecret env p = 0) :
    resolveCandidates env dev up_ok p rp_id_hash =
      match lookupCandidates env dev p rp_id_hash with
      | .error e => .error (e, dev)
      | .ok (r, resident) =>
        if (filterCreds flags resident r.1 r.2).2 == 0 then
          .error (CTAP2_ERR_NO_CREDENTIALS, dev)
        else
          match userPresence dev up_ok p flags with
          | .error e => .error (e, dev)
          | .ok (flags1, dev1) =>
            if p.extensions.largeBlobKey == some false then
              .error (CTAP2_ERR_INVALID_OPTION, dev1)
            else
              .ok { up := up, uv := uv, flags := flags1, resident := resident,
                    creds := sortCreds (filterCreds flags resident r.1 r.2).2
                      (filterCreds flags resident r.1 r.2).1,
                    numberOfCredentials := (filterCreds flags resident r.1 r.2).2,
                    dev := dev1 } := by
  unfold resolveCandidates lookupCandidates
  rw [hparam, hopt, htok, hhmac]
  rfl

/-- The scan of the resident slots finds nothing when no slot holds a record whose
stored hash is the one sought. -/
theorem scanResident_none (env : Env) (dev : Device) (rp_id_hash : Bytes)
    (creds : List Credential)
    (hnone : ∀ i file, i < env.MAX_RESIDENT_CREDENTIALS →
      dev.ef_cred.getD i none = some file → hashDiffers file rp_id_hash) :
    scanResident env dev rp_id_hash creds = (creds, 0) := by
  unfold scanResident
  have : ∀ (m : Nat), m ≤ env.MAX_RESIDENT_CREDENTIALS →
      (List.range m).foldl (scanResidentStep env dev rp_id_hash) (creds, 0) = (creds, 0) := by
    intro m
    induction m with
    | zero => intro _; rfl
    | succ m ih =>
      intro hm
      rw [List.range_succ, List.foldl_append, ih (by omega)]
      simp only [List.foldl_cons, List.foldl_nil]
      unfold scanResidentStep
      split
      · cases hf : dev.ef_cred.getD m none with
        | none => rfl
        | some file =>
          obtain ⟨j, hj, hne⟩ := hnone m file (by omega) hf
          have hmc : memcmp file rp_id_hash 32 ≠ 0 := by
            intro h0
            exact hne ((memcmp_eq_zero_iff 32 file rp_id_hash).1 h0 j hj)
          simp [hmc]
      · rfl
  exact this _ (le_refl _)

/-- C12. A GetAssertion request (`next == false`) that parses, carries `rpId` and
`clientDataHash` and passes the checks of lines 211-282 (PIN/UV auth parameter,
options, PIN/UV auth token, hmac-secret parameters): when its allow-list is empty
and no resident slot holds a record whose stored hash is SHA-256(rpId), and more
generally whenever the lookup delivers only credentials that the protection rule
drops, the call returns NoCredentials, leaves the session globals as they were and
leaves the device, hence the signature counter, unchanged. -/
theorem no_candidates_no_credentials (env : Env) (s : Session) (dev : Device) (up_ok : Bool)
    (millis : Nat) (data : Bytes) (p : Request) (up uv : Bool) (flags : Nat)
    (hparse : env.cbor_parse data = .ok p)
    (hrp : p.rpId.isSome = true) (hcd : p.clientDataHash.isSome = true)
    (hparam : checkPinUvAuthParam dev up_ok p = 0)
    (hopt : checkOptions p = .ok (up, uv))
    (htok : checkPinUvAuthToken env dev p (env.mbedtls_sha256 (p.rpId.getD [])) = .ok flags)
    (hhmac : checkHmacSecret env p = 0) :
    (p.allowList = [] →
      (∀ i file, i < env.MAX_RESIDENT_CREDENTIALS → dev.ef_cred.getD i none = some file →
        hashDiffers file (env.mbedtls_sha256 (p.rpId.getD []))) →
      cbor_get_assertion env s dev up_ok millis data false
          = rejected s dev CTAP2_ERR_NO_CREDENTIALS ∧
        get_sign_counter (cbor_get_assertion env s dev up_ok millis data false).dev
          = get_sign_counter dev) ∧
    (∀ creds creds_len resident,
      lookupCandidates env dev p (env.mbedtls_sha256 (p.rpId.getD []))
        = .ok ((creds, creds_len), resident) →
      (∀ c ∈ creds.take creds_len, c.present = true →
        protectionDrops (uvFlagSet flags) resident c = true) →
      cbor_get_assertion env s dev up_ok millis data false
          = rejected s dev CTAP2_ERR_NO_CREDENTIALS ∧
        get_sign_counter (cbor_get_assertion env s dev up_ok millis data false).dev
          = get_sign_counter dev) := by
  have hgen : ∀ creds creds_len resident,
      lookupCandidates env dev p (env.mbedtls_sha256 (p.rpId.getD []))
        = .ok ((creds, creds_len), resident) →
      (∀ c ∈ creds.take creds_len, c.present = true →
        protectionDrops (uvFlagSet flags) resident c = true) →
      cbor_get_assertion env s dev up_ok millis data false
          = rejected s dev CTAP2_ERR_NO_CREDENTIALS ∧
        get_sign_counter (cbor_get_assertion env s dev up_ok millis data false).dev
          = get_sign_counter dev := by
    intro creds creds_len resident hlook hall
    have hz : (filterCreds flags resident creds creds_len).2 = 0 :=
      (filterCreds_fold_none flags resident creds creds_len hall creds_len (le_refl _)).1
    have hres : resolveCandidates env dev up_ok p (env.mbedtls_sha256 (p.rpId.getD []))
        = .error (CTAP2_ERR_NO_CREDENTIALS, dev) := by
      rw [resolveCandidates_after_checks env dev up_ok p _ up uv flags hparam hopt htok hhmac,
        hlook]
      simp only [hz, beq_self_eq_true, if_true]
    have hc := cbor_get_assertion_rejected env s dev dev up_ok millis data p _ hparse hrp hcd hres
    rw [hc]
    exact ⟨rfl, rfl⟩
  refine ⟨?_, hgen⟩
  intro hal hnone
  apply hgen (List.replicate env.MAX_CREDENTIAL_COUNT_IN_LIST Credential.zero) 0 true
  · unfold lookupCandidates
    rw [hal, scanResident_none env dev _ _ hnone]
    rfl
  · intro c hc
    simp at hc

/-- Witness of C12: the example device holds no credential of the relying party
`[3]`. -/
theorem no_candidates_no_credentials_witness :
    (exampleEnv.cbor_parse [3] = .ok (exampleRequest [3]) ∧
      (exampleRequest [3]).allowList = [] ∧
      checkOptions (exampleRequest [3]) = .ok (true, false)) ∧
      cbor_get_assertion exampleEnv (exampleFirst 0).sess (exampleFirst 0).dev true 100 [3] false
        = rejected (exampleFirst 0).sess (exampleFirst 0).dev CTAP2_ERR_NO_CREDENTIALS :=
  ⟨⟨rfl, rfl, rfl⟩,
    ((no_candidates_no_credentials exampleEnv (exampleFirst 0).sess (exampleFirst 0).dev true
      100 [3] (exampleRequest [3]) true false 0 rfl rfl rfl rfl rfl rfl rfl).1 rfl
      (by
        intro i file hi hf
        have h8 : i < 8 := hi
        interval_cases i <;> first
          | exact absurd (show (none : Option Bytes) = some file from hf) (by simp)
          | (have hfile := Option.some.inj hf
             subst hfile
             exact ⟨0, by decide, by decide⟩))).1⟩

/-- C13. A GetAssertion request (`next == false`) that parses, carries `rpId` and
`clientDataHash`, has no `pinUvAuthParam` and an options map in which `uv` is not
true and `rk` is set, to true or to false: the call returns UnsupportedOption and
leaves the session globals and the device, hence the signature counter, as they
were; and this is so whatever `check_user_presence` would return, whatever the
resident slots hold and whatever `credential_load` would deliver, none of them
being consulted. -/
theorem options_rk_unsupported (env : Env) (s : Session) (dev : Device) (up_ok : Bool)
    (millis : Nat) (data : Bytes) (p : Request) (b : Bool)
    (hparse : env.cbor_parse data = .ok p)
    (hrp : p.rpId.isSome = true) (hcd : p.clientDataHash.isSome = true)
    (hnoparam : p.pinUvAuthParam = none) (hpresent : p.options.present = true)
    (huv : p.options.uv ≠ some true) (hrk : p.options.rk = some b) :
    cbor_get_assertion env s dev up_ok millis data false
        = rejected s dev CTAP2_ERR_UNSUPPORTED_OPTION ∧
      get_sign_counter (cbor_get_assertion env s dev up_ok millis data false).dev
        = get_sign_counter dev ∧
      ∀ (up_ok2 : Bool) (slots : List (Option Bytes))
        (load : Bytes → Bytes → Int × Credential),
        cbor_get_assertion { env with credential_load := load } s { dev with ef_cred := slots }
            up_ok2 millis data false
          = rejected s { dev with ef_cred := slots } CTAP2_ERR_UNSUPPORTED_OPTION := by
  have key : ∀ (env2 : Env) (dev2 : Device) (up_ok2 : Bool),
      env2.cbor_parse data = .ok p →
      cbor_get_assertion env2 s dev2 up_ok2 millis data false
        = rejected s dev2 CTAP2_ERR_UNSUPPORTED_OPTION := by
    intro env2 dev2 up_ok2 hparse2
    have hres : resolveCandidates env2 dev2 up_ok2 p (env2.mbedtls_sha256 (p.rpId.getD []))
        = .error (CTAP2_ERR_UNSUPPORTED_OPTION, dev2) := by
      unfold resolveCandidates checkPinUvAuthParam checkOptions
      have h1 : (p.options.uv == some true) = false := by simpa using huv
      simp [hnoparam, hpresent, hrk, h1]
    rw [cbor_get_assertion_rejected env2 s dev2 dev2 up_ok2 millis data p _ hparse2 hrp hcd hres]
    rfl
  refine ⟨key env dev up_ok hparse, ?_, ?_⟩
  · rw [key env dev up_ok hparse]
    rfl
  · intro up_ok2 slots load
    exact key _ _ _ hparse

/-- Witness of C13: the example request with `rk` set to false in its options. -/
theorem options_rk_unsupported_witness :
    (exampleOptionsRequest (some false) none none).options.uv ≠ some true ∧
      cbor_get_assertion (requestEnv (exampleOptionsRequest (some false) none none))
          (Session.initial exampleEnv) exampleDevice true 0 [1] false
        = rejected (Session.initial exampleEnv) exampleDevice CTAP2_ERR_UNSUPPORTED_OPTION :=
  ⟨by decide,
    (options_rk_unsupported (requestEnv (exampleOptionsRequest (some false) none none))
      (Session.initial exampleEnv) exampleDevice true 0 [1]
      (exampleOptionsRequest (some false) none none) false rfl rfl rfl rfl rfl (by decide)
      rfl).1⟩

/-! ## The check of the key order -/

/-- A run of the loop that ends without error has met keys that increase strictly
from `val_c` on, provided no key is the largest `uint64_t`. -/
theorem parseLoop_increasing :
    ∀ (rounds : List Round) (val_c : Nat) (p q : Request),
      (∀ e ∈ rounds, e.val_u < 2 ^ 64 - 1) → parseLoop val_c rounds p = .ok q →
      (rounds.map (fun e => e.val_u)).Pairwise (fun a b => a < b) ∧
        ∀ e ∈ rounds, val_c ≤ e.val_u := by
  intro rounds
  induction rounds with
  | nil => intro _ _ _ _ _; simp
  | cons e rest ih =>
    intro val_c p q hmax hok
    unfold parseLoop at hok
    split at hok
    · cases hok
    · split at hok
      · cases hok
      · rename_i h1 h2
        cases hrd : readField e p with
        | error err =>
          rw [hrd] at hok
          cases hok
        | ok p1 =>
          rw [hrd] at hok
          have he : e.val_u < 2 ^ 64 - 1 := hmax e (List.mem_cons_self _ _)
          have hmod : (e.val_u + 1) % 2 ^ 64 = e.val_u + 1 := Nat.mod_eq_of_lt (by omega)
          rw [hmod] at hok
          obtain ⟨hp, hge⟩ := ih (e.val_u + 1) p1 q
            (fun x hx => hmax x (List.mem_cons_of_mem _ hx)) hok
          refine ⟨?_, ?_⟩
          · rw [List.map_cons, List.pairwise_cons]
            refine ⟨?_, hp⟩
            intro b hb
            rw [List.mem_map] at hb
            obtain ⟨x, hx, rfl⟩ := hb
            have := hge x hx
            omega
          · intro x hx
            rcases List.mem_cons.1 hx with rfl | hx
            · omega
            · have := hge x hx
              omega

/-- When every branch reads its value without error, the loop fails with
MissingParameter or InvalidCbor only. -/
theorem parseLoop_error :
    ∀ (rounds : List Round) (val_c : Nat) (p : Request) (err : Nat),
      (∀ e ∈ rounds, ∀ p0, ∃ p1, e.branch p0 = .ok p1) →
      parseLoop val_c rounds p = .error err →
      err = CTAP2_ERR_MISSING_PARAMETER ∨ err = CTAP2_ERR_INVALID_CBOR := by
  intro rounds
  induction rounds with
  | nil => intro _ _ _ _ h; cases h
  | cons e rest ih =>
    intro val_c p err hbr hfail
    unfold parseLoop at hfail
    split at hfail
    · cases hfail
      exact Or.inl rfl
    · split at hfail
      · cases hfail
        exact Or.inr rfl
      · obtain ⟨p1, hp1⟩ : ∃ p1, readField e p = .ok p1 := by
          unfold readField
          split
          · exact hbr e (List.mem_cons_self _ _) p
          · exact ⟨p, rfl⟩
        rw [hp1] at hfail
        exact ih _ p1 err (fun x hx => hbr x (List.mem_cons_of_mem _ hx)) hfail

/-- The check of the key order as far as it holds: a request whose rounds deliver
keys that are not strictly increasing, none of them the largest `uint64_t`, and
whose values are all read without error, is answered with MissingParameter or
InvalidCbor, and the session globals and the device are as before. -/
theorem keys_below_max_out_of_order (env : Env) (s : Session) (dev : Device) (up_ok : Bool)
    (millis : Nat) (data : Bytes) (next : Bool) (rounds : List Round)
    (hdec : decodesTo env data rounds)
    (hmax : ∀ e ∈ rounds, e.val_u < 2 ^ 64 - 1)
    (hbr : ∀ e ∈ rounds, ∀ p0, ∃ p1, e.branch p0 = .ok p1)
    (hord : ¬ (rounds.map (fun e => e.val_u)).Pairwise (fun a b => a < b)) :
    cbor_get_assertion env s dev up_ok millis data next
        = rejected s dev CTAP2_ERR_MISSING_PARAMETER ∨
      cbor_get_assertion env s dev up_ok millis data next
        = rejected s dev CTAP2_ERR_INVALID_CBOR := by
  unfold decodesTo at hdec
  cases hpl : parseLoop 1 rounds Request.initial with
  | ok q => exact absurd (parseLoop_increasing rounds 1 _ q hmax hpl).1 hord
  | error err =>
    rw [hpl] at hdec
    unfold cbor_get_assertion
    rw [hdec]
    rcases parseLoop_error rounds 1 _ err hbr hpl with h | h
    · rw [h]
      exact Or.inl rfl
    · rw [h]
      exact Or.inr rfl

/-- C14, the code at the failing input: the loop meets the keys 1, 2, `2 ^ 64 - 1`,
0, 1, 2 in this order, which is not strictly increasing. After the key `2 ^ 64 - 1`
the sum `val_u + 1` of line 111 wraps to 0, the key 0 passes both tests of lines
105-110 and the keys 1 and 2 pass them once more; the loop ends without error, the
call returns success with an assertion, and the signature counter in the store goes
from 0 to 1. -/
theorem key_check_passes_after_wrap :
    ([1, 2, 255, 0, 1, 2].map exampleRound).map (fun e => e.val_u)
        = [1, 2, 2 ^ 64 - 1, 0, 1, 2] ∧
      ¬ ([1, 2, 2 ^ 64 - 1, 0, 1, 2] : List Nat).Pairwise (fun a b => a < b) ∧
      decodesTo keyEnv [1, 2, 255, 0, 1, 2] ([1, 2, 255, 0, 1, 2].map exampleRound) ∧
      keyEnv.cbor_parse [1, 2, 255, 0, 1, 2] = .ok (exampleRequest [1]) ∧
      (cbor_get_assertion keyEnv (Session.initial keyEnv) exampleDevice true 0
        [1, 2, 255, 0, 1, 2] false).seen = (0, some (some [0xA2])) ∧
      get_sign_counter exampleDevice = 0 ∧
      get_sign_counter (cbor_get_assertion keyEnv (Session.initial keyEnv) exampleDevice true 0
        [1, 2, 255, 0, 1, 2] false).dev = 1 :=
  ⟨by decide, by decide, rfl, rfl, by decide, by decide, by decide⟩

/-- The same toy codec rejects the keys 1, 2, 5, 4 with InvalidCbor and the keys 2, 1
with MissingParameter, and leaves the store as it was. -/
theorem keys_below_max_out_of_order_example :
    cbor_get_assertion keyEnv (Session.initial keyEnv) exampleDevice true 0 [1, 2, 5, 4] false
        = rejected (Session.initial keyEnv) exampleDevice CTAP2_ERR_INVALID_CBOR ∧
      cbor_get_assertion keyEnv (Session.initial keyEnv) exampleDevice true 0 [2, 1] false
        = rejected (Session.initial keyEnv) exampleDevice CTAP2_ERR_MISSING_PARAMETER := by
  decide

/-- The status of rule 4 of §4.3 (lines 213-221): OperationDenied when the
user-presence check fails, else PinNotSet when no PIN is provisioned, else
PinAuthInvalid. -/
theorem checkPinUvAuthParam_empty (dev : Device) (up_ok : Bool) (p : Request)
    (hempty : p.pinUvAuthParam = some []) :
    checkPinUvAuthParam dev up_ok p =
      if up_ok = false then CTAP2_ERR_OPERATION_DENIED
      else if dev.ef_pin_has_data = false then CTAP2_ERR_PIN_NOT_SET
      else CTAP2_ERR_PIN_AUTH_INVALID := by
  unfold checkPinUvAuthParam
  rw [hempty]
  cases up_ok <;> cases dev.ef_pin_has_data <;> rfl

/-- A request with an empty `pinUvAuthParam` is rejected by lines 212-222. -/
theorem resolveCandidates_empty_param (env : Env) (dev : Device) (up_ok : Bool) (p : Request)
    (rp_id_hash : Bytes) (hempty : p.pinUvAuthParam = some []) :
    resolveCandidates env dev up_ok p rp_id_hash =
      .error (if up_ok = false then CTAP2_ERR_OPERATION_DENIED
        else if dev.ef_pin_has_data = false then CTAP2_ERR_PIN_NOT_SET
        else CTAP2_ERR_PIN_AUTH_INVALID, dev) := by
  unfold resolveCandidates
  rw [checkPinUvAuthParam_empty dev up_ok p hempty]
  cases up_ok <;> cases dev.ef_pin_has_data <;> rfl

theorem returnStatus_rule4 (dev : Device) (up_ok : Bool) :
    returnStatus (if up_ok = false then CTAP2_ERR_OPERATION_DENIED
        else if dev.ef_pin_has_data = false then CTAP2_ERR_PIN_NOT_SET
        else CTAP2_ERR_PIN_AUTH_INVALID)
      = if up_ok = false then CTAP2_ERR_OPERATION_DENIED
        else if dev.ef_pin_has_data = false then CTAP2_ERR_PIN_NOT_SET
        else CTAP2_ERR_PIN_AUTH_INVALID := by
  cases up_ok <;> cases dev.ef_pin_has_data <;> rfl

/-- C17. A GetAssertion request (`next == false`) that parses, carries `rpId` and
`clientDataHash` and whose `pinUvAuthParam` is present but empty produces no
assertion: the call returns OperationDenied when the user-presence check fails,
otherwise PinNotSet when no PIN is provisioned, otherwise PinAuthInvalid; there is
no response, and the session globals and the device, hence the signature counter,
are as before. -/
theorem empty_pin_auth_param_rejected (env : Env) (s : Session) (dev : Device) (up_ok : Bool)
    (millis : Nat) (data : Bytes) (p : Request)
    (hparse : env.cbor_parse data = .ok p)
    (hrp : p.rpId.isSome = true) (hcd : p.clientDataHash.isSome = true)
    (hempty : p.pinUvAuthParam = some []) :
    cbor_get_assertion env s dev up_ok millis data false =
        rejected s dev
          (if up_ok = false then CTAP2_ERR_OPERATION_DENIED
           else if dev.ef_pin_has_data = false then CTAP2_ERR_PIN_NOT_SET
           else CTAP2_ERR_PIN_AUTH_INVALID) ∧
      (cbor_get_assertion env s dev up_ok millis data false).ret ≠ 0 ∧
      (cbor_get_assertion env s dev up_ok millis data false).resp = none ∧
      (cbor_get_assertion env s dev up_ok millis data false).sess = s ∧
      get_sign_counter (cbor_get_assertion env s dev up_ok millis data false).dev
        = get_sign_counter dev := by
  have h := cbor_get_assertion_rejected env s dev dev up_ok millis data p _ hparse hrp hcd
    (resolveCandidates_empty_param env dev up_ok p _ hempty)
  rw [returnStatus_rule4] at h
  rw [h]
  refine ⟨rfl, ?_, rfl, rfl, rfl⟩
  simp only [rejected]
  split_ifs <;> decide

/-- Witness of C17: the example request with an empty `pinUvAuthParam` on the
example device, which has no PIN, the user being present. -/
theorem empty_pin_auth_param_rejected_witness :
    (examplePinRequest []).pinUvAuthParam = some [] ∧
      cbor_get_assertion (requestEnv (examplePinRequest [])) (Session.initial exampleEnv)
          exampleDevice true 0 [1] false
        = rejected (Session.initial exampleEnv) exampleDevice CTAP2_ERR_PIN_NOT_SET :=
  ⟨rfl,
    (empty_pin_auth_param_rejected (requestEnv (examplePinRequest []))
      (Session.initial exampleEnv) exampleDevice true 0 [1] (examplePinRequest [])
      rfl rfl rfl rfl).1⟩

/-- C18, as stated, fails: the example request with `uv` true in its options and an
empty `pinUvAuthParam` is answered by rule 4, with PinNotSet when the user is
present and with OperationDenied when the user-presence check fails, not with
InvalidOption; and the same request with `rk` set instead of `uv` is answered in the
same way, not with UnsupportedOption. The outcome depends on the user-presence
check, which is therefore made. -/
theorem empty_param_precedes_options :
    (cbor_get_assertion (requestEnv (exampleOptionsRequest none (some true) (some [])))
        (Session.initial exampleEnv) exampleDevice true 0 [1] false).ret
      = CTAP2_ERR_PIN_NOT_SET ∧
    (cbor_get_assertion (requestEnv (exampleOptionsRequest none (some true) (some [])))
        (Session.initial exampleEnv) exampleDevice false 0 [1] false).ret
      = CTAP2_ERR_OPERATION_DENIED ∧
    (cbor_get_assertion (requestEnv (exampleOptionsRequest (some true) none (some [])))
        (Session.initial exampleEnv) exampleDevice true 0 [1] false).ret
      = CTAP2_ERR_PIN_NOT_SET ∧
    (cbor_get_assertion (requestEnv (exampleOptionsRequest (some true) none (some [])))
        (Session.initial exampleEnv) exampleDevice false 0 [1] false).ret
      = CTAP2_ERR_OPERATION_DENIED ∧
    CTAP2_ERR_PIN_NOT_SET ≠ CTAP2_ERR_INVALID_OPTION ∧
    CTAP2_ERR_OPERATION_DENIED ≠ CTAP2_ERR_INVALID_OPTION ∧
    CTAP2_ERR_PIN_NOT_SET ≠ CTAP2_ERR_UNSUPPORTED_OPTION ∧
    CTAP2_ERR_OPERATION_DENIED ≠ CTAP2_ERR_UNSUPPORTED_OPTION := by
  decide

/-- C18, amended. The checks are made in the order of the code: first the one on an
empty `pinUvAuthParam` (lines 212-222), then the ones on the options (lines
232-241, `uv` before `rk`), then the ones on the token (lines 252-269). For a
request that parses, carries `rpId` and `clientDataHash` and triggers an option
rule (`uv` true, or `rk` set): when its `pinUvAuthParam` is present but empty the
call returns the status of the empty-parameter rule, which depends on the
user-presence check; when its `pinUvAuthParam` is absent, or is not empty and comes
with protocol 1 or 2, the call returns InvalidOption if `uv` is true, also when
`rk` is set, and UnsupportedOption otherwise, before any check of the token; and
when its `pinUvAuthParam` is not empty and comes with another protocol, the call
returns MissingParameter for protocol 0 and InvalidParameter otherwise, before the
options are looked at. -/
theorem policy_rule_order (env : Env) (s : Session) (dev : Device) (up_ok : Bool)
    (millis : Nat) (data : Bytes) (p : Request)
    (hparse : env.cbor_parse data = .ok p)
    (hrp : p.rpId.isSome = true) (hcd : p.clientDataHash.isSome = true)
    (hpresent : p.options.present = true)
    (htrig : p.options.uv = some true ∨ p.options.rk ≠ none) :
    (p.pinUvAuthParam = some [] →
      cbor_get_assertion env s dev up_ok millis data false =
        rejected s dev
          (if up_ok = false then CTAP2_ERR_OPERATION_DENIED
           else if dev.ef_pin_has_data = false then CTAP2_ERR_PIN_NOT_SET
           else CTAP2_ERR_PIN_AUTH_INVALID)) ∧
    ((p.pinUvAuthParam = none ∨
        ∃ param, p.pinUvAuthParam = some param ∧ param ≠ [] ∧
          (p.pinUvAuthProtocol = 1 ∨ p.pinUvAuthProtocol = 2)) →
      cbor_get_assertion env s dev up_ok millis data false =
        rejected s dev
          (if p.options.uv = some true then CTAP2_ERR_INVALID_OPTION
           else CTAP2_ERR_UNSUPPORTED_OPTION)) ∧
    (∀ param, p.pinUvAuthParam = some param → param ≠ [] →
      p.pinUvAuthProtocol ≠ 1 → p.pinUvAuthProtocol ≠ 2 →
      cbor_get_assertion env s dev up_ok millis data false =
        rejected s dev
          (if p.pinUvAuthProtocol = 0 then CTAP2_ERR_MISSING_PARAMETER
           else CTAP1_ERR_INVALID_PARAMETER)) := by
  refine ⟨?_, ?_, ?_⟩
  · intro hempty
    have h := cbor_get_assertion_rejected env s dev dev up_ok millis data p _ hparse hrp hcd
      (resolveCandidates_empty_param env dev up_ok p _ hempty)
    rw [returnStatus_rule4] at h
    exact h
  rotate_left
  · intro param hp hne h1 h2
    have hl : (param.length == 0) = false := by
      cases param with
      | nil => exact absurd rfl hne
      | cons a t => rfl
    have hE : checkPinUvAuthParam dev up_ok p =
        if p.pinUvAuthProtocol = 0 then CTAP2_ERR_MISSING_PARAMETER
        else CTAP1_ERR_INVALID_PARAMETER := by
      unfold checkPinUvAuthParam
      rw [hp]
      by_cases h0 : p.pinUvAuthProtocol = 0
      · simp [hl, h0]
      · simp [hl, h0, h1, h2]
    have hne0 : (checkPinUvAuthParam dev up_ok p != 0) = true := by
      rw [hE]
      by_cases h0 : p.pinUvAuthProtocol = 0
      · rw [if_pos h0]
        decide
      · rw [if_neg h0]
        decide
    have hres : resolveCandidates env dev up_ok p (env.mbedtls_sha256 (p.rpId.getD []))
        = .error (if p.pinUvAuthProtocol = 0 then CTAP2_ERR_MISSING_PARAMETER
            else CTAP1_ERR_INVALID_PARAMETER, dev) := by
      unfold resolveCandidates
      dsimp only
      rw [if_pos hne0, hE]
    rw [cbor_get_assertion_rejected env s dev dev up_ok millis data p _ hparse hrp hcd hres]
    by_cases h0 : p.pinUvAuthProtocol = 0 <;> simp [h0] <;> rfl
  · intro hp
    have h0 : checkPinUvAuthParam dev up_ok p = 0 := by
      unfold checkPinUvAuthParam
      rcases hp with hp | ⟨param, hp, hne, hproto⟩
      · rw [hp]
      · rw [hp]
        have hl : (param.length == 0) = false := by
          cases param with
          | nil => exact absurd rfl hne
          | cons a t => rfl
        rcases hproto with h1 | h1 <;> simp [hl, h1]
    have hres : resolveCandidates env dev up_ok p (env.mbedtls_sha256 (p.rpId.getD []))
        = .error (if p.options.uv = some true then CTAP2_ERR_INVALID_OPTION
            else CTAP2_ERR_UNSUPPORTED_OPTION, dev) := by
      unfold resolveCandidates checkOptions
      simp only [h0, bne_self_eq_false, Bool.false_eq_true, if_false, hpresent, if_true]
      by_cases huv : p.options.uv = some true
      · simp [huv]
      · have hrk : p.options.rk ≠ none := by
          rcases htrig with h | h
          · exact absurd h huv
          · exact h
        have h1 : (p.options.uv == some true) = false := by simpa using huv
        simp [h1, huv, hrk]
    rw [cbor_get_assertion_rejected env s dev dev up_ok millis data p _ hparse hrp hcd hres]
    by_cases huv : p.options.uv = some true <;> simp [huv] <;> rfl

/-- Witness of the amended C18: the example request with `uv` true and `rk` set and
no `pinUvAuthParam` is answered with InvalidOption. -/
theorem policy_rule_order_witness :
    (exampleOptionsRequest (some true) (some true) none).options.present = true ∧
      cbor_get_assertion (requestEnv (exampleOptionsRequest (some true) (some true) none))
          (Session.initial exampleEnv) exampleDevice true 0 [1] false
        = rejected (Session.initial exampleEnv) exampleDevice CTAP2_ERR_INVALID_OPTION :=
  ⟨rfl,
    (policy_rule_order (requestEnv (exampleOptionsRequest (some true) (some true) none))
      (Session.initial exampleEnv) exampleDevice true 0 [1]
      (exampleOptionsRequest (some true) (some true) none) rfl rfl rfl rfl
      (Or.inl rfl)).2.1 (Or.inl rfl)⟩

/-! ## The flags and the counter of a successful call -/

theorem checkPinUvAuthToken_cases (env : Env) (dev : Device) (p : Request)
    (rp_id_hash : Bytes) :
    (p.pinUvAuthParam = none ∧ checkPinUvAuthToken env dev p rp_id_hash = .ok 0) ∨
    (∃ param, p.pinUvAuthParam = some param ∧
      (env.verify p.pinUvAuthProtocol dev.paut.data (p.clientDataHash.getD []) param ≠ 0 ∨
        getUserVerifiedFlagValue dev = false ∨
        dev.paut.permissions &&& CTAP_PERMISSION_GA = 0 ∨
        (dev.paut.has_rp_id = true ∧ memcmp dev.paut.rp_id_hash rp_id_hash 32 ≠ 0)) ∧
      checkPinUvAuthToken env dev p rp_id_hash = .error CTAP2_ERR_PIN_AUTH_INVALID) ∨
    (∃ param, p.pinUvAuthParam = some param ∧
      env.verify p.pinUvAuthProtocol dev.paut.data (p.clientDataHash.getD []) param = 0 ∧
      getUserVerifiedFlagValue dev = true ∧
      dev.paut.permissions &&& CTAP_PERMISSION_GA ≠ 0 ∧
      (dev.paut.has_rp_id = true → memcmp dev.paut.rp_id_hash rp_id_hash 32 = 0) ∧
      checkPinUvAuthToken env dev p rp_id_hash = .ok FIDO2_AUT_FLAG_UV) := by
  unfold checkPinUvAuthToken
  cases hp : p.pinUvAuthParam with
  | none => exact Or.inl ⟨rfl, rfl⟩
  | some param =>
    right
    dsimp only
    by_cases h1 : env.verify p.pinUvAuthProtocol dev.paut.data (p.clientDataHash.getD []) param
        = 0
    · by_cases h2 : getUserVerifiedFlagValue dev = true
      · by_cases h3 : dev.paut.permissions &&& CTAP_PERMISSION_GA = 0
        · exact Or.inl ⟨param, rfl, Or.inr (Or.inr (Or.inl h3)), by simp [h1, h2, h3]⟩
        · by_cases h4 : dev.paut.has_rp_id = true ∧
              memcmp dev.paut.rp_id_hash rp_id_hash 32 ≠ 0
          · exact Or.inl ⟨param, rfl, Or.inr (Or.inr (Or.inr h4)),
              by simp [h1, h2, h3, h4.1, h4.2]⟩
          · refine Or.inr ⟨param, rfl, h1, h2, h3, ?_, ?_⟩
            · intro hr
              by_contra hne
              exact h4 ⟨hr, hne⟩
            · have h5 : (dev.paut.has_rp_id == true &&
                  memcmp dev.paut.rp_id_hash rp_id_hash 32 != 0) = false := by
                cases hr : dev.paut.has_rp_id
                · rfl
                · have : memcmp dev.paut.rp_id_hash rp_id_hash 32 = 0 := by
                    by_contra hne
                    exact h4 ⟨hr, hne⟩
                  simp [this]
              simp only [h1, h2, h3, h5, bne_self_eq_false, Bool.false_eq_true, if_false,
                beq_iff_eq]
              rfl
      · have h2f : getUserVerifiedFlagValue dev = false := by simpa using h2
        exact Or.inl ⟨param, rfl, Or.inr (Or.inl h2f), by simp [h1, h2f]⟩
    · exact Or.inl ⟨param, rfl, Or.inl h1, by simp [h1]⟩

theorem userPresence_flags (dev : Device) (up_ok : Bool) (p : Request) (flags flags1 : Nat)
    (dev1 : Device) (h : userPresence dev up_ok p flags = .ok (flags1, dev1)) :
    (flags1 = flags ∨ flags1 = flags ||| FIDO2_AUT_FLAG_UP) ∧
      get_sign_counter dev1 = get_sign_counter dev := by
  unfold userPresence at h
  repeat' split at h
  all_goals first
    | (cases h; done)
    | (cases h; exact ⟨Or.inl rfl, rfl⟩)
    | (cases h; exact ⟨Or.inr rfl, rfl⟩)

/-- What a successful run of lines 210-380 has checked and what flags it hands on:
the checks of the PIN/UV auth parameter, of the options and of the token have
passed, and the flags are those of the token check, with the user-presence bit
added or not. -/
theorem resolveCandidates_flags (env : Env) (dev : Device) (up_ok : Bool) (p : Request)
    (rp_id_hash : Bytes) (r : Resolved)
    (h : resolveCandidates env dev up_ok p rp_id_hash = .ok r) :
    ∃ flags0, checkPinUvAuthParam dev up_ok p = 0 ∧
      checkPinUvAuthToken env dev p rp_id_hash = .ok flags0 ∧
      (r.flags = flags0 ∨ r.flags = flags0 ||| FIDO2_AUT_FLAG_UP) ∧
      get_sign_counter r.dev = get_sign_counter dev := by
  by_cases h1 : checkPinUvAuthParam dev up_ok p = 0
  · cases hopt : checkOptions p with
    | error e =>
      unfold resolveCandidates at h
      simp [h1, hopt] at h
    | ok x =>
      obtain ⟨up, uv⟩ := x
      cases htok : checkPinUvAuthToken env dev p rp_id_hash with
      | error e =>
        unfold resolveCandidates at h
        simp [h1, hopt, htok] at h
      | ok flags0 =>
        by_cases h2 : checkHmacSecret env p = 0
        · rw [resolveCandidates_after_checks env dev up_ok p rp_id_hash up uv flags0 h1 hopt
            htok h2] at h
          cases hl : lookupCandidates env dev p rp_id_hash with
          | error e => rw [hl] at h; cases h
          | ok x =>
            obtain ⟨cr, resident⟩ := x
            rw [hl] at h
            dsimp only at h
            split at h
            · cases h
            · cases hu : userPresence dev up_ok p flags0 with
              | error e => rw [hu] at h; cases h
              | ok y =>
                obtain ⟨flags1, dev1⟩ := y
                rw [hu] at h
                dsimp only at h
                split at h
                · cases h
                · cases h
                  exact ⟨flags0, h1, rfl, (userPresence_flags dev up_ok p flags0 flags1 dev1 hu).1,
                    (userPresence_flags dev up_ok p flags0 flags1 dev1 hu).2⟩
        · unfold resolveCandidates at h
          simp [h1, hopt, htok, h2] at h
  · unfold resolveCandidates at h
    simp [h1] at h

/-- The flags that can reach the assertion step: the user-presence and the
user-verification bit, and no other. -/
theorem resolveCandidates_flags_range (env : Env) (dev : Device) (up_ok : Bool) (p : Request)
    (rp_id_hash : Bytes) (r : Resolved)
    (h : resolveCandidates env dev up_ok p rp_id_hash = .ok r) : flagsUpUv r.flags := by
  obtain ⟨flags0, _, htok, hf, _⟩ := resolveCandidates_flags env dev up_ok p rp_id_hash r h
  rcases checkPinUvAuthToken_cases env dev p rp_id_hash with ⟨_, h0⟩ | ⟨_, _, _, h0⟩ |
    ⟨_, _, _, _, _, _, h0⟩
  · rw [h0] at htok
    cases htok
    rcases hf with hf | hf
    · exact Or.inl hf
    · exact Or.inr (Or.inl hf)
  · rw [h0] at htok
    cases htok
  · rw [h0] at htok
    cases htok
    rcases hf with hf | hf
    · exact Or.inr (Or.inr (Or.inl hf))
    · exact Or.inr (Or.inr (Or.inr hf))

/-- A call with `next == false` either leaves the globals as they were or hands a
resolved candidate list over to them. -/
theorem cbor_get_assertion_sess (env : Env) (s : Session) (dev : Device) (up_ok : Bool)
    (millis : Nat) (data : Bytes) :
    (cbor_get_assertion env s dev up_ok millis data false).sess = s ∨
      ∃ p r, resolveCandidates env dev up_ok p (env.mbedtls_sha256 (p.rpId.getD [])) = .ok r ∧
        (cbor_get_assertion env s dev up_ok millis data false).sess
          = createSession r data millis := by
  unfold cbor_get_assertion
  cases hp : env.cbor_parse data with
  | error e => exact Or.inl rfl
  | ok p =>
    dsimp only
    split
    · exact Or.inl rfl
    · rw [if_pos (show ((false == false) = true) from rfl)]
      cases hr : resolveCandidates env dev up_ok p (env.mbedtls_sha256 (p.rpId.getD [])) with
      | error e => exact Or.inl rfl
      | ok r =>
        dsimp only
        split
        · exact Or.inl rfl
        · split
          · exact Or.inr ⟨p, r, hr, rfl⟩
          · exact Or.inl rfl

theorem nextEpilogue_flagsx (e : Nat) (s : Session) (dev : Device) (resp : Option Response)
    (h : flagsUpUv s.flagsx) : flagsUpUv (nextEpilogue e s dev resp).sess.flagsx := by
  unfold nextEpilogue
  split
  · exact Or.inl rfl
  · exact h

/-- The flags held by the session are the user-presence and the user-verification
bit, and no other, in every state that calls of the two entry points can reach. -/
theorem reachable_flagsx (env : Env) (s : Session) (h : Reachable env s) :
    flagsUpUv s.flagsx := by
  induction h with
  | initial => exact Or.inl rfl
  | call s dev c _ ih =>
    cases c with
    | getAssertion up_ok millis data =>
      show flagsUpUv (cbor_get_assertion env s dev up_ok millis data false).sess.flagsx
      rcases cbor_get_assertion_sess env s dev up_ok millis data with h | ⟨p, r, hr, h⟩
      · rw [h]
        exact ih
      · rw [h]
        exact resolveCandidates_flags_range env dev up_ok p _ r hr
    | getNextAssertion millis millis2 data =>
      show flagsUpUv (cbor_get_next_assertion env s dev millis millis2 data).sess.flagsx
      have hs := cbor_get_assertion_next_sess env s dev false millis
        ((s.datax.getD []).take s.lenx)
      unfold cbor_get_next_assertion
      split
      · exact nextEpilogue_flagsx _ _ _ _ ih
      · split
        · exact nextEpilogue_flagsx _ _ _ _ ih
        · dsimp only
          split
          · refine nextEpilogue_flagsx _ _ _ _ ?_
            rw [hs]
            exact ih
          · refine nextEpilogue_flagsx _ _ _ _ ?_
            show flagsUpUv (cbor_get_assertion env s dev false millis
              ((s.datax.getD []).take s.lenx) true).sess.flagsx
            rw [hs]
            exact ih

/-! ## Calls that return success -/

theorem resolveCandidates_error (env : Env) (dev : Device) (up_ok : Bool) (p : Request)
    (rp_id_hash : Bytes) (e : Nat) (dev1 : Device)
    (h : resolveCandidates env dev up_ok p rp_id_hash = .error (e, dev1)) : e ≠ 0 := by
  by_cases h1 : checkPinUvAuthParam dev up_ok p = 0
  · cases hopt : checkOptions p with
    | error e2 =>
      unfold resolveCandidates at h
      simp only [h1, hopt, bne_self_eq_false, Bool.false_eq_true, if_false] at h
      cases h
      unfold checkOptions at hopt
      repeat' split at hopt
      all_goals first
        | (cases hopt; done)
        | (cases hopt; decide)
    | ok x =>
      obtain ⟨up, uv⟩ := x
      have main : ∀ flags0, checkPinUvAuthToken env dev p rp_id_hash = .ok flags0 → e ≠ 0 := by
        intro flags0 htok
        by_cases h2 : checkHmacSecret env p = 0
        · rw [resolveCandidates_after_checks env dev up_ok p rp_id_hash up uv _ h1 hopt
            htok h2] at h
          cases hl : lookupCandidates env dev p rp_id_hash with
          | error e3 =>
            rw [hl] at h
            cases h
            unfold lookupCandidates at hl
            split at hl
            · split at hl
              · rename_i e4 hla
                cases hl
                have : ∀ (l : List PublicKeyCredentialDescriptor) (cr : List Credential)
                    (n : Nat) (e5 : Nat),
                    loadAllowList env rp_id_hash l cr n = .error e5 → e5 ≠ 0 := by
                  intro l
                  induction l with
                  | nil => intro cr n e5 h5; cases h5
                  | cons d rest ih =>
                    intro cr n e5 h5
                    unfold loadAllowList at h5
                    dsimp only at h5
                    repeat' split at h5
                    all_goals first
                      | (cases h5; decide)
                      | exact ih _ _ _ h5
                exact this _ _ _ _ hla
              · cases hl
            · cases hl
          | ok x =>
            obtain ⟨cr, resident⟩ := x
            rw [hl] at h
            dsimp only at h
            split at h
            · cases h
              decide
            · cases hu : userPresence dev up_ok p flags0 with
              | error e3 =>
                rw [hu] at h
                cases h
                unfold userPresence at hu
                repeat' split at hu
                all_goals first
                  | (cases hu; done)
                  | (cases hu; decide)
              | ok y =>
                obtain ⟨flags1, dev2⟩ := y
                rw [hu] at h
                dsimp only at h
                split at h
                · cases h
                  decide
                · cases h
        · unfold resolveCandidates at h
          simp only [h1, hopt, htok, bne_self_eq_false, Bool.false_eq_true, if_false] at h
          have h3 : (checkHmacSecret env p != 0) = true := by simpa using h2
          rw [if_pos h3] at h
          cases h
          exact h2
      rcases checkPinUvAuthToken_cases env dev p rp_id_hash with ⟨_, htok⟩ | ⟨_, _, _, htok⟩ |
        ⟨_, _, _, _, _, _, htok⟩
      · exact main _ htok
      · unfold resolveCandidates at h
        simp only [h1, hopt, htok, bne_self_eq_false, Bool.false_eq_true, if_false] at h
        cases h
        decide
      · exact main _ htok
  · unfold resolveCandidates at h
    have h3 : (checkPinUvAuthParam dev up_ok p != 0) = true := by simpa using h1
    simp only [h3, if_true] at h
    cases h
    exact h1

/-- A call with `next == false` that returns zero: the request has parsed, lines
210-380 have resolved the candidates, and the assertion step, run on the first
candidate with the flags handed on, has returned zero and delivered the response
and the device state. -/
theorem cbor_get_assertion_first_success (env : Env) (s : Session) (dev : Device)
    (up_ok : Bool) (millis : Nat) (data : Bytes)
    (hperr : ∀ data e, env.cbor_parse data = .error e → e ≠ 0)
    (hret : (cbor_get_assertion env s dev up_ok millis data false).ret = 0) :
    ∃ p r, env.cbor_parse data = .ok p ∧ p.rpId.isSome = true ∧
      p.clientDataHash.isSome = true ∧
      resolveCandidates env dev up_ok p (env.mbedtls_sha256 (p.rpId.getD [])) = .ok r ∧
      (buildAssertion env r.dev p (env.mbedtls_sha256 (p.rpId.getD [])) false r.flags
        r.numberOfCredentials (r.creds.getD 0 Credential.zero)).1 = 0 ∧
      (cbor_get_assertion env s dev up_ok millis data false).resp =
        (buildAssertion env r.dev p (env.mbedtls_sha256 (p.rpId.getD [])) false r.flags
          r.numberOfCredentials (r.creds.getD 0 Credential.zero)).2.2 ∧
      (cbor_get_assertion env s dev up_ok millis data false).dev =
        (buildAssertion env r.dev p (env.mbedtls_sha256 (p.rpId.getD [])) false r.flags
          r.numberOfCredentials (r.creds.getD 0 Credential.zero)).2.1 := by
  cases hp : env.cbor_parse data with
  | error e =>
    exfalso
    unfold cbor_get_assertion at hret
    rw [hp] at hret
    exact hperr data e hp ((returnStatus_eq_zero e).1 hret)
  | ok p =>
    by_cases hm : p.rpId.isSome = true ∧ p.clientDataHash.isSome = true
    · rw [cbor_get_assertion_first env s dev up_ok millis data p hp hm.1 hm.2] at hret ⊢
      cases hr : resolveCandidates env dev up_ok p (env.mbedtls_sha256 (p.rpId.getD [])) with
      | error x =>
        obtain ⟨e, dev1⟩ := x
        exfalso
        rw [hr] at hret
        exact resolveCandidates_error env dev up_ok p _ e dev1 hr
          ((returnStatus_eq_zero e).1 hret)
      | ok r =>
        rw [hr] at hret
        exact ⟨p, r, rfl, hm.1, hm.2, hr, (returnStatus_eq_zero _).1 hret, rfl, rfl⟩
    · exfalso
      unfold cbor_get_assertion at hret
      have hm2 : (p.rpId.isNone || p.clientDataHash.isNone) = true := by
        cases h1 : p.rpId <;> cases h2 : p.clientDataHash <;> simp_all
      simp only [hp, hm2, if_true] at hret
      exact absurd hret (by decide)

/-- A call with `next == true` that returns zero: the request has parsed and the
assertion step, run on the candidate under the cursor with the flags of the
session, has returned zero and delivered the response and the device state. -/
theorem cbor_get_assertion_next_success (env : Env) (s : Session) (dev : Device)
    (up_ok : Bool) (millis : Nat) (data : Bytes)
    (hperr : ∀ data e, env.cbor_parse data = .error e → e ≠ 0)
    (hret : (cbor_get_assertion env s dev up_ok millis data true).ret = 0) :
    ∃ p, env.cbor_parse data = .ok p ∧ p.rpId.isSome = true ∧
      p.clientDataHash.isSome = true ∧
      (buildAssertion env dev p (env.mbedtls_sha256 (p.rpId.getD [])) true s.flagsx
        s.numberOfCredentialsx (s.credsx.getD s.credentialCounter Credential.zero)).1 = 0 ∧
      (cbor_get_assertion env s dev up_ok millis data true).resp =
        (buildAssertion env dev p (env.mbedtls_sha256 (p.rpId.getD [])) true s.flagsx
          s.numberOfCredentialsx (s.credsx.getD s.credentialCounter Credential.zero)).2.2 ∧
      (cbor_get_assertion env s dev up_ok millis data true).dev =
        (buildAssertion env dev p (env.mbedtls_sha256 (p.rpId.getD [])) true s.flagsx
          s.numberOfCredentialsx (s.credsx.getD s.credentialCounter Credential.zero)).2.1 := by
  cases hp : env.cbor_parse data with
  | error e =>
    exfalso
    unfold cbor_get_assertion at hret
    rw [hp] at hret
    exact hperr data e hp ((returnStatus_eq_zero e).1 hret)
  | ok p =>
    unfold cbor_get_assertion at hret ⊢
    by_cases hm2 : (p.rpId.isNone || p.clientDataHash.isNone) = true
    · exfalso
      simp only [hp, hm2, if_true] at hret
      exact absurd hret (by decide)
    · simp only [hp, hm2, Bool.false_eq_true, if_false, Bool.true_eq_false] at hret ⊢
      refine ⟨p, rfl, ?_, ?_, (returnStatus_eq_zero _).1 hret, rfl, rfl⟩
      · cases h1 : p.rpId <;> simp_all
      · cases h1 : p.clientDataHash <;> simp_all

/-- A GetNextAssertion call that returns zero has passed the two tests of lines
47-52 and answers with the response and the device state of the call of
`cbor_get_assertion` on the request held by the session, which returned zero. -/
theorem cbor_get_next_assertion_success (env : Env) (s : Session) (dev : Device)
    (millis millis2 : Nat) (data : Bytes)
    (hret : (cbor_get_next_assertion env s dev millis millis2 data).ret = 0) :
    (cbor_get_assertion env s dev false millis ((s.datax.getD []).take s.lenx) true).ret = 0 ∧
      (cbor_get_next_assertion env s dev millis millis2 data).resp =
        (cbor_get_assertion env s dev false millis ((s.datax.getD []).take s.lenx) true).resp ∧
      (cbor_get_next_assertion env s dev millis millis2 data).dev =
        (cbor_get_assertion env s dev false millis ((s.datax.getD []).take s.lenx) true).dev := by
  have he := fun s2 d => nextEpilogue_error CTAP2_ERR_NOT_ALLOWED s2 d none (by decide)
  unfold cbor_get_next_assertion at hret ⊢
  split at hret
  · exact absurd hret (he _ _).1
  · split at hret
    · exact absurd hret (he _ _).1
    · rename_i h1 h2
      rw [if_neg h1, if_neg h2]
      dsimp only at hret ⊢
      generalize cbor_get_assertion env s dev false millis
        ((s.datax.getD []).take s.lenx) true = o at hret ⊢
      by_cases h3 : o.ret = 0
      · have h4 : (o.ret != CborNoError) = false := by simpa [CborNoError] using h3
        rw [h4] at hret ⊢
        simp only [Bool.false_eq_true, if_false] at hret ⊢
        refine ⟨h3, ?_, ?_⟩
        · unfold nextEpilogue
          split <;> rfl
        · unfold nextEpilogue
          split <;> rfl
      · have h4 : (o.ret != CborNoError) = true := by simpa [CborNoError] using h3
        rw [h4] at hret
        simp only [if_true] at hret
        exact absurd hret (nextEpilogue_error o.ret o.sess o.dev none h3).1

/-! ## The assertion step: what a successful call has written -/

theorem hmacSecret_error (env : Env) (p : Request) (flags : Nat) (selcred : Credential)
    (e : Nat) (h : hmacSecret env p flags selcred = .error e) : e ≠ 0 := by
  unfold hmacSecret at h
  dsimp only at h
  repeat' split at h
  all_goals first
    | (cases h; done)
    | (cases h; decide)

theorem guard_shape {α : Type} (P : Except Nat α → Prop) (hP : ∀ e, e ≠ 0 → P (.error e))
    (c : Nat) (y : Except Nat α) (hy : P y) : P (if c != 0 then .error c else y) := by
  by_cases h : c = 0
  · simpa [h] using hy
  · simpa [h] using hP c h

theorem guard_and_shape {α : Type} (P : Except Nat α → Prop)
    (hP : ∀ e, e ≠ 0 → P (.error e)) (b : Bool) (c : Nat) (y : Except Nat α) (hy : P y) :
    P (if b && c != 0 then .error c else y) := by
  by_cases h : c = 0
  · simpa [h] using hy
  · cases b
    · simpa using hy
    · simpa [h] using hP c h

/-- The extension step either fails with a non-zero status, or, when the request has
an extensions map, delivers the bytes of the closed map and sets the
extension-data bit, or, when it has none, delivers no bytes and leaves the flags. -/
theorem buildExtensions_shape (env : Env) (p : Request) (flags : Nat) (selcred : Credential) :
    (∃ e, buildExtensions env p flags selcred = .error e ∧ e ≠ 0) ∨
    (p.extensions.present = true ∧ ∃ o,
      buildExtensions env p flags selcred
        = .ok (env.cbor_ext_buffer o, flags ||| FIDO2_AUT_FLAG_ED)) ∨
    (p.extensions.present = false ∧ buildExtensions env p flags selcred = .ok ([], flags)) := by
  cases hpres : p.extensions.present
  · refine Or.inr (Or.inr ⟨rfl, ?_⟩)
    unfold buildExtensions
    rw [hpres]
    rfl
  · obtain ⟨P, hPdef⟩ : ∃ P : Except Nat (Bytes × Nat) → Prop,
        P = fun x => (∃ e, x = .error e ∧ e ≠ 0) ∨
          ∃ o, x = .ok (env.cbor_ext_buffer o, flags ||| FIDO2_AUT_FLAG_ED) := ⟨_, rfl⟩
    obtain ⟨Q, hQdef⟩ : ∃ Q : Except Nat ExtOutput → Prop,
        Q = fun x => ∀ e, x = .error e → e ≠ 0 := ⟨_, rfl⟩
    have hP : ∀ e, e ≠ 0 → P (.error e) := by
      intro e he
      rw [hPdef]
      exact Or.inl ⟨e, rfl, he⟩
    have hPok : ∀ o, P (.ok (env.cbor_ext_buffer o, flags ||| FIDO2_AUT_FLAG_ED)) := by
      intro o
      rw [hPdef]
      exact Or.inr ⟨o, rfl⟩
    have hQ : ∀ e, e ≠ 0 → Q (.error e) := by
      intro e he
      rw [hQdef]
      intro e2 h2
      cases h2
      exact he
    have hQok : ∀ o, Q (.ok o) := by
      intro o
      rw [hQdef]
      intro e2 h2
      cases h2
    have key : P (buildExtensions env p flags selcred) := by
      unfold buildExtensions
      rw [hpres, if_pos (show ((true == true) = true) from rfl)]
      lift_lets
      intro hmac_secret l o0 o1 hm
      refine guard_shape P hP _ _ ?_
      refine guard_and_shape P hP _ _ _ ?_
      have hq : Q hm := by
        show Q (if hmac_secret != none then _ else _)
        split
        · refine guard_shape Q hQ _ _ ?_
          cases hh : hmacSecret env p flags selcred with
          | error e2 => exact hQ e2 (hmacSecret_error env p flags selcred _ hh)
          | ok hmac_res => exact guard_shape Q hQ _ _ (hQok _)
        · exact hQok o1
      clear_value hm
      cases hm with
      | error e =>
        rw [hQdef] at hq
        exact hP e (hq e rfl)
      | ok o2 =>
        refine guard_and_shape P hP _ _ _ ?_
        exact guard_shape P hP _ _ (hPok _)
    rw [hPdef] at key
    rcases key with h | ⟨o, ho⟩
    · exact Or.inl h
    · exact Or.inr (Or.inl ⟨rfl, o, ho⟩)

/-- The assertion step returns zero exactly when it delivers a response; it then
has loaded a signing key and built the extensions, the authenticator data is made
of the hash, the flags, the counter read before and the extension bytes, the
signature is made over the digest of the authenticator data followed by the client
data hash, and the counter file holds the counter plus one. A failing step leaves
the device as it was. -/
theorem buildAssertion_cases (env : Env) (dev : Device) (p : Request) (rp_id_hash : Bytes)
    (next : Bool) (flags n : Nat) (selcred : Credential) :
    ((buildAssertion env dev p rp_id_hash next flags n selcred).1 ≠ 0 ∧
      (buildAssertion env dev p rp_id_hash next flags n selcred).2.1 = dev ∧
      (buildAssertion env dev p rp_id_hash next flags n selcred).2.2 = none) ∨
    ((buildAssertion env dev p rp_id_hash next flags n selcred).1 = 0 ∧
      ∃ ekey ext flags1 r,
        loadSigningKey env dev rp_id_hash selcred = some ekey ∧
        buildExtensions env p flags selcred = .ok (ext, flags1) ∧
        (buildAssertion env dev p rp_id_hash next flags n selcred).2.2 = some r ∧
        r.authData = authenticatorData rp_id_hash flags1 (get_sign_counter dev) ext ∧
        r.signature = (env.mbedtls_ecdsa_write_signature ekey (signingDigest ekey)
          (env.mbedtls_md (signingDigest ekey)
            (r.authData ++ p.clientDataHash.getD [])).2).2 ∧
        r.credential_id = selcred.id ∧
        (buildAssertion env dev p rp_id_hash next flags n selcred).2.1
          = { dev with ef_counter := u32le ((get_sign_counter dev + 1) % 2 ^ 32) }) := by
  unfold buildAssertion
  cases hkey : loadSigningKey env dev rp_id_hash selcred with
  | none => exact Or.inl ⟨show CTAP1_ERR_OTHER ≠ 0 by decide, rfl, rfl⟩
  | some ekey =>
    dsimp only
    split
    · exact Or.inl ⟨show CTAP2_ERR_PROCESSING ≠ 0 by decide, rfl, rfl⟩
    · rcases buildExtensions_shape env p flags selcred with ⟨e, he, hne⟩ | ⟨_, o, ho⟩ | ⟨_, ho⟩
      · rw [he]
        exact Or.inl ⟨hne, rfl, rfl⟩
      · rw [ho]
        dsimp only
        split
        · rename_i h
          exact Or.inl ⟨by simpa using h, rfl, rfl⟩
        · exact Or.inr ⟨rfl, ekey, _, _, _, rfl, rfl, rfl, rfl, rfl, rfl, rfl⟩
      · rw [ho]
        dsimp only
        split
        · rename_i h
          exact Or.inl ⟨by simpa using h, rfl, rfl⟩
        · exact Or.inr ⟨rfl, ekey, _, _, _, rfl, rfl, rfl, rfl, rfl, rfl, rfl⟩

/-! ## The layout of authenticator data and the signature counter -/

theorem authenticatorData_eq (h : Bytes) (f c : Nat) (ext : Bytes) :
    authenticatorData h f c ext = h.take 32 ++ [f % 256] ++ be32 c ++ ext := by
  unfold authenticatorData be32
  rw [Nat.shiftRight_eq_div_pow, Nat.shiftRight_eq_div_pow,
    Nat.shiftRight_eq_div_pow, show (0xff : Nat) = 2 ^ 8 - 1 from rfl,
    Nat.and_pow_two_sub_one_eq_mod]
  simp

theorem layout_fields (h : Bytes) (f c : Nat) (ext : Bytes) (hh : h.length = 32)
    (hc : c < 2 ^ 32) :
    flagsOf (h ++ [f] ++ be32 c ++ ext) = f ∧
      signCountOf (h ++ [f] ++ be32 c ++ ext) = c ∧
      extensionsOf (h ++ [f] ++ be32 c ++ ext) = ext ∧
      (h ++ [f] ++ be32 c ++ ext).length = 37 + ext.length := by
  have e1 : h ++ [f] ++ be32 c ++ ext = h ++ (f :: (be32 c ++ ext)) := by simp
  refine ⟨?_, ?_, ?_, ?_⟩
  · unfold flagsOf
    rw [e1, List.getD_append_right _ _ _ _ (by omega), hh]
    rfl
  · unfold signCountOf
    have e2 : h ++ [f] ++ be32 c ++ ext = (h ++ [f]) ++ (be32 c ++ ext) := by simp
    rw [e2, List.drop_append_of_le_length (by simp [hh])]
    have e3 : List.drop 33 (h ++ [f]) = [] := List.drop_eq_nil_of_le (by simp [hh])
    rw [e3, List.nil_append]
    unfold be32 ofBE32
    simp only [List.cons_append, List.nil_append, List.take_succ_cons, List.take_zero,
      List.getD_cons_zero, List.getD_cons_succ]
    omega
  · unfold extensionsOf
    have e2 : h ++ [f] ++ be32 c ++ ext = (h ++ [f] ++ be32 c) ++ ext := by simp
    rw [e2, List.drop_append_of_le_length (by simp [hh, be32])]
    have e3 : List.drop 37 (h ++ [f] ++ be32 c) = [] :=
      List.drop_eq_nil_of_le (by simp [hh, be32])
    rw [e3, List.nil_append]
  · simp [hh, be32]
    omega

theorem get_sign_counter_lt (dev : Device) : get_sign_counter dev < 2 ^ 32 := by
  unfold get_sign_counter
  exact Nat.mod_lt _ (by decide)

theorem or_shift_eq_add (b0 b1 b2 b3 : Nat) (h0 : b0 < 256) (h1 : b1 < 256) (h2 : b2 < 256) :
    b0 ||| (b1 <<< 8) ||| (b2 <<< 16) ||| (b3 <<< 24)
      = b0 + 2 ^ 8 * b1 + 2 ^ 16 * b2 + 2 ^ 24 * b3 := by
  rw [Nat.shiftLeft_eq, Nat.shiftLeft_eq, Nat.shiftLeft_eq]
  have e1 : b0 ||| b1 * 2 ^ 8 = 2 ^ 8 * b1 + b0 := by
    rw [Nat.or_comm, Nat.mul_comm b1]
    exact (Nat.mul_add_lt_is_or (by omega) b1).symm
  have e2 : (2 ^ 8 * b1 + b0) ||| b2 * 2 ^ 16 = 2 ^ 16 * b2 + (2 ^ 8 * b1 + b0) := by
    rw [Nat.or_comm, Nat.mul_comm b2]
    exact (Nat.mul_add_lt_is_or (by omega) b2).symm
  have e3 : (2 ^ 16 * b2 + (2 ^ 8 * b1 + b0)) ||| b3 * 2 ^ 24
      = 2 ^ 24 * b3 + (2 ^ 16 * b2 + (2 ^ 8 * b1 + b0)) := by
    rw [Nat.or_comm, Nat.mul_comm b3]
    exact (Nat.mul_add_lt_is_or (by omega) b3).symm
  rw [e1, e2, e3]
  omega

/-- Reading the counter file after `flash_write_data_to_file(ef_counter, &ctr, 4)`
gives the value written. -/
theorem get_sign_counter_written (dev : Device) (v : Nat) (hv : v < 2 ^ 32) :
    get_sign_counter { dev with ef_counter := u32le v } = v := by
  unfold get_sign_counter u32le
  simp only [List.getD_cons_zero, List.getD_cons_succ]
  rw [or_shift_eq_add _ _ _ _ (Nat.mod_lt _ (by decide)) (Nat.mod_lt _ (by decide))
    (Nat.mod_lt _ (by decide))]
  omega

/-- What the assertion step has written when it returns zero, given the contracts of
the codec: the response, the counter file, and authenticator data made of the hash,
the low byte of the flags, the counter read before and the extension bytes. -/
theorem buildAssertion_layout (env : Env) (dev : Device) (p : Request) (next : Bool)
    (flags n : Nat) (selcred : Credential) (hc : CodecContracts env)
    (hb : (buildAssertion env dev p (env.mbedtls_sha256 (p.rpId.getD [])) next flags n
      selcred).1 = 0) :
    ∃ r ekey f ext,
      (buildAssertion env dev p (env.mbedtls_sha256 (p.rpId.getD [])) next flags n
        selcred).2.2 = some r ∧
      (buildAssertion env dev p (env.mbedtls_sha256 (p.rpId.getD [])) next flags n
        selcred).2.1 = { dev with ef_counter := u32le ((get_sign_counter dev + 1) % 2 ^ 32) } ∧
      r.authData = env.mbedtls_sha256 (p.rpId.getD []) ++ [f % 256]
        ++ be32 (get_sign_counter dev) ++ ext ∧
      (f = flags ∧ ext = [] ∧ p.extensions.present = false ∨
        f = flags ||| FIDO2_AUT_FLAG_ED ∧ ext ≠ [] ∧ p.extensions.present = true ∧
          ∃ o, ext = env.cbor_ext_buffer o) ∧
      r.signature = (env.mbedtls_ecdsa_write_signature ekey (signingDigest ekey)
        (env.mbedtls_md (signingDigest ekey) (r.authData ++ p.clientDataHash.getD [])).2).2 := by
  rcases buildAssertion_cases env dev p (env.mbedtls_sha256 (p.rpId.getD [])) next flags n
    selcred with ⟨hne, _⟩ | ⟨_, ekey, ext, flags1, r, _, hext, hr, had, hsig, _, hdev⟩
  · exact absurd hb hne
  · have h32 : (env.mbedtls_sha256 (p.rpId.getD [])).take 32
        = env.mbedtls_sha256 (p.rpId.getD []) :=
      List.take_of_length_le (by rw [hc.sha256_length])
    rcases buildExtensions_shape env p flags selcred with ⟨e, he, _⟩ | ⟨hp, o, ho⟩ | ⟨hp, ho⟩
    · rw [he] at hext
      cases hext
    · rw [ho] at hext
      cases hext
      refine ⟨r, ekey, flags ||| FIDO2_AUT_FLAG_ED, env.cbor_ext_buffer o, hr, hdev, ?_,
        Or.inr ⟨rfl, hc.ext_nonempty o, hp, o, rfl⟩, hsig⟩
      rw [had, authenticatorData_eq, h32]
    · rw [ho] at hext
      cases hext
      refine ⟨r, ekey, flags, [], hr, hdev, ?_, Or.inl ⟨rfl, rfl, hp⟩, hsig⟩
      rw [had, authenticatorData_eq, h32]

/-- A call that returns zero, made in a state that calls can reach: the request has
parsed and the assertion step has returned zero on a device whose counter is the one
before the call, with flags among the user-presence and user-verification bits. -/
theorem call_success (env : Env) (s : Session) (dev : Device) (c : Call)
    (hperr : ∀ data e, env.cbor_parse data = .error e → e ≠ 0)
    (hret : (c.run env s dev).ret = 0) :
    ∃ p dev0 next flags n selcred,
      env.cbor_parse (c.bytes s) = .ok p ∧
      get_sign_counter dev0 = get_sign_counter dev ∧
      (flags = s.flagsx ∨ flagsUpUv flags) ∧
      (buildAssertion env dev0 p (env.mbedtls_sha256 (p.rpId.getD [])) next flags n
        selcred).1 = 0 ∧
      (c.run env s dev).resp =
        (buildAssertion env dev0 p (env.mbedtls_sha256 (p.rpId.getD [])) next flags n
          selcred).2.2 ∧
      (c.run env s dev).dev =
        (buildAssertion env dev0 p (env.mbedtls_sha256 (p.rpId.getD [])) next flags n
          selcred).2.1 := by
  cases c with
  | getAssertion up_ok millis data =>
    obtain ⟨p, r, hp, _, _, hr, hb, hresp, hdev⟩ :=
      cbor_get_assertion_first_success env s dev up_ok millis data hperr hret
    exact ⟨p, r.dev, false, r.flags, r.numberOfCredentials, r.creds.getD 0 Credential.zero, hp,
      (resolveCandidates_flags env dev up_ok p _ r hr).choose_spec.2.2.2,
      Or.inr (resolveCandidates_flags_range env dev up_ok p _ r hr), hb, hresp, hdev⟩
  | getNextAssertion millis millis2 data =>
    obtain ⟨h0, hresp, hdev⟩ := cbor_get_next_assertion_success env s dev millis millis2 data hret
    obtain ⟨p, hp, _, _, hb, hresp2, hdev2⟩ :=
      cbor_get_assertion_next_success env s dev false millis _ hperr h0
    exact ⟨p, dev, true, s.flagsx, s.numberOfCredentialsx,
      s.credsx.getD s.credentialCounter Credential.zero, hp, rfl, Or.inl rfl, hb,
      hresp.trans hresp2, hdev.trans hdev2⟩

/-- The extension step on a request with an extensions map, when it succeeds: the
extension-data bit is set and the bytes are those of the closed map whose entries are
written by lines 444-532: the number of entries announced, the credBlob of the
selected credential when the request asks for it, the output of the hmac-secret
sub-protocol (as many bytes as `salt_enc` has) when hmac-secret is requested, and the
thirdPartyPayment mark of the credential when the request names that extension. -/
theorem buildExtensions_output (env : Env) (p : Request) (flags : Nat) (selcred : Credential)
    (ext : Bytes) (flags1 : Nat) (hp : p.extensions.present = true)
    (h : buildExtensions env p flags selcred = .ok (ext, flags1)) :
    flags1 = flags ||| FIDO2_AUT_FLAG_ED ∧
      ∃ o : ExtOutput, ext = env.cbor_ext_buffer o ∧
        o.l = extensionCount p ∧
        o.credBlob = (if p.credBlob = some true then
          some (selcred.extensions.credBlob.getD []) else none) ∧
        o.thirdPartyPayment = (if p.extensions.thirdPartyPayment = none then none
          else some (selcred.extensions.thirdPartyPayment == some true)) ∧
        (hmacRequested p = false → o.hmac_secret = none) ∧
        (hmacRequested p = true → ∃ hmac_res, hmacSecret env p flags selcred = .ok hmac_res ∧
          o.hmac_secret = some (hmac_res.take (p.salt_enc.getD []).length)) := by
  obtain ⟨G, hGdef⟩ : ∃ G : ExtOutput → Prop,
      G = fun o => o.l = extensionCount p ∧
        o.credBlob = (if p.credBlob = some true then
          some (selcred.extensions.credBlob.getD []) else none) ∧
        (hmacRequested p = false → o.hmac_secret = none) ∧
        (hmacRequested p = true → ∃ hmac_res, hmacSecret env p flags selcred = .ok hmac_res ∧
          o.hmac_secret = some (hmac_res.take (p.salt_enc.getD []).length)) := ⟨_, rfl⟩
  obtain ⟨P, hPdef⟩ : ∃ P : Except Nat (Bytes × Nat) → Prop,
      P = fun x => ∀ ext flags1, x = .ok (ext, flags1) →
        flags1 = flags ||| FIDO2_AUT_FLAG_ED ∧
        ∃ o : ExtOutput, ext = env.cbor_ext_buffer o ∧ G o ∧
          o.thirdPartyPayment = (if p.extensions.thirdPartyPayment = none then none
            else some (selcred.extensions.thirdPartyPayment == some true)) := ⟨_, rfl⟩
  obtain ⟨Q, hQdef⟩ : ∃ Q : Except Nat ExtOutput → Prop,
      Q = fun x => ∀ o2, x = .ok o2 → G o2 ∧ o2.thirdPartyPayment = none := ⟨_, rfl⟩
  have hP : ∀ e, e ≠ 0 → P (.error e) := by
    intro e _
    rw [hPdef]
    intro _ _ h2
    cases h2
  have hQ : ∀ e, e ≠ 0 → Q (.error e) := by
    intro e _
    rw [hQdef]
    intro _ h2
    cases h2
  have key : P (buildExtensions env p flags selcred) := by
    unfold buildExtensions
    rw [hp, if_pos (show ((true == true) = true) from rfl)]
    lift_lets
    intro hmac_secret l o0 o1 hm
    have hl : l = extensionCount p := rfl
    have ho1 : o1.l = extensionCount p ∧
        o1.credBlob = (if p.credBlob = some true then
          some (selcred.extensions.credBlob.getD []) else none) ∧
        o1.hmac_secret = none ∧ o1.thirdPartyPayment = none := by
      show (if p.credBlob == some true then _ else o0).l = _ ∧
        (if p.credBlob == some true then _ else o0).credBlob = _ ∧
        (if p.credBlob == some true then _ else o0).hmac_secret = _ ∧
        (if p.credBlob == some true then _ else o0).thirdPartyPayment = _
      by_cases hcb : p.credBlob = some true
      · rw [if_pos (by simp [hcb]), if_pos hcb]
        exact ⟨hl, rfl, rfl, rfl⟩
      · rw [if_neg (by simp [hcb]), if_neg hcb]
        exact ⟨hl, rfl, rfl, rfl⟩
    refine guard_shape P hP _ _ ?_
    refine guard_and_shape P hP _ _ _ ?_
    have hq : Q hm := by
      show Q (if hmac_secret != none then _ else _)
      split
      · rename_i hreq
        have hreq2 : hmacRequested p = true := hreq
        refine guard_shape Q hQ _ _ ?_
        cases hh : hmacSecret env p flags selcred with
        | error e2 => exact hQ e2 (hmacSecret_error env p flags selcred _ hh)
        | ok hmac_res =>
          refine guard_shape Q hQ _ _ ?_
          rw [hQdef]
          intro o2 ho2
          cases ho2
          rw [hGdef]
          refine ⟨⟨ho1.1, ho1.2.1, ?_, ?_⟩, ho1.2.2.2⟩
          · intro hno
            rw [hreq2] at hno
            cases hno
          · intro _
            exact ⟨hmac_res, hh, rfl⟩
      · rename_i hreq
        have hreq2 : hmacRequested p = false := by
          have : hmacRequested p = (hmac_secret != none) := rfl
          rw [this]
          simpa using hreq
        rw [hQdef]
        intro o2 ho2
        cases ho2
        rw [hGdef]
        refine ⟨⟨ho1.1, ho1.2.1, ?_, ?_⟩, ho1.2.2.2⟩
        · intro _
          exact ho1.2.2.1
        · intro hyes
          rw [hreq2] at hyes
          cases hyes
    clear_value hm
    cases hm with
    | error e =>
      rw [hPdef]
      intro _ _ h2
      cases h2
    | ok o2 =>
      rw [hQdef] at hq
      obtain ⟨hg, htp⟩ := hq o2 rfl
      refine guard_and_shape P hP _ _ _ ?_
      refine guard_shape P hP _ _ ?_
      rw [hPdef]
      intro ext2 flags2 h2
      cases h2
      by_cases htpp : (p.extensions.thirdPartyPayment != none) = true
      · have hne : ¬ p.extensions.thirdPartyPayment = none := by simpa using htpp
        refine ⟨rfl, _, rfl, ?_, ?_⟩
        · rw [if_pos htpp]
          rw [hGdef] at hg ⊢
          exact hg
        · rw [if_pos htpp, if_neg hne]
      · have hne : p.extensions.thirdPartyPayment = none := by simpa using htpp
        refine ⟨rfl, _, rfl, ?_, ?_⟩
        · rw [if_neg htpp]
          exact hg
        · rw [if_neg htpp, if_pos hne]
          exact htp
  rw [hPdef] at key
  obtain ⟨hf, o, ho, hg, htp⟩ := key ext flags1 h
  rw [hGdef] at hg
  exact ⟨hf, o, ho, hg.1, hg.2.1, htp, hg.2.2.1, hg.2.2.2⟩

/-- What an assertion step that returns zero has written, given the contracts of the
codec, for flags among the user-presence and user-verification bits: the layout of
the authenticator data, its flags byte, its extension bytes, which are the bytes that
the extension step returns, and the signature. -/
theorem step_layout (env : Env) (dev dev0 : Device) (p : Request) (next : Bool)
    (flags n : Nat) (selcred : Credential) (hc : CodecContracts env)
    (hctr : get_sign_counter dev0 = get_sign_counter dev) (hf : flagsUpUv flags)
    (hb : (buildAssertion env dev0 p (env.mbedtls_sha256 (p.rpId.getD [])) next flags n
      selcred).1 = 0) :
    ∃ r, (buildAssertion env dev0 p (env.mbedtls_sha256 (p.rpId.getD [])) next flags n
        selcred).2.2 = some r ∧
      r.authData = env.mbedtls_sha256 (p.rpId.getD []) ++ [flagsOf r.authData]
        ++ be32 (get_sign_counter dev) ++ extensionsOf r.authData ∧
      r.authData.length = 37 + (extensionsOf r.authData).length ∧
      flagsOf r.authData < 256 ∧
      flagsOf r.authData &&&
        (0xFF - (FIDO2_AUT_FLAG_UP + FIDO2_AUT_FLAG_UV + FIDO2_AUT_FLAG_ED)) = 0 ∧
      (flagsOf r.authData &&& FIDO2_AUT_FLAG_ED ≠ 0 ↔ 0 < (extensionsOf r.authData).length) ∧
      (0 < (extensionsOf r.authData).length ↔ p.extensions.present = true) ∧
      (∃ ekey, r.signature = (env.mbedtls_ecdsa_write_signature ekey (signingDigest ekey)
        (env.mbedtls_md (signingDigest ekey) (r.authData ++ p.clientDataHash.getD [])).2).2) ∧
      ∃ ext flags1, buildExtensions env p flags selcred = .ok (ext, flags1) ∧
        extensionsOf r.authData = ext ∧ flagsOf r.authData = flags1 ∧
        (p.extensions.present = false → ext = [] ∧ flags1 = flags) ∧
        (p.extensions.present = true → flags1 = flags ||| FIDO2_AUT_FLAG_ED ∧
          ∃ o : ExtOutput, ext = env.cbor_ext_buffer o ∧
            o.l = extensionCount p ∧
            o.credBlob = (if p.credBlob = some true then
              some (selcred.extensions.credBlob.getD []) else none) ∧
            o.thirdPartyPayment = (if p.extensions.thirdPartyPayment = none then none
              else some (selcred.extensions.thirdPartyPayment == some true)) ∧
            (hmacRequested p = false → o.hmac_secret = none) ∧
            (hmacRequested p = true →
              ∃ hmac_res, hmacSecret env p flags selcred = .ok hmac_res ∧
                o.hmac_secret = some (hmac_res.take (p.salt_enc.getD []).length))) := by
  rcases buildAssertion_cases env dev0 p (env.mbedtls_sha256 (p.rpId.getD [])) next flags n
    selcred with ⟨hne, _⟩ | ⟨_, ekey, ext, flags1, r, _, hext, hr, had, hsig, _, _⟩
  · exact absurd hb hne
  · have h32 : (env.mbedtls_sha256 (p.rpId.getD [])).take 32
        = env.mbedtls_sha256 (p.rpId.getD []) :=
      List.take_of_length_le (by rw [hc.sha256_length])
    rw [authenticatorData_eq, h32, hctr] at had
    have hshape : (flags1 = flags ∧ ext = [] ∧ p.extensions.present = false) ∨
        (flags1 = flags ||| FIDO2_AUT_FLAG_ED ∧ ext ≠ [] ∧ p.extensions.present = true) := by
      rcases buildExtensions_shape env p flags selcred with ⟨e, he, _⟩ | ⟨hp, o, ho⟩ | ⟨hp, ho⟩
      · rw [he] at hext
        cases hext
      · rw [ho] at hext
        cases hext
        exact Or.inr ⟨rfl, hc.ext_nonempty o, hp⟩
      · rw [ho] at hext
        cases hext
        exact Or.inl ⟨rfl, rfl, hp⟩
    have hmod : flags1 % 256 = flags1 := by
      rcases hshape with ⟨h1, _⟩ | ⟨h1, _⟩ <;> rcases hf with h | h | h | h <;>
        rw [h1, h] <;> decide
    rw [hmod] at had
    obtain ⟨l1, _, l3, l4⟩ := layout_fields (env.mbedtls_sha256 (p.rpId.getD [])) flags1
      (get_sign_counter dev) ext (hc.sha256_length _) (get_sign_counter_lt dev)
    rw [← had] at l1 l3 l4
    refine ⟨r, hr, ?_, ?_, ?_, ?_, ?_, ?_, ⟨ekey, hsig⟩, ext, flags1, hext, l3, l1, ?_, ?_⟩
    · rw [l1, l3]
      exact had
    · rw [l3]
      exact l4
    · rw [l1]
      rcases hshape with ⟨h1, _⟩ | ⟨h1, _⟩ <;> rcases hf with h | h | h | h <;>
        rw [h1, h] <;> decide
    · rw [l1]
      rcases hshape with ⟨h1, _⟩ | ⟨h1, _⟩ <;> rcases hf with h | h | h | h <;>
        rw [h1, h] <;> decide
    · rw [l1, l3]
      rcases hshape with ⟨h1, h2, _⟩ | ⟨h1, h2, _⟩
      · rw [h1, h2]
        rcases hf with h | h | h | h <;> rw [h] <;> decide
      · have hpos : 0 < ext.length := List.length_pos.mpr h2
        rw [h1]
        rcases hf with h | h | h | h <;> rw [h] <;> simp [hpos] <;> decide
    · rw [l3]
      rcases hshape with ⟨_, h2, h3⟩ | ⟨_, h2, h3⟩
      · rw [h2, h3]
        simp
      · have hpos : 0 < ext.length := List.length_pos.mpr h2
        simp [hpos, h3]
    · intro hp
      rcases hshape with ⟨h1, h2, _⟩ | ⟨_, _, h3⟩
      · exact ⟨h2, h1⟩
      · rw [hp] at h3
        cases h3
    · intro hp
      exact buildExtensions_output env p flags selcred ext flags1 hp hext

/-- C19. Every GetAssertion or GetNextAssertion call that returns success, made in a
state of the session globals that calls can reach, under the contracts of the codec
(a non-zero status on a parse failure, a 32-byte hash, a closed map of at least one
byte): the request has parsed and the authenticator data of the response is
SHA-256(rpId) followed by the flags byte, by the four big-endian bytes of the
signature counter read before the call and by the extension bytes, 37 bytes plus
the extension bytes in all; the flags byte has no bit other than 0x01, 0x04 and
0x80; bit 0x80 is set exactly when there are extension bytes, which is when the
request has an extensions map; and the signature is made over the digest of the
authenticator data followed by `clientDataHash`. The extension bytes are the bytes
that the extension step of lines 427-535 returns for the selected credential (the
first resolved candidate for GetAssertion, the one under the cursor for
GetNextAssertion) and the flags handed on, and the flags byte is the flags that this
step returns: without an extensions map no bytes and the flags as they were; with one,
the extension-data bit added and the bytes of the closed map that announces the
number of requested entries and holds the credBlob of the credential, the output of
the hmac-secret sub-protocol and the thirdPartyPayment mark of the credential, each
when requested. -/
theorem authenticator_data_layout (env : Env) (s : Session) (dev : Device) (c : Call)
    (hc : CodecContracts env) (hreach : Reachable env s)
    (hret : (c.run env s dev).ret = 0) :
    ∃ p r, env.cbor_parse (c.bytes s) = .ok p ∧ (c.run env s dev).resp = some r ∧
      r.authData = env.mbedtls_sha256 (p.rpId.getD []) ++ [flagsOf r.authData]
        ++ be32 (get_sign_counter dev) ++ extensionsOf r.authData ∧
      (env.mbedtls_sha256 (p.rpId.getD [])).length = 32 ∧
      r.authData.length = 37 + (extensionsOf r.authData).length ∧
      flagsOf r.authData < 256 ∧
      flagsOf r.authData &&&
        (0xFF - (FIDO2_AUT_FLAG_UP + FIDO2_AUT_FLAG_UV + FIDO2_AUT_FLAG_ED)) = 0 ∧
      (flagsOf r.authData &&& FIDO2_AUT_FLAG_ED ≠ 0 ↔ 0 < (extensionsOf r.authData).length) ∧
      (0 < (extensionsOf r.authData).length ↔ p.extensions.present = true) ∧
      (∃ ekey, r.signature = (env.mbedtls_ecdsa_write_signature ekey (signingDigest ekey)
        (env.mbedtls_md (signingDigest ekey) (r.authData ++ p.clientDataHash.getD [])).2).2) ∧
      ∃ selcred flags ext flags1,
        (∀ up_ok millis data, c = .getAssertion up_ok millis data →
          ∃ rc, resolveCandidates env dev up_ok p (env.mbedtls_sha256 (p.rpId.getD []))
              = .ok rc ∧
            selcred = rc.creds.getD 0 Credential.zero ∧ flags = rc.flags) ∧
        (∀ millis millis2 data, c = .getNextAssertion millis millis2 data →
          selcred = s.credsx.getD s.credentialCounter Credential.zero ∧ flags = s.flagsx) ∧
        buildExtensions env p flags selcred = .ok (ext, flags1) ∧
        extensionsOf r.authData = ext ∧ flagsOf r.authData = flags1 ∧
        (p.extensions.present = false → ext = [] ∧ flags1 = flags) ∧
        (p.extensions.present = true → flags1 = flags ||| FIDO2_AUT_FLAG_ED ∧
          ∃ o : ExtOutput, ext = env.cbor_ext_buffer o ∧
            o.l = extensionCount p ∧
            o.credBlob = (if p.credBlob = some true then
              some (selcred.extensions.credBlob.getD []) else none) ∧
            o.thirdPartyPayment = (if p.extensions.thirdPartyPayment = none then none
              else some (selcred.extensions.thirdPartyPayment == some true)) ∧
            (hmacRequested p = false → o.hmac_secret = none) ∧
            (hmacRequested p = true →
              ∃ hmac_res, hmacSecret env p flags selcred = .ok hmac_res ∧
                o.hmac_secret = some (hmac_res.take (p.salt_enc.getD []).length))) := by
  cases c with
  | getAssertion up_ok millis data =>
    obtain ⟨p, rc, hp, _, _, hr, hb, hresp, _⟩ :=
      cbor_get_assertion_first_success env s dev up_ok millis data hc.parse_error hret
    obtain ⟨r, hr2, a1, a2, a3, a4, a5, a6, a7, ext, flags1, e1, e2, e3, e4, e5⟩ :=
      step_layout env dev rc.dev p false rc.flags rc.numberOfCredentials
        (rc.creds.getD 0 Credential.zero) hc
        (resolveCandidates_flags env dev up_ok p _ rc hr).choose_spec.2.2.2
        (resolveCandidates_flags_range env dev up_ok p _ rc hr) hb
    refine ⟨p, r, hp, hresp.trans hr2, a1, hc.sha256_length _, a2, a3, a4, a5, a6, a7,
      rc.creds.getD 0 Credential.zero, rc.flags, ext, flags1, ?_, ?_, e1, e2, e3, e4, e5⟩
    · intro _ _ _ he
      cases he
      exact ⟨rc, hr, rfl, rfl⟩
    · intro _ _ _ he
      cases he
  | getNextAssertion millis millis2 data =>
    obtain ⟨h1, hresp1, _⟩ := cbor_get_next_assertion_success env s dev millis millis2 data hret
    obtain ⟨p, hp, _, _, hb, hresp, _⟩ :=
      cbor_get_assertion_next_success env s dev false millis _ hc.parse_error h1
    obtain ⟨r, hr2, a1, a2, a3, a4, a5, a6, a7, ext, flags1, e1, e2, e3, e4, e5⟩ :=
      step_layout env dev dev p true s.flagsx s.numberOfCredentialsx
        (s.credsx.getD s.credentialCounter Credential.zero) hc rfl
        (reachable_flagsx env s hreach) hb
    refine ⟨p, r, hp, (hresp1.trans hresp).trans hr2, a1, hc.sha256_length _, a2, a3, a4, a5,
      a6, a7, s.credsx.getD s.credentialCounter Credential.zero, s.flagsx, ext, flags1, ?_, ?_,
      e1, e2, e3, e4, e5⟩
    · intro _ _ _ he
      cases he
    · intro _ _ _ he
      cases he
      exact ⟨rfl, rfl⟩

theorem exampleEnv_contracts : CodecContracts exampleEnv where
  parse_error := by
    intro data e h
    unfold exampleEnv at h
    dsimp only at h
    split at h
    · cases h
      decide
    · cases h
  sha256_length := by
    intro b
    simp [exampleEnv]
  ext_nonempty := by
    intro o
    simp [exampleEnv]

theorem extEnv_contracts : CodecContracts extEnv where
  parse_error := by
    intro data e h
    cases h
  sha256_length := exampleEnv_contracts.sha256_length
  ext_nonempty := by
    intro o
    simp [extEnv]

/-- Witness of C19: the first GetNextAssertion of the example session; its
authenticator data is the padded relying-party identifier, the flags byte 0x01, the
counter 1 and no extension bytes. And a GetAssertion that asks for the credBlob and
thirdPartyPayment extensions: its authenticator data ends with the flags byte 0x81,
the counter 0 and the bytes of the extension map with its two entries, which are the
bytes that the extension step returns. -/
theorem authenticator_data_layout_witness :
    (Call.run exampleEnv (exampleFirst 0).sess (exampleFirst 0).dev
        (Call.getNextAssertion 20000 20000 [])).ret = 0 ∧
      (Call.run exampleEnv (exampleFirst 0).sess (exampleFirst 0).dev
        (Call.getNextAssertion 20000 20000 [])).resp.map (fun r => r.authData)
        = some ((1 :: List.replicate 31 0) ++ [1] ++ [0, 0, 0, 1]) ∧
      (∃ p r, exampleEnv.cbor_parse
          ((Call.getNextAssertion 20000 20000 []).bytes (exampleFirst 0).sess) = .ok p ∧
        (Call.run exampleEnv (exampleFirst 0).sess (exampleFirst 0).dev
          (Call.getNextAssertion 20000 20000 [])).resp = some r ∧
        r.authData.length = 37 + (extensionsOf r.authData).length) ∧
      (Call.run extEnv (Session.initial extEnv) exampleDevice
        (Call.getAssertion true 0 [2])).ret = 0 ∧
      (Call.run extEnv (Session.initial extEnv) exampleDevice
        (Call.getAssertion true 0 [2])).resp.map (fun r => r.authData)
        = some ((2 :: List.replicate 31 0) ++ [0x81] ++ [0, 0, 0, 0]
            ++ [0xA2, 0x42, 7, 7, 0xF5]) ∧
      ∃ p r selcred flags ext flags1,
        (Call.run extEnv (Session.initial extEnv) exampleDevice
          (Call.getAssertion true 0 [2])).resp = some r ∧
        buildExtensions extEnv p flags selcred = .ok (ext, flags1) ∧
        extensionsOf r.authData = ext ∧ flagsOf r.authData = flags1 :=
  ⟨by decide, by decide,
    (authenticator_data_layout exampleEnv (exampleFirst 0).sess (exampleFirst 0).dev
      (Call.getNextAssertion 20000 20000 []) exampleEnv_contracts
      (Reachable.call (Session.initial exampleEnv) exampleDevice
        (Call.getAssertion true 0 [1]) Reachable.initial) (by decide)).elim
      (fun p hp => hp.elim (fun r hr => ⟨p, r, hr.1, hr.2.1, hr.2.2.2.2.1⟩)),
    by decide, by decide,
    (authenticator_data_layout extEnv (Session.initial extEnv) exampleDevice
      (Call.getAssertion true 0 [2]) extEnv_contracts Reachable.initial (by decide)).elim
      (fun p hp => hp.elim (fun r hr =>
        hr.2.2.2.2.2.2.2.2.2.2.elim (fun selcred h1 => h1.elim (fun flags h2 =>
          h2.elim (fun ext h3 => h3.elim (fun flags1 h4 =>
            ⟨p, r, selcred, flags, ext, flags1, hr.2.1, h4.2.2.1, h4.2.2.2.1,
              h4.2.2.2.2.1⟩))))))⟩

/-- C20. Every GetAssertion or GetNextAssertion call that returns success, in any
state of the session globals and of the device, under the contracts of the codec:
the signature counter read by `get_sign_counter` from the counter file after the
call is the one read before the call plus one, modulo `2 ^ 32`, and the counter in
the authenticator data of the response is the one read before the call. -/
theorem sign_counter_incremented (env : Env) (s : Session) (dev : Device) (c : Call)
    (hc : CodecContracts env)
    (hret : (c.run env s dev).ret = 0) :
    get_sign_counter (c.run env s dev).dev = (get_sign_counter dev + 1) % 2 ^ 32 ∧
      ∃ r, (c.run env s dev).resp = some r ∧
        signCountOf r.authData = get_sign_counter dev ∧
        (r.authData.drop 33).take 4 = be32 (get_sign_counter dev) := by
  obtain ⟨p, dev0, next, flags, n, selcred, _, hctr, _, hb, hresp, hdev⟩ :=
    call_success env s dev c hc.parse_error hret
  obtain ⟨r, ekey, f, ext, hr, hd, had, _, _⟩ :=
    buildAssertion_layout env dev0 p next flags n selcred hc hb
  rw [hctr] at had hd
  obtain ⟨_, l2, _, _⟩ := layout_fields (env.mbedtls_sha256 (p.rpId.getD [])) (f % 256)
    (get_sign_counter dev) ext (hc.sha256_length _) (get_sign_counter_lt dev)
  rw [← had] at l2
  refine ⟨?_, r, hresp.trans hr, l2, ?_⟩
  · rw [hdev, hd]
    exact get_sign_counter_written dev0 _ (Nat.mod_lt _ (by decide))
  · have e2 : r.authData = (env.mbedtls_sha256 (p.rpId.getD []) ++ [f % 256])
        ++ (be32 (get_sign_counter dev) ++ ext) := by
      rw [had]
      simp
    rw [e2, List.drop_append_of_le_length (by simp [hc.sha256_length])]
    have e3 : List.drop 33 (env.mbedtls_sha256 (p.rpId.getD []) ++ [f % 256]) = [] :=
      List.drop_eq_nil_of_le (by simp [hc.sha256_length])
    rw [e3, List.nil_append]
    rfl

/-- Witness of C20: the GetAssertion of the example and the GetNextAssertion that
follows; the counter goes from 0 to 1 and from 1 to 2. -/
theorem sign_counter_incremented_witness :
    (Call.run exampleEnv (Session.initial exampleEnv) exampleDevice
        (Call.getAssertion true 0 [1])).ret = 0 ∧
      get_sign_counter exampleDevice = 0 ∧
      get_sign_counter (Call.run exampleEnv (Session.initial exampleEnv) exampleDevice
        (Call.getAssertion true 0 [1])).dev = (0 + 1) % 2 ^ 32 ∧
      get_sign_counter (Call.run exampleEnv (exampleFirst 0).sess (exampleFirst 0).dev
        (Call.getNextAssertion 20000 20000 [])).dev
        = (get_sign_counter (exampleFirst 0).dev + 1) % 2 ^ 32 ∧
      get_sign_counter (exampleFirst 0).dev = 1 :=
  ⟨by decide, by decide,
    (sign_counter_incremented exampleEnv (Session.initial exampleEnv) exampleDevice
      (Call.getAssertion true 0 [1]) exampleEnv_contracts (by decide)).1,
    (sign_counter_incremented exampleEnv (exampleFirst 0).sess (exampleFirst 0).dev
      (Call.getNextAssertion 20000 20000 []) exampleEnv_contracts (by decide)).1,
    by decide⟩

/-- C16. A GetAssertion request (`next == false`) that parses, carries `rpId` and
`clientDataHash`, has a `pinUvAuthParam` that is not empty with protocol 1 or 2 and
passes the option checks: when the MAC check over `clientDataHash` fails, or the
token lacks the get-assertion permission, or the token is bound to a relying party
whose hash differs from SHA-256(rpId), the call returns PinAuthInvalid, without
response and with the session globals and the device as before; and whenever the
call delivers a response, all these checks have passed (and the token was marked
verified), and the user-verification bit 0x04 is set in the flags byte of the
authenticator data. -/
theorem pin_auth_token_checks (env : Env) (s : Session) (dev : Device) (up_ok : Bool)
    (millis : Nat) (data : Bytes) (p : Request) (param : Bytes) (up uv : Bool)
    (hsha : ∀ b, (env.mbedtls_sha256 b).length = 32)
    (hparse : env.cbor_parse data = .ok p)
    (hrp : p.rpId.isSome = true) (hcd : p.clientDataHash.isSome = true)
    (hparam : p.pinUvAuthParam = some param) (hne : param ≠ [])
    (hproto : p.pinUvAuthProtocol = 1 ∨ p.pinUvAuthProtocol = 2)
    (hopt : checkOptions p = .ok (up, uv)) :
    ((env.verify p.pinUvAuthProtocol dev.paut.data (p.clientDataHash.getD []) param ≠ 0 ∨
        dev.paut.permissions &&& CTAP_PERMISSION_GA = 0 ∨
        (dev.paut.has_rp_id = true ∧
          hashDiffers dev.paut.rp_id_hash (env.mbedtls_sha256 (p.rpId.getD [])))) →
      cbor_get_assertion env s dev up_ok millis data false
        = rejected s dev CTAP2_ERR_PIN_AUTH_INVALID) ∧
    (∀ r, (cbor_get_assertion env s dev up_ok millis data false).resp = some r →
      env.verify p.pinUvAuthProtocol dev.paut.data (p.clientDataHash.getD []) param = 0 ∧
      dev.paut.permissions &&& CTAP_PERMISSION_GA ≠ 0 ∧
      (dev.paut.has_rp_id = true →
        ¬ hashDiffers dev.paut.rp_id_hash (env.mbedtls_sha256 (p.rpId.getD []))) ∧
      getUserVerifiedFlagValue dev = true ∧
      flagsOf r.authData &&& FIDO2_AUT_FLAG_UV ≠ 0) := by
  have h0 : checkPinUvAuthParam dev up_ok p = 0 := by
    unfold checkPinUvAuthParam
    rw [hparam]
    have hl : (param.length == 0) = false := by
      cases param with
      | nil => exact absurd rfl hne
      | cons a t => rfl
    rcases hproto with h1 | h1 <;> simp [hl, h1]
  have hdiff : ∀ a b : Bytes, memcmp a b 32 ≠ 0 ↔ hashDiffers a b := by
    intro a b
    unfold hashDiffers
    rw [Ne, memcmp_eq_zero_iff]
    push_neg
    rfl
  rcases checkPinUvAuthToken_cases env dev p (env.mbedtls_sha256 (p.rpId.getD [])) with
    ⟨hn, _⟩ | ⟨q, hq, hfail, htok⟩ | ⟨q, hq, hv, huvf, hperm, hrpid, htok⟩
  · rw [hparam] at hn
    cases hn
  · have hres : resolveCandidates env dev up_ok p (env.mbedtls_sha256 (p.rpId.getD []))
        = .error (CTAP2_ERR_PIN_AUTH_INVALID, dev) := by
      unfold resolveCandidates
      simp only [h0, hopt, htok, bne_self_eq_false, Bool.false_eq_true, if_false]
    have hrej := cbor_get_assertion_rejected env s dev dev up_ok millis data p _ hparse hrp hcd
      hres
    refine ⟨fun _ => hrej, ?_⟩
    intro r hr
    rw [hrej] at hr
    cases hr
  · rw [hparam] at hq
    cases hq
    constructor
    · intro hbad
      exfalso
      rcases hbad with h | h | ⟨h1, h2⟩
      · exact h hv
      · exact hperm h
      · exact (hdiff _ _).2 h2 (hrpid h1)
    · intro r hr
      refine ⟨hv, hperm, ?_, huvf, ?_⟩
      · intro h1 h2
        exact (hdiff _ _).2 h2 (hrpid h1)
      · rw [cbor_get_assertion_first env s dev up_ok millis data p hparse hrp hcd] at hr
        cases hres : resolveCandidates env dev up_ok p (env.mbedtls_sha256 (p.rpId.getD []))
          with
        | error x =>
          rw [hres] at hr
          cases hr
        | ok rc =>
          rw [hres] at hr
          dsimp only at hr
          obtain ⟨flags0, _, htok2, hfl, _⟩ := resolveCandidates_flags env dev up_ok p _ rc hres
          rw [htok] at htok2
          cases htok2
          rcases buildAssertion_cases env rc.dev p (env.mbedtls_sha256 (p.rpId.getD [])) false
            rc.flags rc.numberOfCredentials (rc.creds.getD 0 Credential.zero) with
            ⟨_, _, hnone⟩ | ⟨_, ekey, ext, flags1, r2, _, hext, hr2, had, _⟩
          · rw [hnone] at hr
            cases hr
          · rw [hr2] at hr
            cases hr
            have h32 : (env.mbedtls_sha256 (p.rpId.getD [])).take 32
                = env.mbedtls_sha256 (p.rpId.getD []) :=
              List.take_of_length_le (by rw [hsha])
            have hf1 : flags1 < 256 ∧ flags1 &&& FIDO2_AUT_FLAG_UV ≠ 0 := by
              rcases buildExtensions_shape env p rc.flags (rc.creds.getD 0 Credential.zero) with
                ⟨e, he, _⟩ | ⟨_, o, ho⟩ | ⟨_, ho⟩
              · rw [he] at hext
                cases hext
              · rw [ho] at hext
                cases hext
                rcases hfl with h | h <;> rw [h] <;> decide
              · rw [ho] at hext
                cases hext
                rcases hfl with h | h <;> rw [h] <;> decide
            rw [had, authenticatorData_eq, h32,
              (layout_fields _ (flags1 % 256) _ ext (hsha _) (get_sign_counter_lt _)).1,
              Nat.mod_eq_of_lt hf1.1]
            exact hf1.2

/-- Witness of C16: on the example device, whose token lacks the get-assertion
permission, the example request with a `pinUvAuthParam` is answered with
PinAuthInvalid; on the device after a PIN ceremony the response carries the
user-verification bit. -/
theorem pin_auth_token_checks_witness :
    ((examplePinRequest [7]).pinUvAuthParam = some [7] ∧
      checkOptions (examplePinRequest [7]) = .ok (true, false)) ∧
      cbor_get_assertion (requestEnv (examplePinRequest [7])) (Session.initial exampleEnv)
          exampleDevice true 0 [1] false
        = rejected (Session.initial exampleEnv) exampleDevice CTAP2_ERR_PIN_AUTH_INVALID ∧
      (cbor_get_assertion (requestEnv (examplePinRequest [7])) (Session.initial exampleEnv)
          exampleVerifiedDevice true 0 [1] false).resp.map (fun r => flagsOf r.authData)
        = some 5 :=
  ⟨⟨rfl, rfl⟩,
    (pin_auth_token_checks (requestEnv (examplePinRequest [7])) (Session.initial exampleEnv)
      exampleDevice true 0 [1] (examplePinRequest [7]) [7] true false
      exampleEnv_contracts.sha256_length rfl rfl rfl rfl (by decide) (Or.inl rfl) rfl).1
      (Or.inr (Or.inl (by decide))),
    by decide⟩

/-! ## The status of the digest and of the signing primitive -/

theorem derive_key_loop_signing (env : Env) (f : Nat → Bytes → Int)
    (g : mbedtls_ecdsa_context → Nat → Bytes → Int) (rnd : Nat → Nat) (new_key : Bool)
    (l : List Nat) (outk kh : Bytes) :
    derive_key_loop (withSigningStatus env f g) rnd new_key l outk kh
      = derive_key_loop env rnd new_key l outk kh := by
  induction l generalizing outk kh with
  | nil => rfl
  | cons i rest ih =>
    unfold derive_key_loop
    dsimp only
    rw [ih]
    rfl

theorem derive_key_signing (env : Env) (f : Nat → Bytes → Int)
    (g : mbedtls_ecdsa_context → Nat → Bytes → Int) (dev : Device) (rnd : Nat → Nat)
    (app_id : Bytes) (new_key : Bool) (kh : Bytes) (curve : Nat)
    (key : Option mbedtls_ecdsa_context) :
    derive_key (withSigningStatus env f g) dev rnd app_id new_key kh curve key
      = derive_key env dev rnd app_id new_key kh curve key := by
  unfold derive_key
  simp only [derive_key_loop_signing]
  rfl

theorem loadSigningKey_signing (env : Env) (f : Nat → Bytes → Int)
    (g : mbedtls_ecdsa_context → Nat → Bytes → Int) (dev : Device) (h : Bytes)
    (c : Credential) :
    loadSigningKey (withSigningStatus env f g) dev h c = loadSigningKey env dev h c := by
  unfold loadSigningKey fido_load_key
  simp only [derive_key_signing]

theorem loadAllowList_signing (env : Env) (f : Nat → Bytes → Int)
    (g : mbedtls_ecdsa_context → Nat → Bytes → Int) (h : Bytes)
    (l : List PublicKeyCredentialDescriptor) (creds : List Credential) (n : Nat) :
    loadAllowList (withSigningStatus env f g) h l creds n = loadAllowList env h l creds n := by
  induction l generalizing creds n with
  | nil => rfl
  | cons e rest ih =>
    unfold loadAllowList
    simp only [ih]
    rfl

theorem resolveCandidates_signing (env : Env) (f : Nat → Bytes → Int)
    (g : mbedtls_ecdsa_context → Nat → Bytes → Int) (dev : Device) (up_ok : Bool)
    (p : Request) (h : Bytes) :
    resolveCandidates (withSigningStatus env f g) dev up_ok p h
      = resolveCandidates env dev up_ok p h := by
  unfold resolveCandidates
  simp only [loadAllowList_signing]
  rfl

theorem buildExtensions_signing (env : Env) (f : Nat → Bytes → Int)
    (g : mbedtls_ecdsa_context → Nat → Bytes → Int) (p : Request) (flags : Nat)
    (c : Credential) :
    buildExtensions (withSigningStatus env f g) p flags c = buildExtensions env p flags c := by
  rfl

theorem buildAssertion_signing (env : Env) (f : Nat → Bytes → Int)
    (g : mbedtls_ecdsa_context → Nat → Bytes → Int) (dev : Device) (p : Request) (h : Bytes)
    (next : Bool) (flags n : Nat) (c : Credential) :
    buildAssertion (withSigningStatus env f g) dev p h next flags n c
      = buildAssertion env dev p h next flags n c := by
  unfold buildAssertion
  simp only [loadSigningKey_signing, buildExtensions_signing]
  rfl

theorem cbor_get_assertion_signing (env : Env) (f : Nat → Bytes → Int)
    (g : mbedtls_ecdsa_context → Nat → Bytes → Int) (s : Session) (dev : Device)
    (up_ok : Bool) (millis : Nat) (data : Bytes) (next : Bool) :
    cbor_get_assertion (withSigningStatus env f g) s dev up_ok millis data next
      = cbor_get_assertion env s dev up_ok millis data next := by
  unfold cbor_get_assertion
  simp only [resolveCandidates_signing, buildAssertion_signing]
  rfl

theorem cbor_get_next_assertion_signing (env : Env) (f : Nat → Bytes → Int)
    (g : mbedtls_ecdsa_context → Nat → Bytes → Int) (s : Session) (dev : Device)
    (millis millis2 : Nat) (data : Bytes) :
    cbor_get_next_assertion (withSigningStatus env f g) s dev millis millis2 data
      = cbor_get_next_assertion env s dev millis millis2 data := by
  unfold cbor_get_next_assertion
  simp only [cbor_get_assertion_signing]

theorem call_run_signing (env : Env) (f : Nat → Bytes → Int)
    (g : mbedtls_ecdsa_context → Nat → Bytes → Int) (s : Session) (dev : Device) (c : Call) :
    c.run (withSigningStatus env f g) s dev = c.run env s dev := by
  cases c with
  | getAssertion up_ok millis data =>
    exact cbor_get_assertion_signing env f g s dev up_ok millis data false
  | getNextAssertion millis millis2 data =>
    exact cbor_get_next_assertion_signing env f g s dev millis millis2 data

/-- A call that returns zero has written the counter read before plus one and
delivers a response. -/
theorem call_success_counter (env : Env) (s : Session) (dev : Device) (c : Call)
    (hperr : ∀ data e, env.cbor_parse data = .error e → e ≠ 0)
    (hret : (c.run env s dev).ret = 0) :
    (c.run env s dev).resp.isSome = true ∧
      get_sign_counter (c.run env s dev).dev = (get_sign_counter dev + 1) % 2 ^ 32 := by
  obtain ⟨p, dev0, next, flags, n, selcred, _, hctr, _, hb, hresp, hdev⟩ :=
    call_success env s dev c hperr hret
  rcases buildAssertion_cases env dev0 p (env.mbedtls_sha256 (p.rpId.getD [])) next flags n
    selcred with ⟨hne, _⟩ | ⟨_, ekey, ext, flags1, r, _, _, hr, _, _, _, hd⟩
  · exact absurd hb hne
  · refine ⟨?_, ?_⟩
    · rw [hresp, hr]
      rfl
    · rw [hdev, hd, ← hctr]
      exact get_sign_counter_written dev0 _ (Nat.mod_lt _ (by decide))

/-- C21. The status of the digest and of the signing primitive is never tested
(lines 562-575 assign it to `ret` and go on): for every GetAssertion or
GetNextAssertion call that returns success, the same call in an environment whose
digest and signing primitive report a failure on every input, with the same output
buffers, returns success as well, delivers a response, and writes the counter read
before plus one. -/
theorem counter_written_when_signing_fails (env : Env) (f : Nat → Bytes → Int)
    (g : mbedtls_ecdsa_context → Nat → Bytes → Int) (s : Session) (dev : Device) (c : Call)
    (hc : CodecContracts env)
    (hf : ∀ md b, f md b ≠ 0) (hg : ∀ k md h, g k md h ≠ 0)
    (hret : (c.run env s dev).ret = 0) :
    (∀ md b, ((withSigningStatus env f g).mbedtls_md md b).1 ≠ 0) ∧
      (∀ k md h, ((withSigningStatus env f g).mbedtls_ecdsa_write_signature k md h).1 ≠ 0) ∧
      (c.run (withSigningStatus env f g) s dev).ret = 0 ∧
      (c.run (withSigningStatus env f g) s dev).resp.isSome = true ∧
      get_sign_counter (c.run (withSigningStatus env f g) s dev).dev
        = (get_sign_counter dev + 1) % 2 ^ 32 := by
  rw [call_run_signing]
  exact ⟨hf, hg, hret, call_success_counter env s dev c hc.parse_error hret⟩

/-- Witness of C21: the GetAssertion of the example with a digest and a signing
primitive that report -1: the call returns success and the counter goes from 0 to
1. -/
theorem counter_written_when_signing_fails_witness :
    (signFailEnv.mbedtls_md MBEDTLS_MD_SHA256 []).1 = -1 ∧
      (signFailEnv.mbedtls_ecdsa_write_signature mbedtls_ecdsa_init MBEDTLS_MD_SHA256 []).1
        = -1 ∧
      get_sign_counter exampleDevice = 0 ∧
      (Call.run signFailEnv (Session.initial exampleEnv) exampleDevice
        (Call.getAssertion true 0 [1])).ret = 0 ∧
      get_sign_counter (Call.run signFailEnv (Session.initial exampleEnv) exampleDevice
        (Call.getAssertion true 0 [1])).dev = (0 + 1) % 2 ^ 32 :=
  ⟨rfl, rfl, by decide,
    (counter_written_when_signing_fails exampleEnv (fun _ _ => -1) (fun _ _ _ => -1)
      (Session.initial exampleEnv) exampleDevice (Call.getAssertion true 0 [1])
      exampleEnv_contracts (fun _ _ => (by decide : (-1 : Int) ≠ 0))
      (fun _ _ _ => (by decide : (-1 : Int) ≠ 0)) (by decide)).2.2.1,
    (counter_written_when_signing_fails exampleEnv (fun _ _ => -1) (fun _ _ _ => -1)
      (Session.initial exampleEnv) exampleDevice (Call.getAssertion true 0 [1])
      exampleEnv_contracts (fun _ _ => (by decide : (-1 : Int) ≠ 0))
      (fun _ _ _ => (by decide : (-1 : Int) ≠ 0)) (by decide)).2.2.2.2⟩

/-! ## The counter after a failing call -/

theorem resolveCandidates_error_counter (env : Env) (dev : Device) (up_ok : Bool)
    (p : Request) (rp_id_hash : Bytes) (e : Nat) (dev1 : Device)
    (h : resolveCandidates env dev up_ok p rp_id_hash = .error (e, dev1)) :
    get_sign_counter dev1 = get_sign_counter dev := by
  by_cases h1 : checkPinUvAuthParam dev up_ok p = 0
  · cases hopt : checkOptions p with
    | error e2 =>
      unfold resolveCandidates at h
      simp only [h1, hopt, bne_self_eq_false, Bool.false_eq_true, if_false] at h
      cases h
      rfl
    | ok x =>
      obtain ⟨up, uv⟩ := x
      cases htok : checkPinUvAuthToken env dev p rp_id_hash with
      | error e2 =>
        unfold resolveCandidates at h
        simp only [h1, hopt, htok, bne_self_eq_false, Bool.false_eq_true, if_false] at h
        cases h
        rfl
      | ok flags0 =>
        by_cases h2 : checkHmacSecret env p = 0
        · rw [resolveCandidates_after_checks env dev up_ok p rp_id_hash up uv _ h1 hopt
            htok h2] at h
          cases hl : lookupCandidates env dev p rp_id_hash with
          | error e3 =>
            rw [hl] at h
            cases h
            rfl
          | ok x =>
            obtain ⟨cr, resident⟩ := x
            rw [hl] at h
            dsimp only at h
            split at h
            · cases h
              rfl
            · cases hu : userPresence dev up_ok p flags0 with
              | error e3 =>
                rw [hu] at h
                cases h
                rfl
              | ok y =>
                obtain ⟨flags1, dev2⟩ := y
                rw [hu] at h
                dsimp only at h
                split at h
                · cases h
                  exact (userPresence_flags dev up_ok p flags0 flags1 dev1 hu).2
                · cases h
        · unfold resolveCandidates at h
          simp only [h1, hopt, htok, bne_self_eq_false, Bool.false_eq_true, if_false] at h
          have h3 : (checkHmacSecret env p != 0) = true := by simpa using h2
          rw [if_pos h3] at h
          cases h
          rfl
  · unfold resolveCandidates at h
    have h3 : (checkPinUvAuthParam dev up_ok p != 0) = true := by simpa using h1
    simp only [h3, if_true] at h
    cases h
    rfl

/-- A call of `cbor_get_assertion` that returns an error status has not written the
counter. -/
theorem cbor_get_assertion_error_counter (env : Env) (s : Session) (dev : Device)
    (up_ok : Bool) (millis : Nat) (data : Bytes) (next : Bool)
    (hret : (cbor_get_assertion env s dev up_ok millis data next).ret ≠ 0) :
    get_sign_counter (cbor_get_assertion env s dev up_ok millis data next).dev
      = get_sign_counter dev := by
  unfold cbor_get_assertion at hret ⊢
  cases hp : env.cbor_parse data with
  | error e => rfl
  | ok p =>
    rw [hp] at hret
    dsimp only at hret ⊢
    split
    · rfl
    · rename_i hm
      rw [if_neg hm] at hret
      cases next with
      | false =>
        rw [if_pos (show ((false == false) = true) from rfl)] at hret ⊢
        cases hr : resolveCandidates env dev up_ok p (env.mbedtls_sha256 (p.rpId.getD [])) with
        | error x =>
          obtain ⟨e, dev1⟩ := x
          exact resolveCandidates_error_counter env dev up_ok p _ e dev1 hr
        | ok r =>
          rw [hr] at hret
          dsimp only at hret ⊢
          rcases buildAssertion_cases env r.dev p (env.mbedtls_sha256 (p.rpId.getD [])) false
            r.flags r.numberOfCredentials (r.creds.getD 0 Credential.zero) with
            ⟨_, hd, _⟩ | ⟨h0, _⟩
          · rw [hd]
            exact (resolveCandidates_flags env dev up_ok p _ r hr).choose_spec.2.2.2
          · exact absurd (by rw [h0]; rfl) hret
      | true =>
        rw [if_neg (show ¬ ((true == false) = true) by decide)] at hret ⊢
        dsimp only at hret ⊢
        rcases buildAssertion_cases env dev p (env.mbedtls_sha256 (p.rpId.getD [])) true
          s.flagsx s.numberOfCredentialsx (s.credsx.getD s.credentialCounter Credential.zero)
          with ⟨_, hd, _⟩ | ⟨h0, _⟩
        · rw [hd]
        · exact absurd (by rw [h0]; rfl) hret

theorem nextEpilogue_dev (e : Nat) (s : Session) (dev : Device) (resp : Option Response) :
    (nextEpilogue e s dev resp).dev = dev := by
  unfold nextEpilogue
  split <;> rfl

/-- A GetAssertion or GetNextAssertion call that returns an error status leaves the
signature counter as it was. -/
theorem error_status_counter_unchanged (env : Env) (s : Session) (dev : Device) (c : Call)
    (hret : (c.run env s dev).ret ≠ 0) :
    get_sign_counter (c.run env s dev).dev = get_sign_counter dev := by
  cases c with
  | getAssertion up_ok millis data =>
    exact cbor_get_assertion_error_counter env s dev up_ok millis data false hret
  | getNextAssertion millis millis2 data =>
    have hrun : (Call.getNextAssertion millis millis2 data).run env s dev
        = cbor_get_next_assertion env s dev millis millis2 data := rfl
    rw [hrun] at hret ⊢
    unfold cbor_get_next_assertion at hret ⊢
    split
    · rw [nextEpilogue_dev]
    · split
      · rw [nextEpilogue_dev]
      · rename_i h1 h2
        rw [if_neg h1, if_neg h2] at hret
        dsimp only at hret ⊢
        split
        · rename_i h3
          rw [nextEpilogue_dev]
          exact cbor_get_assertion_error_counter env s dev false millis _ true
            (by simpa [CborNoError] using h3)
        · rename_i h3
          rw [if_neg h3] at hret
          exfalso
          apply hret
          unfold nextEpilogue
          split <;> rfl

/-! ## The user entity and the number of credentials in the response -/

/-- The response of an assertion step that returns zero: the credential id, the user
entity and the number of credentials are those that lines 578-634 write. -/
theorem buildAssertion_response (env : Env) (dev : Device) (p : Request) (rp_id_hash : Bytes)
    (next : Bool) (flags n : Nat) (selcred : Credential)
    (h : (buildAssertion env dev p rp_id_hash next flags n selcred).1 = 0) :
    ∃ r, (buildAssertion env dev p rp_id_hash next flags n selcred).2.2 = some r ∧
      r.credential_id = selcred.id ∧
      r.user = userEntityOf p n selcred ∧
      r.numberOfCredentials = (if decide (n > 1) && next == false then some n else none) := by
  unfold buildAssertion at h ⊢
  cases hkey : loadSigningKey env dev rp_id_hash selcred with
  | none =>
    rw [hkey] at h
    exact absurd h (show CTAP1_ERR_OTHER ≠ 0 by decide)
  | some ekey =>
    rw [hkey] at h
    dsimp only at h ⊢
    split at h
    · exact absurd h (show CTAP2_ERR_PROCESSING ≠ 0 by decide)
    · rename_i hb
      rw [if_neg hb]
      rcases buildExtensions_shape env p flags selcred with ⟨e, he, hne⟩ | ⟨_, o, ho⟩ | ⟨_, ho⟩
      · rw [he] at h
        exact absurd h hne
      · rw [ho] at h ⊢
        dsimp only at h ⊢
        split at h
        · rename_i h2
          exact absurd h (by simpa using h2)
        · rename_i h2
          rw [if_neg h2]
          exact ⟨_, rfl, rfl, rfl, rfl⟩
      · rw [ho] at h ⊢
        dsimp only at h ⊢
        split at h
        · rename_i h2
          exact absurd h (by simpa using h2)
        · rename_i h2
          rw [if_neg h2]
          exact ⟨_, rfl, rfl, rfl, rfl⟩

theorem userEntityOf_isSome (p : Request) (n : Nat) (selcred : Credential) :
    (userEntityOf p n selcred).isSome = true ↔
      selcred.opts.present = true ∧ selcred.opts.rk = some true := by
  unfold userEntityOf
  split
  · rename_i h
    simpa using h
  · rename_i h
    simpa using h

/-- C22, amended. In every successful response, of GetAssertion as of
GetNextAssertion, the user entity (key 0x04) is included exactly when the selected
credential carries the `rk` option, whatever the number of candidates; it then holds
the user id, and the name and display name only when more than one candidate was
resolved and the request has no allow-list. The selected credential is the first
resolved candidate for GetAssertion and the one under the cursor of the session for
GetNextAssertion. -/
theorem user_entity_rule (env : Env) (s : Session) (dev : Device) (c : Call)
    (hc : CodecContracts env) (hret : (c.run env s dev).ret = 0) :
    ∃ p n selcred r, env.cbor_parse (c.bytes s) = .ok p ∧
      (c.run env s dev).resp = some r ∧
      r.credential_id = selcred.id ∧
      r.user = userEntityOf p n selcred ∧
      (r.user.isSome = true ↔ selcred.opts.present = true ∧ selcred.opts.rk = some true) ∧
      (∀ up_ok millis data, c = .getAssertion up_ok millis data →
        ∃ rc, resolveCandidates env dev up_ok p (env.mbedtls_sha256 (p.rpId.getD [])) = .ok rc ∧
          n = rc.numberOfCredentials ∧ selcred = rc.creds.getD 0 Credential.zero) ∧
      (∀ millis millis2 data, c = .getNextAssertion millis millis2 data →
        n = s.numberOfCredentialsx ∧
          selcred = s.credsx.getD s.credentialCounter Credential.zero) := by
  cases c with
  | getAssertion up_ok millis data =>
    obtain ⟨p, rc, hp, _, _, hr, hb, hresp, _⟩ :=
      cbor_get_assertion_first_success env s dev up_ok millis data hc.parse_error hret
    obtain ⟨r, hr2, hid, hu, _⟩ := buildAssertion_response env rc.dev p _ false rc.flags
      rc.numberOfCredentials (rc.creds.getD 0 Credential.zero) hb
    refine ⟨p, rc.numberOfCredentials, rc.creds.getD 0 Credential.zero, r, hp,
      hresp.trans hr2, hid, hu, ?_, ?_, ?_⟩
    · rw [hu]
      exact userEntityOf_isSome _ _ _
    · intro up_ok2 millis2 data2 he
      cases he
      exact ⟨rc, hr, rfl, rfl⟩
    · intro _ _ _ he
      cases he
  | getNextAssertion millis millis2 data =>
    obtain ⟨h1, hresp1, _⟩ := cbor_get_next_assertion_success env s dev millis millis2 data hret
    obtain ⟨p, hp, _, _, hb, hresp, _⟩ :=
      cbor_get_assertion_next_success env s dev false millis _ hc.parse_error h1
    obtain ⟨r, hr2, hid, hu, _⟩ := buildAssertion_response env dev p _ true s.flagsx
      s.numberOfCredentialsx (s.credsx.getD s.credentialCounter Credential.zero) hb
    refine ⟨p, s.numberOfCredentialsx, s.credsx.getD s.credentialCounter Credential.zero, r, hp,
      (hresp1.trans hresp).trans hr2, hid, hu, ?_, ?_, ?_⟩
    · rw [hu]
      exact userEntityOf_isSome _ _ _
    · intro _ _ _ he
      cases he
    · intro _ _ _ he
      cases he
      exact ⟨rfl, rfl⟩

/-- Witness of the amended C22: the GetAssertion for the relying party `[2]`, which has
a single discoverable credential; the response carries the user entity with the id
only. -/
theorem user_entity_rule_witness :
    (Call.run rkEnv (Session.initial rkEnv) exampleDevice (Call.getAssertion true 0 [2])).ret
        = 0 ∧
      (Call.run rkEnv (Session.initial rkEnv) exampleDevice
        (Call.getAssertion true 0 [2])).resp.map (fun r => r.user)
        = some (some { id := some [0x55], name := none, displayName := none }) ∧
      ∃ p n selcred r,
        (Call.run rkEnv (Session.initial rkEnv) exampleDevice
          (Call.getAssertion true 0 [2])).resp = some r ∧
        r.user = userEntityOf p n selcred ∧
        (r.user.isSome = true ↔ selcred.opts.present = true ∧ selcred.opts.rk = some true) :=
  ⟨by decide, by decide,
    (user_entity_rule rkEnv (Session.initial rkEnv) exampleDevice (Call.getAssertion true 0 [2])
      ⟨exampleEnv_contracts.parse_error, exampleEnv_contracts.sha256_length,
        exampleEnv_contracts.ext_nonempty⟩ (by decide)).elim
      (fun p h => h.elim (fun n h2 => h2.elim (fun selcred h3 => h3.elim (fun r h4 =>
        ⟨p, n, selcred, r, h4.2.1, h4.2.2.2.1, h4.2.2.2.2.1⟩))))⟩

/-- C22, counterexample. With discoverable credentials, the GetAssertion for the
relying party `[2]` resolves a single candidate and its response carries the user
entity (key 0x04); and the GetNextAssertion that follows a GetAssertion for the
relying party `[1]` carries the user entity too, with the name. -/
theorem user_entity_single_and_next :
    (cbor_get_assertion rkEnv (Session.initial rkEnv) exampleDevice true 0 [2] false).ret = 0 ∧
      (cbor_get_assertion rkEnv (Session.initial rkEnv) exampleDevice true 0 [2]
        false).resp.map (fun r => (r.user, r.numberOfCredentials))
        = some (some { id := some [0x55], name := none, displayName := none }, none) ∧
      (cbor_get_assertion rkEnv (Session.initial rkEnv) exampleDevice true 0 [1] false).ret = 0 ∧
      (cbor_get_next_assertion rkEnv
        (cbor_get_assertion rkEnv (Session.initial rkEnv) exampleDevice true 0 [1] false).sess
        (cbor_get_assertion rkEnv (Session.initial rkEnv) exampleDevice true 0 [1] false).dev
        10 10 []).ret = 0 ∧
      (cbor_get_next_assertion rkEnv
        (cbor_get_assertion rkEnv (Session.initial rkEnv) exampleDevice true 0 [1] false).sess
        (cbor_get_assertion rkEnv (Session.initial rkEnv) exampleDevice true 0 [1] false).dev
        10 10 []).resp.map (fun r => r.user)
        = some (some { id := some [0x55], name := some [0x6E], displayName := none }) := by
  decide

/-- The key half of lines 498-503: bytes 0..31 of `cred_random` when the UV flag is
unset, bytes 32..63 when it is set. -/
theorem keyHalf_select (flags : Nat) (cred_random : Bytes) :
    (flags &&& FIDO2_AUT_FLAG_UV = 0 → keyHalf flags cred_random = cred_random.take 32) ∧
    (flags &&& FIDO2_AUT_FLAG_UV ≠ 0 →
      keyHalf flags cred_random = (cred_random.drop 32).take 32) := by
  unfold keyHalf
  constructor
  · intro h
    simp [h]
  · intro h
    simp [h]

/-- The result of the hmac-secret sub-protocol when it succeeds: the encryption,
under the shared secret, of the HMAC-SHA256 of each 32-byte half of the decrypted salt
under the key half selected by the UV flag, cut to the length `salt_enc.len - poff`.
It is a function of the request, the flags and the credential, so two evaluations
on the same inputs give the same output. -/
theorem hmacSecret_output (env : Env) (p : Request) (flags : Nat) (selcred : Credential)
    (res : Bytes) (h : hmacSecret env p flags selcred = .ok res) :
    res = env.encrypt p.hmacSecretPinUvAuthProtocol
      (env.ecdh p.hmacSecretPinUvAuthProtocol (p.kax.getD []) (p.kay.getD [])).2
      ((hmacOutput env
        (keyHalf flags (env.credential_derive_hmac_key (selcred.id.getD [])).2)
        (env.decrypt p.hmacSecretPinUvAuthProtocol
          (env.ecdh p.hmacSecretPinUvAuthProtocol (p.kax.getD []) (p.kay.getD [])).2
          (p.salt_enc.getD [])).2
        ((p.salt_enc.getD []).length == 64 + poff env p)).take (plaintextLen env p)) := by
  unfold hmacSecret at h
  dsimp only at h
  split_ifs at h with h1 h2 h3 h4 h5 h6 h7 h8 h8 <;>
    (cases h
     unfold hmacOutput keyHalf plaintextLen
     first
     | rw [if_pos h7, if_pos h8]
     | rw [if_pos h7, if_neg h8]
     | rw [if_neg h7, if_pos h8]
     | rw [if_neg h7, if_neg h8])

/-- In the example environment the derived 64-byte key is constant, so its two
halves agree and the output for the UV flag set is the output for the UV flag unset:
that the two outputs differ is a property of the primitives, not of the code. -/
theorem hmacSecret_example_same :
    hmacSecret exampleEnv (exampleHmacRequest 1 32) 0 (exampleCredential [0xA1] 5)
      = hmacSecret exampleEnv (exampleHmacRequest 1 32) FIDO2_AUT_FLAG_UV
          (exampleCredential [0xA1] 5) := by
  rfl

/-! ## The legacy U2F command `cmd_authenticate` -/

theorem ctrBytes_eq (ctr : Nat) : ctrBytes ctr = be32 ctr := by
  unfold ctrBytes be32
  rw [Nat.shiftRight_eq_div_pow, Nat.shiftRight_eq_div_pow,
    Nat.shiftRight_eq_div_pow, show (0xff : Nat) = 2 ^ 8 - 1 from rfl,
    Nat.and_pow_two_sub_one_eq_mod]

/-- A request of at least 66 bytes holds the 32 bytes of the challenge and the 32
bytes of the application hash. -/
theorem request_fields_length (apdu : Apdu) (hbuf : apdu.nc ≤ apdu.data.length)
    (hnc : ¬ apdu.nc < CTAP_CHAL_SIZE + CTAP_APPID_SIZE + 1 + 1) :
    (reqChal apdu).length = 32 ∧ (reqAppId apdu).length = 32 := by
  unfold CTAP_CHAL_SIZE CTAP_APPID_SIZE at hnc
  unfold reqChal reqAppId CTAP_CHAL_SIZE CTAP_APPID_SIZE
  simp only [List.length_take, List.length_drop]
  omega

theorem ite_shape {α : Type} (P : α → Prop) (c : Prop) [Decidable c] (x y : α) (hx : P x)
    (hy : ¬ c → P y) : P (if c then x else y) := by
  by_cases h : c
  · rw [if_pos h]
    exact hx
  · rw [if_neg h]
    exact hy h

/-- The two ways in which `cmd_authenticate` ends: with a status word other than
`SW_OK` and the device as it was, or, for a request of at least 66 bytes, with
`SW_OK`, the response made of the flags, the counter bytes and the signature, and the
counter written. -/
theorem cmd_authenticate_shape (env : Env) (credential_verify : Bytes → Bytes → Int)
    (dev : Device) (wait_button_pressed : Bool) (apdu : Apdu) (P : AuthResult → Prop)
    (hfail : ∀ sw res size, sw ≠ StatusWord.SW_OK →
      P { sw := sw, dev := dev, res_APDU := res, res_APDU_size := size })
    (hok : ¬ apdu.nc < CTAP_CHAL_SIZE + CTAP_APPID_SIZE + 1 + 1 →
      ∀ key flags sig,
        key =
          (if (credential_verify ((reqKeyHandle apdu).take (reqKeyHandleLen apdu))
              (reqAppId apdu) == 0) = true then
            (fido_load_key env dev FIDO2_CURVE_P256 (reqKeyHandle apdu) mbedtls_ecdsa_init).2
          else
            (derive_key env dev (fun _ => 0) (reqAppId apdu) false (reqKeyHandle apdu)
              MBEDTLS_ECP_DP_SECP256R1 (some mbedtls_ecdsa_init)).key.getD
                mbedtls_ecdsa_init) →
        flags = (0 ||| (if (apdu.p1 == CTAP_AUTH_ENFORCE) = true then CTAP_AUTH_FLAG_TUP
          else 0x0)) →
        sig = (env.mbedtls_ecdsa_write_signature key MBEDTLS_MD_SHA256
          ((env.mbedtls_md MBEDTLS_MD_SHA256
            (reqAppId apdu ++ [flags] ++ ctrBytes (get_sign_counter dev) ++ reqChal apdu)).2.take
              32)).2 →
        P { sw := .SW_OK,
            dev := { dev with ef_counter := u32le ((get_sign_counter dev + 1) % 2 ^ 32) },
            res_APDU := flags :: ctrBytes (get_sign_counter dev) ++ sig,
            res_APDU_size := 1 + 4 + sig.length }) :
    P (cmd_authenticate env credential_verify dev wait_button_pressed apdu) := by
  unfold cmd_authenticate
  refine ite_shape P _ _ _ (hfail _ _ _ ?_) (fun h1 => ?_)
  · decide
  refine ite_shape P _ _ _ (hfail _ _ _ ?_) (fun _ => ?_)
  · decide
  refine ite_shape P _ _ _ (hfail _ _ _ ?_) (fun _ => ?_)
  · decide
  lift_lets
  intro key tmp_kh verified loaded derived key1 ret
  refine ite_shape P _ _ _ (hfail _ _ _ ?_) (fun _ => ?_)
  · decide
  refine ite_shape P _ _ _ (hfail _ _ _ ?_) (fun _ => ?_)
  · decide
  refine ite_shape P _ _ _ (hfail _ _ _ ?_) (fun _ => ?_)
  · decide
  refine ite_shape P _ _ _ (hfail _ _ _ ?_) (fun _ => ?_)
  · decide
  refine ite_shape P _ _ _ (hfail _ _ _ ?_) (fun _ => ?_)
  · decide
  exact hok h1 key1 _ _ rfl rfl rfl

/-- C25. Legacy U2F Authenticate, for every request whose command data lie in the
buffer. When `cmd_authenticate` returns `SW_OK`: the response is the flags byte, the
four big-endian bytes of the counter read before the request and the signature,
and its size is 5 plus the length of the signature; the flags byte is the
user-presence bit when P1 is enforce-presence and 0 otherwise; the signature is made,
with the key loaded or derived from the handle, over the SHA-256 digest of the 32
bytes of the application hash, that flags byte, those counter bytes and the 32 bytes
of the challenge; and the counter file holds the counter plus one (modulo `2 ^ 32`).
When it returns another status word, the device state, the counter included, is as
before. -/
theorem u2f_authenticate_response (env : Env) (credential_verify : Bytes → Bytes → Int)
    (dev : Device) (wait_button_pressed : Bool) (apdu : Apdu)
    (hbuf : apdu.nc ≤ apdu.data.length) :
    ((cmd_authenticate env credential_verify dev wait_button_pressed apdu).sw = .SW_OK →
      ∃ flags key sig,
        flags = (if apdu.p1 = CTAP_AUTH_ENFORCE then CTAP_AUTH_FLAG_TUP else 0) ∧
        (reqChal apdu).length = 32 ∧ (reqAppId apdu).length = 32 ∧
        key =
          (if credential_verify ((reqKeyHandle apdu).take (reqKeyHandleLen apdu))
              (reqAppId apdu) = 0 then
            (fido_load_key env dev FIDO2_CURVE_P256 (reqKeyHandle apdu) mbedtls_ecdsa_init).2
          else
            (derive_key env dev (fun _ => 0) (reqAppId apdu) false (reqKeyHandle apdu)
              MBEDTLS_ECP_DP_SECP256R1 (some mbedtls_ecdsa_init)).key.getD
                mbedtls_ecdsa_init) ∧
        sig = (env.mbedtls_ecdsa_write_signature key MBEDTLS_MD_SHA256
          ((env.mbedtls_md MBEDTLS_MD_SHA256
            (reqAppId apdu ++ [flags] ++ be32 (get_sign_counter dev) ++ reqChal apdu)).2.take
              32)).2 ∧
        (cmd_authenticate env credential_verify dev wait_button_pressed apdu).res_APDU
          = [flags] ++ be32 (get_sign_counter dev) ++ sig ∧
        (cmd_authenticate env credential_verify dev wait_button_pressed apdu).res_APDU_size
          = 5 + sig.length ∧
        get_sign_counter
            (cmd_authenticate env credential_verify dev wait_button_pressed apdu).dev
          = (get_sign_counter dev + 1) % 2 ^ 32) ∧
    ((cmd_authenticate env credential_verify dev wait_button_pressed apdu).sw ≠ .SW_OK →
      (cmd_authenticate env credential_verify dev wait_button_pressed apdu).dev = dev) := by
  refine cmd_authenticate_shape env credential_verify dev wait_button_pressed apdu
    (fun r => (r.sw = .SW_OK → ∃ flags key sig,
        flags = (if apdu.p1 = CTAP_AUTH_ENFORCE then CTAP_AUTH_FLAG_TUP else 0) ∧
        (reqChal apdu).length = 32 ∧ (reqAppId apdu).length = 32 ∧
        key =
          (if credential_verify ((reqKeyHandle apdu).take (reqKeyHandleLen apdu))
              (reqAppId apdu) = 0 then
            (fido_load_key env dev FIDO2_CURVE_P256 (reqKeyHandle apdu) mbedtls_ecdsa_init).2
          else
            (derive_key env dev (fun _ => 0) (reqAppId apdu) false (reqKeyHandle apdu)
              MBEDTLS_ECP_DP_SECP256R1 (some mbedtls_ecdsa_init)).key.getD
                mbedtls_ecdsa_init) ∧
        sig = (env.mbedtls_ecdsa_write_signature key MBEDTLS_MD_SHA256
          ((env.mbedtls_md MBEDTLS_MD_SHA256
            (reqAppId apdu ++ [flags] ++ be32 (get_sign_counter dev) ++ reqChal apdu)).2.take
              32)).2 ∧
        r.res_APDU = [flags] ++ be32 (get_sign_counter dev) ++ sig ∧
        r.res_APDU_size = 5 + sig.length ∧
        get_sign_counter r.dev = (get_sign_counter dev + 1) % 2 ^ 32) ∧
      (r.sw ≠ .SW_OK → r.dev = dev)) ?_ ?_
  · intro sw res size hsw
    exact ⟨fun h => absurd h hsw, fun _ => rfl⟩
  · intro h1 key flags sig hkey hflags hsig
    obtain ⟨hl1, hl2⟩ := request_fields_length apdu hbuf h1
    refine ⟨fun _ => ⟨flags, key, sig, ?_, hl1, hl2, ?_, ?_, ?_, ?_, ?_⟩, fun h => absurd rfl h⟩
    · rw [hflags, Nat.zero_or]
      simp only [beq_iff_eq]
    · rw [hkey]
      simp only [beq_iff_eq]
    · rw [hsig, ctrBytes_eq]
    · show flags :: ctrBytes (get_sign_counter dev) ++ sig = _
      rw [ctrBytes_eq]
      rfl
    · show 1 + 4 + sig.length = _
      omega
    · exact get_sign_counter_written dev _ (Nat.mod_lt _ (by decide))

set_option maxRecDepth 8192 in
/-- Witness of C25: an authenticate request with P1 enforce-presence for the example
handle, which `credential_verify` does not take for a credential and which
`verify_key` accepts: the response is the flags byte 1, the counter 0 and a two-byte
signature, and the counter goes from 0 to 1. -/
theorem u2f_authenticate_response_witness :
    (exampleApdu CTAP_AUTH_ENFORCE).nc ≤ (exampleApdu CTAP_AUTH_ENFORCE).data.length ∧
      (cmd_authenticate exampleEnv (fun _ _ => 1) exampleDevice false
        (exampleApdu CTAP_AUTH_ENFORCE)).sw = .SW_OK ∧
      (cmd_authenticate exampleEnv (fun _ _ => 1) exampleDevice false
        (exampleApdu CTAP_AUTH_ENFORCE)).res_APDU = [1, 0, 0, 0, 0, 35, 1] ∧
      get_sign_counter exampleDevice = 0 ∧
      (cmd_authenticate exampleEnv (fun _ _ => 1) exampleDevice false
        (exampleApdu CTAP_AUTH_CHECK_ONLY)).sw = .SW_CONDITIONS_NOT_SATISFIED ∧
      (cmd_authenticate exampleEnv (fun _ _ => 1) exampleDevice false
        (exampleApdu CTAP_AUTH_CHECK_ONLY)).dev = exampleDevice ∧
      ∃ flags key sig,
        flags = (if (exampleApdu CTAP_AUTH_ENFORCE).p1 = CTAP_AUTH_ENFORCE then
          CTAP_AUTH_FLAG_TUP else 0) ∧
        (cmd_authenticate exampleEnv (fun _ _ => 1) exampleDevice false
          (exampleApdu CTAP_AUTH_ENFORCE)).res_APDU
          = [flags] ++ be32 (get_sign_counter exampleDevice) ++ sig ∧
        sig = (exampleEnv.mbedtls_ecdsa_write_signature key MBEDTLS_MD_SHA256
          ((exampleEnv.mbedtls_md MBEDTLS_MD_SHA256
            (reqAppId (exampleApdu CTAP_AUTH_ENFORCE) ++ [flags]
              ++ be32 (get_sign_counter exampleDevice)
              ++ reqChal (exampleApdu CTAP_AUTH_ENFORCE))).2.take 32)).2 ∧
        get_sign_counter (cmd_authenticate exampleEnv (fun _ _ => 1) exampleDevice false
          (exampleApdu CTAP_AUTH_ENFORCE)).dev = (get_sign_counter exampleDevice + 1) % 2 ^ 32 :=
  ⟨by decide, by decide, by decide, by decide, by decide,
    (u2f_authenticate_response exampleEnv (fun _ _ => 1) exampleDevice false
      (exampleApdu CTAP_AUTH_CHECK_ONLY) (by decide)).2 (by decide),
    ((u2f_authenticate_response exampleEnv (fun _ _ => 1) exampleDevice false
      (exampleApdu CTAP_AUTH_ENFORCE) (by decide)).1 (by decide)).elim
      (fun flags h => h.elim (fun key h2 => h2.elim (fun sig h3 =>
        ⟨flags, key, sig, h3.1, h3.2.2.2.2.2.1, h3.2.2.2.2.1, h3.2.2.2.2.2.2.2⟩)))⟩

/-! ## The signing key of the selected credential -/

theorem derive_key_loop_status (env : Env) (hs : MbedtlsStatus env) (rnd : Nat → Nat)
    (new_key : Bool) (l : List Nat) (outk kh : Bytes) :
    (derive_key_loop env rnd new_key l outk kh).1 ≤ 0 := by
  induction l generalizing outk kh with
  | nil => exact le_refl _
  | cons i rest ih =>
    unfold derive_key_loop
    dsimp only
    split_ifs <;> first | exact hs.hkdf _ _ _ _ _ | exact ih _ _

/-- With `new_key == false` the status of `derive_key` is that of `load_keydev` or
of an mbedtls primitive, or 1 when the curve is unknown to mbedtls: never the
positive CTAP status of an unsupported algorithm. -/
theorem derive_key_status (env : Env) (hs : MbedtlsStatus env) (dev : Device)
    (rnd : Nat → Nat) (app_id kh : Bytes) (curve : Nat)
    (key : Option mbedtls_ecdsa_context) :
    (derive_key env dev rnd app_id false kh curve key).ret ≤ 1 := by
  unfold derive_key
  have hk : (load_keydev dev (List.replicate 67 0)).1 ≤ 1 := by
    unfold load_keydev
    split_ifs <;>
      first
      | exact (by decide : CCID_ERR_MEMORY_FATAL ≤ 1)
      | exact (by decide : CCID_OK ≤ 1)
  have hl := derive_key_loop_status env hs rnd false (List.range KEY_PATH_ENTRIES)
    (load_keydev dev (List.replicate 67 0)).2 kh
  have h01 : (0 : Int) ≤ 1 := by decide
  cases key with
  | none =>
    dsimp only
    split_ifs <;>
      first
      | exact hk
      | exact le_trans hl h01
      | exact h01
      | exact absurd (by assumption : (false == true) = true) (by decide)
  | some ctx =>
    cases hci : env.mbedtls_ecp_curve_info_from_grp_id curve with
    | none =>
      dsimp only
      split_ifs <;>
        first
        | exact hk
        | exact le_trans hl h01
        | exact le_refl _
        | exact absurd (by assumption : (false == true) = true) (by decide)
    | some bit_size =>
      dsimp only
      split_ifs <;>
        first
        | exact hk
        | exact le_trans hl h01
        | exact le_trans (hs.read_key _ _) h01
        | exact le_trans (hs.mul _ _) h01
        | exact absurd (by assumption : (false == true) = true) (by decide)

/-- C26, amended. `fido_load_key` returns the status of an unsupported algorithm and
leaves the key as it was when the curve identifier has no mapping in
`fido_curve_to_mbedtls`, and, the statuses of the mbedtls primitives being zero or
negative, only then. In the assertion step a failure of `fido_load_key` for the
selected credential is followed by a second derivation, `derive_key` on the
relying-party hash and the credential id with P-256 (line 413). When that derivation
succeeds its key is the signing key, and an assertion step that returns success has
signed the response with it: a GetAssertion that returns success although
`fido_load_key` failed for its first candidate answers with a signature made with the
key of the second derivation. When `fido_load_key` succeeds its key is the signing
key. No signing key is obtained exactly when both fail, and then the step ends with
`CTAP1_ERR_OTHER` and no response, and the request, GetAssertion as GetNextAssertion,
returns `CTAP1_ERR_OTHER` without a response and without writing the counter: the
device is as the user-presence step left it for GetAssertion, and as it was for
GetNextAssertion. -/
theorem signing_key_second_derivation (env : Env) (hs : MbedtlsStatus env) (dev : Device)
    (curve : Int) (cred_id : Bytes) (key : mbedtls_ecdsa_context)
    (p : Request) (rp_id_hash : Bytes) (next : Bool) (flags n : Nat) (selcred : Credential) :
    (fido_curve_to_mbedtls curve = MBEDTLS_ECP_DP_NONE →
      fido_load_key env dev curve cred_id key = ((CTAP2_ERR_UNSUPPORTED_ALGORITHM : Int), key)) ∧
    ((fido_load_key env dev curve cred_id key).1 = (CTAP2_ERR_UNSUPPORTED_ALGORITHM : Int) →
      fido_curve_to_mbedtls curve = MBEDTLS_ECP_DP_NONE) ∧
    (loadSigningKey env dev rp_id_hash selcred = none ↔
      (fido_load_key env dev (toInt32 selcred.curve) (selcred.id.getD [])
        mbedtls_ecdsa_init).1 ≠ 0 ∧
      (derive_key env dev (fun _ => 0) rp_id_hash false (selcred.id.getD [])
        MBEDTLS_ECP_DP_SECP256R1
        (some (fido_load_key env dev (toInt32 selcred.curve) (selcred.id.getD [])
          mbedtls_ecdsa_init).2)).ret ≠ 0) ∧
    (loadSigningKey env dev rp_id_hash selcred = none →
      buildAssertion env dev p rp_id_hash next flags n selcred = (CTAP1_ERR_OTHER, dev, none)) ∧
    ((fido_load_key env dev (toInt32 selcred.curve) (selcred.id.getD [])
        mbedtls_ecdsa_init).1 = 0 →
      loadSigningKey env dev rp_id_hash selcred
        = some (fido_load_key env dev (toInt32 selcred.curve) (selcred.id.getD [])
            mbedtls_ecdsa_init).2) ∧
    ((fido_load_key env dev (toInt32 selcred.curve) (selcred.id.getD [])
        mbedtls_ecdsa_init).1 ≠ 0 →
      (derive_key env dev (fun _ => 0) rp_id_hash false (selcred.id.getD [])
        MBEDTLS_ECP_DP_SECP256R1
        (some (fido_load_key env dev (toInt32 selcred.curve) (selcred.id.getD [])
          mbedtls_ecdsa_init).2)).ret = 0 →
      ∃ ekey,
        ekey = (derive_key env dev (fun _ => 0) rp_id_hash false (selcred.id.getD [])
          MBEDTLS_ECP_DP_SECP256R1
          (some (fido_load_key env dev (toInt32 selcred.curve) (selcred.id.getD [])
            mbedtls_ecdsa_init).2)).key.getD
            (fido_load_key env dev (toInt32 selcred.curve) (selcred.id.getD [])
              mbedtls_ecdsa_init).2 ∧
        loadSigningKey env dev rp_id_hash selcred = some ekey ∧
        ((buildAssertion env dev p rp_id_hash next flags n selcred).1 = 0 →
          ∃ r, (buildAssertion env dev p rp_id_hash next flags n selcred).2.2 = some r ∧
            r.signature = (env.mbedtls_ecdsa_write_signature ekey (signingDigest ekey)
              (env.mbedtls_md (signingDigest ekey)
                (r.authData ++ p.clientDataHash.getD [])).2).2)) ∧
    (∀ (s : Session) (dev0 : Device) (up_ok : Bool) (millis : Nat) (data : Bytes)
        (rc : Resolved),
      env.cbor_parse data = .ok p → p.rpId.isSome = true → p.clientDataHash.isSome = true →
      resolveCandidates env dev0 up_ok p (env.mbedtls_sha256 (p.rpId.getD [])) = .ok rc →
      loadSigningKey env rc.dev (env.mbedtls_sha256 (p.rpId.getD []))
        (rc.creds.getD 0 Credential.zero) = none →
      (cbor_get_assertion env s dev0 up_ok millis data false).ret = CTAP1_ERR_OTHER ∧
        (cbor_get_assertion env s dev0 up_ok millis data false).resp = none ∧
        (cbor_get_assertion env s dev0 up_ok millis data false).dev = rc.dev ∧
        get_sign_counter (cbor_get_assertion env s dev0 up_ok millis data false).dev
          = get_sign_counter dev0) ∧
    (∀ (s : Session) (dev0 : Device) (up_ok : Bool) (millis : Nat) (data : Bytes)
        (rc : Resolved),
      env.cbor_parse data = .ok p → p.rpId.isSome = true → p.clientDataHash.isSome = true →
      resolveCandidates env dev0 up_ok p (env.mbedtls_sha256 (p.rpId.getD [])) = .ok rc →
      (fido_load_key env rc.dev (toInt32 (rc.creds.getD 0 Credential.zero).curve)
        ((rc.creds.getD 0 Credential.zero).id.getD []) mbedtls_ecdsa_init).1 ≠ 0 →
      (cbor_get_assertion env s dev0 up_ok millis data false).ret = 0 →
      ∃ ekey r,
        ekey = (derive_key env rc.dev (fun _ => 0) (env.mbedtls_sha256 (p.rpId.getD [])) false
          ((rc.creds.getD 0 Credential.zero).id.getD []) MBEDTLS_ECP_DP_SECP256R1
          (some (fido_load_key env rc.dev (toInt32 (rc.creds.getD 0 Credential.zero).curve)
            ((rc.creds.getD 0 Credential.zero).id.getD []) mbedtls_ecdsa_init).2)).key.getD
            (fido_load_key env rc.dev (toInt32 (rc.creds.getD 0 Credential.zero).curve)
              ((rc.creds.getD 0 Credential.zero).id.getD []) mbedtls_ecdsa_init).2 ∧
        (derive_key env rc.dev (fun _ => 0) (env.mbedtls_sha256 (p.rpId.getD [])) false
          ((rc.creds.getD 0 Credential.zero).id.getD []) MBEDTLS_ECP_DP_SECP256R1
          (some (fido_load_key env rc.dev (toInt32 (rc.creds.getD 0 Credential.zero).curve)
            ((rc.creds.getD 0 Credential.zero).id.getD []) mbedtls_ecdsa_init).2)).ret = 0 ∧
        (cbor_get_assertion env s dev0 up_ok millis data false).resp = some r ∧
        r.signature = (env.mbedtls_ecdsa_write_signature ekey (signingDigest ekey)
          (env.mbedtls_md (signingDigest ekey)
            (r.authData ++ p.clientDataHash.getD [])).2).2) ∧
    (∀ (s : Session) (dev0 : Device) (millis millis2 : Nat) (data : Bytes),
      s.credentialCounter < s.numberOfCredentialsx → expired s.timerx millis = false →
      env.cbor_parse ((s.datax.getD []).take s.lenx) = .ok p →
      p.rpId.isSome = true → p.clientDataHash.isSome = true →
      loadSigningKey env dev0 (env.mbedtls_sha256 (p.rpId.getD []))
        (s.credsx.getD s.credentialCounter Credential.zero) = none →
      (cbor_get_next_assertion env s dev0 millis millis2 data).ret = CTAP1_ERR_OTHER ∧
        (cbor_get_next_assertion env s dev0 millis millis2 data).resp = none ∧
        (cbor_get_next_assertion env s dev0 millis millis2 data).dev = dev0) := by
  have hfirst : ∀ h : fido_curve_to_mbedtls curve = MBEDTLS_ECP_DP_NONE,
      fido_load_key env dev curve cred_id key
        = ((CTAP2_ERR_UNSUPPORTED_ALGORITHM : Int), key) := by
    intro h
    unfold fido_load_key
    dsimp only
    rw [if_pos h]
  have hnone : ∀ (d : Device) (h : Bytes) (nx : Bool) (f m : Nat) (c : Credential),
      loadSigningKey env d h c = none →
        buildAssertion env d p h nx f m c = (CTAP1_ERR_OTHER, d, none) := by
    intro d h nx f m c hk
    unfold buildAssertion
    rw [hk]
  refine ⟨hfirst, ?_, ?_, hnone dev rp_id_hash next flags n selcred, ?_, ?_, ?_, ?_, ?_⟩
  · intro h
    by_contra hne
    unfold fido_load_key at h
    dsimp only at h
    rw [if_neg hne] at h
    have hle := derive_key_status env hs dev (fun _ => 0) []
      (hardenPath (writeAt (cred_id.take KEY_PATH_LEN) 0 (u32le (0x80000000 ||| 10022))))
      (fido_curve_to_mbedtls curve) (some key)
    have h2 : (derive_key env dev (fun _ => 0) [] false
        (hardenPath (writeAt (cred_id.take KEY_PATH_LEN) 0 (u32le (0x80000000 ||| 10022))))
        (fido_curve_to_mbedtls curve) (some key)).ret = (CTAP2_ERR_UNSUPPORTED_ALGORITHM : Int) := h
    rw [h2] at hle
    exact absurd hle (by decide)
  · unfold loadSigningKey
    dsimp only
    split
    · rename_i h1
      split
      · rename_i h2
        simp only [true_iff]
        exact ⟨by simpa using h1, by simpa using h2⟩
      · rename_i h2
        simp only [false_iff, not_and, reduceCtorEq]
        intro _
        simpa using h2
    · rename_i h1
      simp only [false_iff, not_and, reduceCtorEq]
      intro h
      exact absurd h (by simpa using h1)
  · intro h1
    unfold loadSigningKey
    dsimp only
    rw [if_neg (by simp [h1])]
  · intro h1 h2
    have hk : loadSigningKey env dev rp_id_hash selcred
        = some ((derive_key env dev (fun _ => 0) rp_id_hash false (selcred.id.getD [])
          MBEDTLS_ECP_DP_SECP256R1
          (some (fido_load_key env dev (toInt32 selcred.curve) (selcred.id.getD [])
            mbedtls_ecdsa_init).2)).key.getD
            (fido_load_key env dev (toInt32 selcred.curve) (selcred.id.getD [])
              mbedtls_ecdsa_init).2) := by
      unfold loadSigningKey
      dsimp only
      rw [if_pos (by simpa using h1), if_neg (by simp [h2])]
    refine ⟨_, rfl, hk, ?_⟩
    intro hb
    rcases buildAssertion_cases env dev p rp_id_hash next flags n selcred with
      ⟨hne, _⟩ | ⟨_, ekey, ext, flags1, r, hkey, _, hr, _, hsig, _, _⟩
    · exact absurd hb hne
    · rw [hk] at hkey
      cases hkey
      exact ⟨r, hr, hsig⟩
  · intro s dev0 up_ok millis data rc hparse hrp hcd hres hk
    rw [cbor_get_assertion_first env s dev0 up_ok millis data p hparse hrp hcd, hres]
    dsimp only
    rw [hnone rc.dev _ false rc.flags rc.numberOfCredentials _ hk]
    exact ⟨rfl, rfl, rfl, (resolveCandidates_flags env dev0 up_ok p _ rc hres).choose_spec.2.2.2⟩
  · intro s dev0 up_ok millis data rc hparse hrp hcd hres h1 hret
    rw [cbor_get_assertion_first env s dev0 up_ok millis data p hparse hrp hcd, hres] at hret ⊢
    dsimp only at hret ⊢
    have hb := (returnStatus_eq_zero _).1 hret
    rcases buildAssertion_cases env rc.dev p (env.mbedtls_sha256 (p.rpId.getD [])) false
      rc.flags rc.numberOfCredentials (rc.creds.getD 0 Credential.zero) with
      ⟨hne, _⟩ | ⟨_, ekey, ext, flags1, r, hkey, _, hr, _, hsig, _, _⟩
    · exact absurd hb hne
    · unfold loadSigningKey at hkey
      dsimp only at hkey
      rw [if_pos (by simpa using h1)] at hkey
      split at hkey
      · cases hkey
      · rename_i h2
        cases hkey
        exact ⟨_, r, rfl, by simpa using h2, hr, hsig⟩
  · intro s dev0 millis millis2 data hcur hexp hparse hrp hcd hk
    have hm : (p.rpId.isNone || p.clientDataHash.isNone) = false := by
      cases h1 : p.rpId <;> cases h2 : p.clientDataHash <;> simp_all
    have hinner : cbor_get_assertion env s dev0 false millis ((s.datax.getD []).take s.lenx) true
        = { ret := CTAP1_ERR_OTHER, sess := s, dev := dev0, resp := none } := by
      unfold cbor_get_assertion
      simp only [hparse, hm, Bool.false_eq_true, if_false, Bool.true_eq_false]
      rw [hnone dev0 _ true s.flagsx s.numberOfCredentialsx _ hk]
      rfl
    unfold cbor_get_next_assertion
    rw [if_neg (by omega), hexp]
    simp only [Bool.false_eq_true, if_false]
    rw [hinner]
    have he := nextEpilogue_error CTAP1_ERR_OTHER s dev0 none (by decide)
    dsimp only
    rw [if_pos (show (CTAP1_ERR_OTHER != CborNoError) = true by decide)]
    exact ⟨he.2.2.2 (by decide), he.2.2.1, nextEpilogue_dev _ _ _ _⟩

/-- Witness of the amended C26: the credential of the relying party `[2]` is given the
curve identifier 7, which has no mapping; `fido_load_key` fails with the status 0x26
and an untouched key, the second derivation succeeds, its key is the signing key, and
the GetAssertion request returns success with a response signed with it. -/
theorem signing_key_second_derivation_witness :
    fido_curve_to_mbedtls 7 = MBEDTLS_ECP_DP_NONE ∧
      fido_load_key curveEnv exampleDevice 7 [0xB1] mbedtls_ecdsa_init
        = ((CTAP2_ERR_UNSUPPORTED_ALGORITHM : Int), mbedtls_ecdsa_init) ∧
      (curveResolved.creds.getD 0 Credential.zero).curve = 7 ∧
      (curveResolved.creds.getD 0 Credential.zero).id = some [0xB1] ∧
      (cbor_get_assertion curveEnv (Session.initial curveEnv) exampleDevice true 0 [2]
        false).ret = 0 ∧
      ∃ ekey r,
        ekey = (derive_key curveEnv curveResolved.dev (fun _ => 0)
          (curveEnv.mbedtls_sha256 [2]) false [0xB1] MBEDTLS_ECP_DP_SECP256R1
          (some mbedtls_ecdsa_init)).key.getD mbedtls_ecdsa_init ∧
        (cbor_get_assertion curveEnv (Session.initial curveEnv) exampleDevice true 0 [2]
          false).resp = some r ∧
        r.signature = (curveEnv.mbedtls_ecdsa_write_signature ekey (signingDigest ekey)
          (curveEnv.mbedtls_md (signingDigest ekey)
            (r.authData ++ (exampleRequest [2]).clientDataHash.getD [])).2).2 :=
  ⟨by decide,
    (signing_key_second_derivation curveEnv
      ⟨fun _ _ _ _ _ => le_refl _, fun _ _ => le_refl _, fun _ _ => le_refl _⟩
      exampleDevice 7 [0xB1] mbedtls_ecdsa_init (exampleRequest [2])
      (curveEnv.mbedtls_sha256 [2]) false 1 1
      { exampleCredential [0xB1] 3 with curve := 7 }).1 (by decide),
    by decide, by decide, by decide,
    ((signing_key_second_derivation curveEnv
      ⟨fun _ _ _ _ _ => le_refl _, fun _ _ => le_refl _, fun _ _ => le_refl _⟩
      exampleDevice 7 [0xB1] mbedtls_ecdsa_init (exampleRequest [2])
      (curveEnv.mbedtls_sha256 [2]) false 1 1
      { exampleCredential [0xB1] 3 with curve := 7 }).2.2.2.2.2.2.2.1
      (Session.initial curveEnv) exampleDevice true 0 [2] curveResolved rfl rfl rfl rfl
      (by decide) (by decide)).elim
      (fun ekey h => h.elim (fun r hr => ⟨ekey, r, hr.1, hr.2.2.1, hr.2.2.2⟩))⟩

/-- C26, counterexample. The credential of the relying party `[2]` carries the curve
identifier 7, which `fido_curve_to_mbedtls` does not map, so `fido_load_key` fails
for it with the status 0x26; the GetAssertion request nevertheless returns success
with an assertion, signed with the key of the second derivation, and writes the
counter. -/
theorem unsupported_curve_assertion_produced :
    fido_curve_to_mbedtls 7 = MBEDTLS_ECP_DP_NONE ∧
      (curveEnv.credential_load [0xB1, 3] (curveEnv.mbedtls_sha256 [2])).2.curve = 7 ∧
      (fido_load_key curveEnv exampleDevice 7 [0xB1] mbedtls_ecdsa_init).1
        = (CTAP2_ERR_UNSUPPORTED_ALGORITHM : Int) ∧
      (cbor_get_assertion curveEnv (Session.initial curveEnv) exampleDevice true 0 [2]
        false).ret = 0 ∧
      (cbor_get_assertion curveEnv (Session.initial curveEnv) exampleDevice true 0 [2]
        false).resp.map (fun r => (r.credential_id, r.signature))
        = some (some [0xB1], [184, 2]) ∧
      get_sign_counter (cbor_get_assertion curveEnv (Session.initial curveEnv) exampleDevice
        true 0 [2] false).dev = 1 := by
  decide

/-! ## The session globals after a failing call -/

/-- A call with `next == false` that returns an error status either leaves the
globals as they were, or it has resolved more than one candidate with `up` or `uv`
true, handed the list over to the globals, and failed in the assertion step that
follows the hand-over. -/
theorem failed_call_session (env : Env) (s : Session) (dev : Device) (up_ok : Bool)
    (millis : Nat) (data : Bytes)
    (_hret : (cbor_get_assertion env s dev up_ok millis data false).ret ≠ 0) :
    (cbor_get_assertion env s dev up_ok millis data false).sess = s ∨
      ∃ p rc, env.cbor_parse data = .ok p ∧
        resolveCandidates env dev up_ok p (env.mbedtls_sha256 (p.rpId.getD [])) = .ok rc ∧
        rc.numberOfCredentials > 1 ∧ ¬ (rc.up = false ∧ rc.uv = false) ∧
        (buildAssertion env rc.dev p (env.mbedtls_sha256 (p.rpId.getD [])) false rc.flags
          rc.numberOfCredentials (rc.creds.getD 0 Credential.zero)).1 ≠ 0 ∧
        (cbor_get_assertion env s dev up_ok millis data false).sess
          = createSession rc data millis := by
  cases hp : env.cbor_parse data with
  | error e =>
    left
    unfold cbor_get_assertion
    rw [hp]
  | ok p =>
    by_cases hm : p.rpId.isSome = true ∧ p.clientDataHash.isSome = true
    · rw [cbor_get_assertion_first env s dev up_ok millis data p hp hm.1 hm.2] at _hret ⊢
      cases hr : resolveCandidates env dev up_ok p (env.mbedtls_sha256 (p.rpId.getD [])) with
      | error x => exact Or.inl rfl
      | ok rc =>
        rw [hr] at _hret
        dsimp only at _hret ⊢
        by_cases h1 : (rc.up == false && rc.uv == false) = true
        · left
          rw [if_pos h1]
        · by_cases h2 : rc.numberOfCredentials > 1
          · right
            refine ⟨p, rc, rfl, hr, h2, ?_, ?_, ?_⟩
            · intro h3
              exact h1 (by simp [h3.1, h3.2])
            · intro h3
              exact _hret (by rw [h3]; rfl)
            · rw [if_neg h1, if_pos h2]
          · left
            rw [if_neg h1, if_neg h2]
    · left
      unfold cbor_get_assertion
      have hm2 : (p.rpId.isNone || p.clientDataHash.isNone) = true := by
        cases h1 : p.rpId <;> cases h2 : p.clientDataHash <;> simp_all
      simp only [hp, hm2, if_true]

/-- C27. A failed request can leave a new session behind: the hand-over of lines
387-400 comes before the steps that can still fail. On the example device, with no
session at first (a GetNextAssertion is answered with NotAllowed), a GetAssertion
request with the large-blob-key extension for the relying party `[1]` resolves three
candidates, hands them over, and then fails with `CTAP2_ERR_PROCESSING` in the
derivation of the large-blob key of the first candidate `[0xA2]`: it returns that
error without a response and without writing the counter, but the globals now hold
a session of three candidates with the cursor at 1, and the GetNextAssertion that
follows returns success with an assertion of the candidate `[0xA3]`. -/
theorem failed_request_leaves_session :
    (Session.initial blobFailEnv).numberOfCredentialsx = 0 ∧
      (cbor_get_next_assertion blobFailEnv (Session.initial blobFailEnv) exampleDevice
        10 10 []).ret = CTAP2_ERR_NOT_ALLOWED ∧
      (cbor_get_assertion blobFailEnv (Session.initial blobFailEnv) exampleDevice true 0 [1]
        false).ret = CTAP2_ERR_PROCESSING ∧
      (cbor_get_assertion blobFailEnv (Session.initial blobFailEnv) exampleDevice true 0 [1]
        false).resp = none ∧
      get_sign_counter (cbor_get_assertion blobFailEnv (Session.initial blobFailEnv)
        exampleDevice true 0 [1] false).dev = get_sign_counter exampleDevice ∧
      (cbor_get_assertion blobFailEnv (Session.initial blobFailEnv) exampleDevice true 0 [1]
        false).sess.numberOfCredentialsx = 3 ∧
      (cbor_get_assertion blobFailEnv (Session.initial blobFailEnv) exampleDevice true 0 [1]
        false).sess.credentialCounter = 1 ∧
      (cbor_get_assertion blobFailEnv (Session.initial blobFailEnv) exampleDevice true 0 [1]
        false).sess.credsx.map (fun c => c.id)
        = [some [0xA2], some [0xA3], some [0xA1], none] ∧
      (cbor_get_next_assertion blobFailEnv
        (cbor_get_assertion blobFailEnv (Session.initial blobFailEnv) exampleDevice true 0 [1]
          false).sess
        (cbor_get_assertion blobFailEnv (Session.initial blobFailEnv) exampleDevice true 0 [1]
          false).dev 10 10 []).ret = 0 ∧
      (cbor_get_next_assertion blobFailEnv
        (cbor_get_assertion blobFailEnv (Session.initial blobFailEnv) exampleDevice true 0 [1]
          false).sess
        (cbor_get_assertion blobFailEnv (Session.initial blobFailEnv) exampleDevice true 0 [1]
          false).dev 10 10 []).resp.map (fun r => r.credential_id) = some (some [0xA3]) := by
  decide

/-! ## The length check of the hmac-secret extension -/

/-- For the protocols 1 and 2 and an `IV_SIZE` below 256 the check of lines 278-279
does bound the length: a request that passes it hands 32 or 64 bytes to the HMAC and
encrypt step. -/
theorem hmac_secret_check_protocols (env : Env) (p : Request)
    (hext : p.extensions.present = true ∧ p.extensions.hmac_secret = some true)
    (hproto : p.hmacSecretPinUvAuthProtocol = 1 ∨ p.hmacSecretPinUvAuthProtocol = 2)
    (hiv : env.IV_SIZE < 256)
    (hcheck : checkHmacSecret env p = 0) :
    plaintextLen env p = 32 ∨ plaintextLen env p = 64 := by
  unfold checkHmacSecret at hcheck
  rw [if_pos (by simp [hext.1, hext.2])] at hcheck
  split at hcheck
  · exact absurd hcheck (by decide)
  · split at hcheck
    · exact absurd hcheck (by decide)
    · rename_i _ hlen
      unfold plaintextLen poff
      unfold saltLenFor at hlen
      generalize (p.salt_enc.getD []).length = n at hlen ⊢
      rcases hproto with h | h <;> rw [h] at hlen ⊢ <;>
        simp only [Bool.and_eq_true, bne_iff_ne, ne_eq, not_and, Classical.not_not] at hlen <;>
        norm_num at hlen ⊢ <;> omega

/-- C28. With an `IV_SIZE` of 16 bytes (the AES block; its header is not among the
sources) the check of lines 278-279 lets lengths other than 32 and 64 through: for
the protocol value 17 and a `salt_enc` of 288 bytes the 64-bit sum
`32 + (17 - 1) * 16` is 288, so the check passes, while the 8-bit `poff` is
`256 mod 256 = 0` and the length handed on is 288; for the protocol value 0 and a
`salt_enc` of 16 bytes the 64-bit sum `32 + (0 - 1) * 16` wraps to 16, so the check
passes, while `poff` is 240 and `salt_enc.len - poff` wraps below zero. -/
theorem hmac_secret_check_passes_other_lengths (env : Env) (hiv : env.IV_SIZE = 16) :
    checkHmacSecret env (exampleHmacRequest 17 288) = 0 ∧
      poff env (exampleHmacRequest 17 288) = 0 ∧
      plaintextLen env (exampleHmacRequest 17 288) = 288 ∧
      checkHmacSecret env (exampleHmacRequest 0 16) = 0 ∧
      poff env (exampleHmacRequest 0 16) = 240 ∧
      plaintextLen env (exampleHmacRequest 0 16) = 2 ^ 32 - 224 := by
  unfold checkHmacSecret plaintextLen poff saltLenFor exampleHmacRequest exampleRequest
  simp only [hiv, List.length_replicate, Option.getD_some]
  decide

/-- Witness of C28: the example environment, whose `IV_SIZE` is 16. -/
theorem hmac_secret_check_passes_other_lengths_witness :
    exampleEnv.IV_SIZE = 16 ∧
      checkHmacSecret exampleEnv (exampleHmacRequest 17 288) = 0 ∧
      plaintextLen exampleEnv (exampleHmacRequest 17 288) = 288 :=
  ⟨rfl, (hmac_secret_check_passes_other_lengths exampleEnv rfl).1,
    (hmac_secret_check_passes_other_lengths exampleEnv rfl).2.2.1⟩

/-! ## The two curve mappings -/

/-- The round trip through the two mappings gives back every mapped FIDO identifier
other than the one of X25519. -/
theorem curve_round_trip_others (c : Int)
    (hm : fido_curve_to_mbedtls c ≠ MBEDTLS_ECP_DP_NONE) (hc : c ≠ FIDO2_CURVE_X25519) :
    mbedtls_curve_to_fido (fido_curve_to_mbedtls c) = c := by
  unfold fido_curve_to_mbedtls at hm ⊢
  unfold FIDO2_CURVE_X25519 at hc
  simp only [FIDO2_CURVE_P256, FIDO2_CURVE_P384, FIDO2_CURVE_P521, FIDO2_CURVE_P256K1,
    FIDO2_CURVE_X25519, FIDO2_CURVE_X448] at hm ⊢
  split_ifs at hm ⊢ <;>
    first
    | exact absurd rfl hm
    | exact absurd (by assumption) hc
    | (subst_vars; rfl)

/-- The groups for which `mbedtls_curve_to_fido` returns 0 are those that no FIDO
identifier is mapped to, `MBEDTLS_ECP_DP_NONE` standing for "no mapping". -/
theorem mbedtls_curve_to_fido_zero (id : Nat) :
    mbedtls_curve_to_fido id = 0 ↔
      ¬ ∃ c : Int, fido_curve_to_mbedtls c = id ∧ id ≠ MBEDTLS_ECP_DP_NONE := by
  constructor
  · intro h ⟨c, hc, hn⟩
    subst hc
    unfold fido_curve_to_mbedtls at h hn
    split_ifs at h hn <;> first | exact absurd h (by decide) | exact hn rfl
  · intro h
    unfold mbedtls_curve_to_fido
    split_ifs with h1 h2 h3 h4 h5 h6
    · exact absurd ⟨FIDO2_CURVE_P256, h1.symm ▸ rfl, h1.symm ▸ (by decide)⟩ h
    · exact absurd ⟨FIDO2_CURVE_P384, h2.symm ▸ rfl, h2.symm ▸ (by decide)⟩ h
    · exact absurd ⟨FIDO2_CURVE_P521, h3.symm ▸ rfl, h3.symm ▸ (by decide)⟩ h
    · exact absurd ⟨FIDO2_CURVE_P256K1, h4.symm ▸ rfl, h4.symm ▸ (by decide)⟩ h
    · exact absurd ⟨FIDO2_CURVE_X25519, h5.symm ▸ rfl, h5.symm ▸ (by decide)⟩ h
    · exact absurd ⟨FIDO2_CURVE_X448, h6.symm ▸ rfl, h6.symm ▸ (by decide)⟩ h
    · rfl

/-- C29. The round trip fails for X25519: `fido_curve_to_mbedtls` maps the FIDO
identifier 4 to the group `MBEDTLS_ECP_DP_CURVE25519` (9), which is not
`MBEDTLS_ECP_DP_NONE`, and `mbedtls_curve_to_fido` maps that group to 9, the mbedtls
group number (fido.c line 136), not to 4; and 9 is no FIDO identifier that
`fido_curve_to_mbedtls` maps. For the other five identifiers the round trip is the
identity. -/
theorem curve_round_trip_breaks_at_x25519 :
    fido_curve_to_mbedtls FIDO2_CURVE_X25519 = MBEDTLS_ECP_DP_CURVE25519 ∧
      MBEDTLS_ECP_DP_CURVE25519 ≠ MBEDTLS_ECP_DP_NONE ∧
      FIDO2_CURVE_X25519 = 4 ∧
      mbedtls_curve_to_fido (fido_curve_to_mbedtls FIDO2_CURVE_X25519) = 9 ∧
      fido_curve_to_mbedtls 9 = MBEDTLS_ECP_DP_NONE ∧
      mbedtls_curve_to_fido (fido_curve_to_mbedtls FIDO2_CURVE_P256) = FIDO2_CURVE_P256 ∧
      mbedtls_curve_to_fido (fido_curve_to_mbedtls FIDO2_CURVE_P384) = FIDO2_CURVE_P384 ∧
      mbedtls_curve_to_fido (fido_curve_to_mbedtls FIDO2_CURVE_P521) = FIDO2_CURVE_P521 ∧
      mbedtls_curve_to_fido (fido_curve_to_mbedtls FIDO2_CURVE_P256K1) = FIDO2_CURVE_P256K1 ∧
      mbedtls_curve_to_fido (fido_curve_to_mbedtls FIDO2_CURVE_X448) = FIDO2_CURVE_X448 := by
  decide

/-! ## The OATH command `cmd_validate` -/

/-- A call of `cmd_validate` when no access code is stored: the status is
`SW_DATA_INVALID` and `validated` is set (oath.c lines 314-317). -/
theorem cmd_validate_no_code (env : Env) (find : Bytes → Nat → Nat → Option Bytes)
    (st : OathState) (apdu : Apdu) (chal resp : Bytes)
    (hchal : find apdu.data apdu.nc TAG_CHALLENGE = some chal)
    (hresp : find apdu.data apdu.nc TAG_RESPONSE = some resp)
    (hkey : st.ef_oath_code = none) :
    cmd_validate env find st apdu = (.SW_DATA_INVALID, { st with validated := true }) := by
  unfold cmd_validate
  simp only [hchal, hresp, hkey]

/-- A call of `cmd_validate` that returns `SW_OK`: the supplied response agrees with
the HMAC of the challenge of the device over the length of the response, whatever
that length is. -/
theorem cmd_validate_ok (env : Env) (find : Bytes → Nat → Nat → Option Bytes)
    (st : OathState) (apdu : Apdu)
    (hok : (cmd_validate env find st apdu).1 = .SW_OK) :
    ∃ resp key md, find apdu.data apdu.nc TAG_RESPONSE = some resp ∧
      st.ef_oath_code = some key ∧ get_oath_md_info (key.getD 0 0) = some md ∧
      memcmp (env.mbedtls_md_hmac md (key.drop 1) (st.challenge.take CHALLENGE_LEN)).2 resp
        resp.length = 0 ∧
      (cmd_validate env find st apdu).2.validated = true := by
  unfold cmd_validate at hok ⊢
  split at hok
  · cases hok
  · rename_i chal hchal
    split at hok
    · cases hok
    · rename_i resp hresp
      split at hok
      · cases hok
      · rename_i key hkey
        split at hok
        · cases hok
        · rename_i md hmd
          dsimp only at hok
          split_ifs at hok with h1 h2 h3
          refine ⟨resp, key, md, hresp, hkey, hmd, by simpa using h2, ?_⟩
          simp only [hchal, hresp, hkey, hmd]
          rw [if_neg h1, if_neg h2, if_neg h3]

/-- C30. The comparison of line 326 runs over the length of the supplied response
(`memcmp(hmac, resp, resp_len)`): for every request whose response tag 0x75 is
present with length zero, when an access code with a known algorithm is stored and
the two HMAC computations succeed, `cmd_validate` returns `SW_OK` and sets
`validated`, although the response is not the HMAC of the challenge. -/
theorem validate_accepts_empty_response (env : Env)
    (find : Bytes → Nat → Nat → Option Bytes) (st : OathState) (apdu : Apdu)
    (chal key : Bytes) (md : Nat)
    (hchal : find apdu.data apdu.nc TAG_CHALLENGE = some chal)
    (hresp : find apdu.data apdu.nc TAG_RESPONSE = some [])
    (hkey : st.ef_oath_code = some key)
    (hmd : get_oath_md_info (key.getD 0 0) = some md)
    (h1 : (env.mbedtls_md_hmac md (key.drop 1) (st.challenge.take CHALLENGE_LEN)).1 = 0)
    (h2 : (env.mbedtls_md_hmac md (key.drop 1) chal).1 = 0) :
    (cmd_validate env find st apdu).1 = .SW_OK ∧
      (cmd_validate env find st apdu).2.validated = true := by
  unfold cmd_validate
  simp only [hchal, hresp, hkey, hmd, h1, h2]
  simp [memcmp]

/-- Witness of C30: the device holds an access code and is not validated; the HMAC
of its challenge begins with the bytes 10, 11, 12; a validate command with an
empty response is answered with `SW_OK` and sets `validated`, and so is one with the
one-byte response `[10]`, while the response `[11]` is refused. -/
theorem validate_accepts_empty_response_witness :
    (exampleOathState false).validated = false ∧
      (exampleEnv.mbedtls_md_hmac MBEDTLS_MD_SHA1 [9, 9, 9] [1, 2, 3, 4, 5, 6, 7, 8]).2.take 4
        = [10, 11, 12, 0] ∧
      exampleFindTag (exampleValidateApdu []).data (exampleValidateApdu []).nc TAG_RESPONSE
        = some [] ∧
      (cmd_validate exampleEnv exampleFindTag (exampleOathState false)
        (exampleValidateApdu [])).1 = .SW_OK ∧
      (cmd_validate exampleEnv exampleFindTag (exampleOathState false)
        (exampleValidateApdu [])).2.validated = true ∧
      (cmd_validate exampleEnv exampleFindTag (exampleOathState false)
        (exampleValidateApdu [10])).1 = .SW_OK ∧
      (cmd_validate exampleEnv exampleFindTag (exampleOathState false)
        (exampleValidateApdu [11])).1 = .SW_DATA_INVALID :=
  ⟨rfl, by decide, by decide,
    (validate_accepts_empty_response exampleEnv exampleFindTag (exampleOathState false)
      (exampleValidateApdu []) [1, 1] [ALG_HMAC_SHA1, 9, 9, 9] MBEDTLS_MD_SHA1
      (by decide) (by decide) rfl (by decide) (by decide) (by decide)).1,
    (validate_accepts_empty_response exampleEnv exampleFindTag (exampleOathState false)
      (exampleValidateApdu []) [1, 1] [ALG_HMAC_SHA1, 9, 9, 9] MBEDTLS_MD_SHA1
      (by decide) (by decide) rfl (by decide) (by decide) (by decide)).2,
    by decide, by decide⟩

end PicoFido
